import Mathlib

/-!
# Esoterica animation graph: speed-scale runtime nodes and ragdoll tools nodes

A shallow embedding of `Animation_RuntimeGraphNode_SpeedScale.cpp` (the runtime update of the
two speed-scale nodes) and of `Animation_ToolsGraphNode_Ragdolls.cpp` (the compilation of the
two ragdoll tools nodes, see the section on the tools graph).

Conventions of the embedding of the runtime nodes.

* `float` is idealised as `ℚ`: arithmetic is exact, there is no rounding, no NaN and no infinity.
  Every float division the source evaluates is recorded in a trace (`Op.div`) together with its
  operands, so that "this division is (not) evaluated" is a statement about the trace and does
  not depend on the value Lean gives to `x / 0`.
* Whether the blend-in reaches the weight 1 depends on rounding. For that, `SpeedScaleNode::Update`
  is embedded a second time (`SpeedScaleNode.UpdateFloat`) with the result of every float
  addition, multiplication and division rounded by a `FloatArithmetic`, of which
  `Binary32.arithmetic` is IEEE 754 binary32 and `FloatArithmetic.unrounded` gives back the
  idealised embedding.
* A node is a record of its members; a pointer member to another node is the pointed-to node's
  observable state (`PoseNode`), a nullable pointer to a value node is an `Option`.
* The child pose node is foreign code: its `Update`, synchronized `Update` and `Initialize` are an
  arbitrary `ChildBehaviour`, which may change the context (its delta time included) at will.
* Each `Update` returns the result, the context and node after the call, and the trace of the
  operations it performed, in program order.
-/

namespace EE

/-- Build-time constants the source refers to and does not define: the tolerance of
`Math::IsNearZero` and whether `EE_DEVELOPMENT_TOOLS` is set. -/
structure BuildConfig where
  Epsilon : ℚ
  EE_DEVELOPMENT_TOOLS : Bool

namespace Math

/-- Modelled from the spec: `Math::Clamp` (the math header is not among the sources); spec 4.4:
the ramped weight is "clamped to [0,1]". -/
def Clamp (value lowerBound upperBound : ℚ) : ℚ :=
  min (max value lowerBound) upperBound

/-- Modelled from the spec: `Math::Lerp` (the math header is not among the sources); spec 4.4:
"interpolates the effective scale between 1.0 (unscaled) and the target scale by that weight". -/
def Lerp (a b t : ℚ) : ℚ :=
  a + (b - a) * t

/-- Modelled from the spec: `Math::IsNearZero` (the math header is not among the sources); spec 8:
"Near-zero scale (|s| < ε)". The tolerance is the build constant `Epsilon`. -/
def IsNearZero (cfg : BuildConfig) (value : ℚ) : Bool :=
  decide (|value| < cfg.Epsilon)

end Math

namespace Animation

/-- The sentinel `InvalidIndex`. -/
def InvalidIndex : Int := -1

/-- A slice of the per-frame sampled event buffer. -/
structure SampledEventRange where
  m_startIdx : Int
  m_endIdx : Int
deriving DecidableEq, Repr

/-- Modelled from the spec: the one-argument constructor `SampledEventRange( index )` (its
header is not among the sources); spec 4.4: "a well-formed empty `SampledEventRange` anchored at
the current buffer position". The empty range at `index`. -/
def SampledEventRange.at (index : Nat) : SampledEventRange :=
  { m_startIdx := index, m_endIdx := index }

/-- What a pose node's update returns: the pose task handle and the events it sampled. -/
structure GraphPoseNodeResult where
  m_taskIdx : Int
  m_sampledEventRange : SampledEventRange
deriving DecidableEq, Repr

/-- The default-constructed `GraphPoseNodeResult result;`. -/
def GraphPoseNodeResult.default : GraphPoseNodeResult :=
  { m_taskIdx := InvalidIndex
    m_sampledEventRange := { m_startIdx := InvalidIndex, m_endIdx := InvalidIndex } }

/-- A position on a sync track. -/
structure SyncTrackTime where
  m_eventIdx : Int
  m_percentageThrough : ℚ
deriving DecidableEq, Repr

/-- The range a synchronized update is asked to cover. -/
structure SyncTrackTimeRange where
  m_startTime : SyncTrackTime
  m_endTime : SyncTrackTime
deriving DecidableEq, Repr

/-- The members of `GraphContext` the speed-scale nodes read or write. `valid` is what
`context.IsValid()` returns; the sampled events are kept as opaque identifiers. -/
structure GraphContext where
  m_deltaTime : ℚ
  m_sampledEventsBuffer : List Nat
  valid : Bool
deriving DecidableEq, Repr

/-- The call `context.m_sampledEventsBuffer.GetNumSampledEvents()`. -/
def GraphContext.GetNumSampledEvents (context : GraphContext) : Nat :=
  context.m_sampledEventsBuffer.length

/-- The call `context.IsValid()`. -/
def GraphContext.IsValid (context : GraphContext) : Bool :=
  context.valid

/-! ## Tools graph: compilation of the ragdoll nodes

A shallow embedding of the two `Compile` functions of `Animation_ToolsGraphNode_Ragdolls.cpp`.

* The compilation context, the runtime definitions and the tools nodes connected to the input
  pins are declared in files that are not among the sources; they are modelled from the spec.
* `pDefinition` is the slot of the node's definition in the context's definition array; a write
  through it updates that slot.
* `int16_t` results are integers; `InvalidIndex` is -1 and `return false` returns 0.
* Each `Compile` returns its result, the context after the call and the operations the node
  itself performed, in program order (`CompileOp`).
-/

/-- A `StringID`; `valid` is what its `IsValid()` returns. -/
structure StringID where
  m_ID : Nat
  valid : Bool
deriving DecidableEq, Repr

/-- The call `id.IsValid()`. -/
def StringID.IsValid (id : StringID) : Bool := id.valid

/-- The states `GetDefinition` reports. -/
inductive NodeCompilationState where
  | NeedCompilation
  | AlreadyCompiled
deriving DecidableEq, Repr

/-- The members of `PoweredRagdollNode::Definition` that `Compile` reads or writes. -/
structure PoweredRagdollNode.Definition where
  m_nodeIdx : Int
  m_childNodeIdx : Int
  m_physicsBlendWeightNodeIdx : Int
  m_inpulseOriginVectorNodeIdx : Int
  m_inpulseForceVectorNodeIdx : Int
  m_dataSlotIdx : Int
  m_profileID : StringID
  m_physicsBlendWeight : ℚ
  m_isGravityEnabled : Bool
deriving DecidableEq, Repr

/-- The members of `SimulatedRagdollNode::Definition` that `Compile` reads or writes. -/
structure SimulatedRagdollNode.Definition where
  m_nodeIdx : Int
  m_entryNodeIdx : Int
  m_exitOptionNodeIndices : List Int
  m_dataSlotIdx : Int
  m_entryProfileID : StringID
  m_simulatedProfileID : StringID
  m_exitProfileID : StringID
deriving DecidableEq, Repr

/-- An entry of the definition array: the definition of a powered ragdoll node, of a
simulated ragdoll node, or of a node of another kind, of which only the slot is kept. -/
inductive NodeDefinition where
  | poweredRagdoll (definition : PoweredRagdollNode.Definition)
  | simulatedRagdoll (definition : SimulatedRagdollNode.Definition)
  | other (m_nodeIdx : Int)
deriving DecidableEq, Repr

/-- The member `m_nodeIdx` of a definition. -/
def NodeDefinition.m_nodeIdx : NodeDefinition → Int
  | NodeDefinition.poweredRagdoll definition => definition.m_nodeIdx
  | NodeDefinition.simulatedRagdoll definition => definition.m_nodeIdx
  | NodeDefinition.other m_nodeIdx => m_nodeIdx

/-- Modelled from the spec: a `PoweredRagdollNode::Definition` as `GetDefinition` creates it
(the runtime node's header is not among the sources); spec 3: a Definition holds "its own slot
index in the Definition Array" and the indices of the nodes it references, which refer to
nothing yet. -/
def PoweredRagdollNode.Definition.create (m_nodeIdx : Int) : PoweredRagdollNode.Definition :=
  { m_nodeIdx := m_nodeIdx
    m_childNodeIdx := InvalidIndex
    m_physicsBlendWeightNodeIdx := InvalidIndex
    m_inpulseOriginVectorNodeIdx := InvalidIndex
    m_inpulseForceVectorNodeIdx := InvalidIndex
    m_dataSlotIdx := InvalidIndex
    m_profileID := { m_ID := 0, valid := false }
    m_physicsBlendWeight := 1
    m_isGravityEnabled := false }

/-- Modelled from the spec: a `SimulatedRagdollNode::Definition` as `GetDefinition` creates it
(the runtime node's header is not among the sources); see
`PoweredRagdollNode.Definition.create`. The list of exit options is empty. -/
def SimulatedRagdollNode.Definition.create (m_nodeIdx : Int) :
    SimulatedRagdollNode.Definition :=
  { m_nodeIdx := m_nodeIdx
    m_entryNodeIdx := InvalidIndex
    m_exitOptionNodeIndices := []
    m_dataSlotIdx := InvalidIndex
    m_entryProfileID := { m_ID := 0, valid := false }
    m_simulatedProfileID := { m_ID := 0, valid := false }
    m_exitProfileID := { m_ID := 0, valid := false } }

/-- The error messages of the two `Compile` functions. -/
inductive CompileError where
  | disconnectedInputPin
  | failedPhysicsBlendWeightInput
  | failedImpulseOriginInput
  | failedImpulseForceInput
  | impulseNeedsOriginAndForce
  | invalidEntryProfileID
  | invalidSimulatedProfileID
  | invalidExitProfileID
deriving DecidableEq, Repr

/-- Modelled from the spec: `GraphCompilationContext` (its header is not among the sources);
spec 2 and 6: the Definition Array, the memoization of compiled nodes "keyed by node identity",
the error log, the registered resources and the variation being compiled. An authored node's
identity is a number. -/
structure GraphCompilationContext where
  m_nodeDefinitions : List NodeDefinition
  m_nodeIDToIndexMap : Nat → Option Nat
  m_log : List (Nat × CompileError)
  m_registeredResources : List Nat
  m_variationID : Nat

/-- What `GetDefinition` hands back: the state, the slot `pDefinition` points to, and the
context after the call. -/
structure GetDefinitionResult where
  state : NodeCompilationState
  pDefinition : Nat
  context : GraphCompilationContext

/-- Modelled from the spec: `context.GetDefinition<T>( this, pDefinition )` (not among the
sources); spec 4.1: "looks up whether this authored node already has a Definition registered
for the current compilation pass (memoization keyed by node identity)"; if so the existing
definition is handed back, otherwise a new one is appended to the array ("insertion order =
first-compiled order") with its own slot as `m_nodeIdx`, and registered for the node. -/
def GraphCompilationContext.GetDefinition (context : GraphCompilationContext) (nodeID : Nat)
    (create : Int → NodeDefinition) : GetDefinitionResult :=
  match context.m_nodeIDToIndexMap nodeID with
  | some slot =>
    { state := NodeCompilationState.AlreadyCompiled, pDefinition := slot, context := context }
  | none =>
    { state := NodeCompilationState.NeedCompilation
      pDefinition := context.m_nodeDefinitions.length
      context :=
        { context with
          m_nodeDefinitions :=
            context.m_nodeDefinitions ++ [create (context.m_nodeDefinitions.length : Int)]
          m_nodeIDToIndexMap := fun k =>
            if k = nodeID then some context.m_nodeDefinitions.length
            else context.m_nodeIDToIndexMap k } }

/-- Modelled from the spec: `context.LogError( this, message )` (not among the sources); spec
6: errors are logged "with the offending authored node as context". -/
def GraphCompilationContext.LogError (context : GraphCompilationContext) (nodeID : Nat)
    (error : CompileError) : GraphCompilationContext :=
  { context with m_log := context.m_log ++ [(nodeID, error)] }

/-- Modelled from the spec: `context.RegisterResource( resourceID )` (not among the sources);
spec 6: "`RegisterResource(resourceId) -> slotIndex`". The slot of the resource, which is
added when it is not registered yet. -/
def GraphCompilationContext.RegisterResource (context : GraphCompilationContext)
    (resourceID : Nat) : Int × GraphCompilationContext :=
  if resourceID ∈ context.m_registeredResources then
    ((context.m_registeredResources.indexOf resourceID : Nat), context)
  else
    ((context.m_registeredResources.length : Nat),
     { context with m_registeredResources := context.m_registeredResources ++ [resourceID] })

/-- The entry of a list at a position replaced by its image under `f`. -/
def modifyAt {α : Type} (f : α → α) : Nat → List α → List α
  | _, [] => []
  | 0, x :: xs => f x :: xs
  | n + 1, x :: xs => x :: modifyAt f n xs

/-- The read `pDefinition->m_nodeIdx`. -/
def GraphCompilationContext.nodeIdxAt (context : GraphCompilationContext) (pDefinition : Nat) :
    Int :=
  (context.m_nodeDefinitions.getD pDefinition (NodeDefinition.other InvalidIndex)).m_nodeIdx

/-- A write through `pDefinition` to a member of a `PoweredRagdollNode::Definition`. -/
def GraphCompilationContext.writePowered (context : GraphCompilationContext) (pDefinition : Nat)
    (f : PoweredRagdollNode.Definition → PoweredRagdollNode.Definition) :
    GraphCompilationContext :=
  { context with
    m_nodeDefinitions := modifyAt (fun entry =>
      match entry with
      | NodeDefinition.poweredRagdoll definition => NodeDefinition.poweredRagdoll (f definition)
      | other => other) pDefinition context.m_nodeDefinitions }

/-- A write through `pDefinition` to a member of a `SimulatedRagdollNode::Definition`. -/
def GraphCompilationContext.writeSimulated (context : GraphCompilationContext)
    (pDefinition : Nat)
    (f : SimulatedRagdollNode.Definition → SimulatedRagdollNode.Definition) :
    GraphCompilationContext :=
  { context with
    m_nodeDefinitions := modifyAt (fun entry =>
      match entry with
      | NodeDefinition.simulatedRagdoll definition =>
        NodeDefinition.simulatedRagdoll (f definition)
      | other => other) pDefinition context.m_nodeDefinitions }

/-- The read `pDefinition->m_exitOptionNodeIndices`. -/
def GraphCompilationContext.exitOptionNodeIndicesAt (context : GraphCompilationContext)
    (pDefinition : Nat) : List Int :=
  match context.m_nodeDefinitions.getD pDefinition (NodeDefinition.other InvalidIndex) with
  | NodeDefinition.simulatedRagdoll definition => definition.m_exitOptionNodeIndices
  | _ => []

/-- Modelled from the spec: a tools node connected to an input pin, seen through its
`Compile( context )` (the other tools nodes are not among the sources). Its compilation is any
function of the context that leaves the definitions already in the array in place and the
nodes already registered registered (spec 3: the array is ordered by first compilation and a
definition is addressed by its slot; spec 4.1: a node compiled once stays compiled for the
pass). -/
structure FlowToolsNode where
  Compile : GraphCompilationContext → Int × GraphCompilationContext
  keepsDefinitions : ∀ context,
    (Compile context).2.m_nodeDefinitions.take context.m_nodeDefinitions.length
      = context.m_nodeDefinitions
  keepsRegistered : ∀ context nodeID slot, context.m_nodeIDToIndexMap nodeID = some slot →
    (Compile context).2.m_nodeIDToIndexMap nodeID = some slot

/-- The reference members of the two definitions. -/
inductive ReferenceField where
  | m_childNodeIdx
  | m_physicsBlendWeightNodeIdx
  | m_inpulseOriginVectorNodeIdx
  | m_inpulseForceVectorNodeIdx
  | m_entryNodeIdx
  | m_exitOptionNodeIndices
deriving DecidableEq, Repr

/-- The operations a `Compile` performs itself: the compilation of the node on an input pin
(with the index it returned), the write of a compiled index to a reference member of the
definition, an error logged, a resource registered, and the write of the literal members of the
definition (lines 109-112, 206-209). -/
inductive CompileOp where
  | compileInput (pinIdx : Nat) (compiledNodeIdx : Int)
  | writeReference (field : ReferenceField) (compiledNodeIdx : Int)
  | logError (error : CompileError)
  | registerResource (resourceID : Nat)
  | writeSettings
deriving DecidableEq, Repr

/-- The input pins compiled, with the index each compilation returned, in order. -/
def compiledInputs : List CompileOp → List (Nat × Int)
  | [] => []
  | CompileOp.compileInput pinIdx compiledNodeIdx :: ops =>
    (pinIdx, compiledNodeIdx) :: compiledInputs ops
  | _ :: ops => compiledInputs ops

/-- The resources registered, in order. -/
def registeredResources : List CompileOp → List Nat
  | [] => []
  | CompileOp.registerResource resourceID :: ops => resourceID :: registeredResources ops
  | _ :: ops => registeredResources ops

/-- What a `Compile` leaves behind. -/
structure CompileOutcome where
  result : Int
  context : GraphCompilationContext
  trace : List CompileOp

/-- An outcome with operations performed before it put in front of its own. -/
def CompileOutcome.after (ops : List CompileOp) (outcome : CompileOutcome) : CompileOutcome :=
  { outcome with trace := ops ++ outcome.trace }

/-! ### PoweredRagdollToolsNode -/

/-- The members of a `PoweredRagdollToolsNode` that `Compile` reads: its identity (`this`), the
nodes connected to its four input pins, its literal members, and the resource its variation
data resolves to for a variation. -/
structure PoweredRagdollToolsNode where
  nodeID : Nat
  m_inputs : List (Option FlowToolsNode)
  m_profileID : StringID
  m_physicsBlendWeight : ℚ
  m_isGravityEnabled : Bool
  ragdollDefinitionResourceID : Nat → Nat

/-- The call `GetConnectedInputNode<FlowToolsNode>( pinIdx )`. -/
def PoweredRagdollToolsNode.GetConnectedInputNode (node : PoweredRagdollToolsNode)
    (pinIdx : Nat) : Option FlowToolsNode :=
  node.m_inputs.getD pinIdx none

/-- Lines 97-114 of `PoweredRagdollToolsNode::Compile`: the check that the impulse origin and
force are both set or both unset, and the literal members. -/
def PoweredRagdollToolsNode.compileSettings (node : PoweredRagdollToolsNode) (pDefinition : Nat)
    (context : GraphCompilationContext) : CompileOutcome :=
  let pImpulseOriginNode := node.GetConnectedInputNode 2
  let pImpulseForceNode := node.GetConnectedInputNode 3
  if (pImpulseOriginNode.isSome || pImpulseForceNode.isSome)
      && (pImpulseOriginNode.isNone || pImpulseForceNode.isNone) then
    { result := InvalidIndex
      context := context.LogError node.nodeID CompileError.impulseNeedsOriginAndForce
      trace := [CompileOp.logError CompileError.impulseNeedsOriginAndForce] }
  else
    let resourceID := node.ragdollDefinitionResourceID context.m_variationID
    let registered := context.RegisterResource resourceID
    let written := registered.2.writePowered pDefinition (fun definition =>
      { definition with m_dataSlotIdx := registered.1
                        m_profileID := node.m_profileID
                        m_physicsBlendWeight := node.m_physicsBlendWeight
                        m_isGravityEnabled := node.m_isGravityEnabled })
    { result := written.nodeIdxAt pDefinition
      context := written
      trace := [CompileOp.registerResource resourceID, CompileOp.writeSettings] }

/-- Lines 82-95 of `PoweredRagdollToolsNode::Compile`: the impulse force input (pin 3). -/
def PoweredRagdollToolsNode.compileImpulseForce (node : PoweredRagdollToolsNode)
    (pDefinition : Nat) (context : GraphCompilationContext) : CompileOutcome :=
  match node.GetConnectedInputNode 3 with
  | some pImpulseForceNode =>
    let compiled := pImpulseForceNode.Compile context
    if compiled.1 ≠ InvalidIndex then
      (node.compileSettings pDefinition (compiled.2.writePowered pDefinition (fun definition =>
        { definition with m_inpulseForceVectorNodeIdx := compiled.1 }))).after
        [CompileOp.compileInput 3 compiled.1,
         CompileOp.writeReference ReferenceField.m_inpulseForceVectorNodeIdx compiled.1]
    else
      { result := InvalidIndex
        context := compiled.2.LogError node.nodeID CompileError.failedImpulseForceInput
        trace := [CompileOp.compileInput 3 compiled.1,
                  CompileOp.logError CompileError.failedImpulseForceInput] }
  | none => node.compileSettings pDefinition context

/-- Lines 67-80 of `PoweredRagdollToolsNode::Compile`: the impulse origin input (pin 2). -/
def PoweredRagdollToolsNode.compileImpulseOrigin (node : PoweredRagdollToolsNode)
    (pDefinition : Nat) (context : GraphCompilationContext) : CompileOutcome :=
  match node.GetConnectedInputNode 2 with
  | some pImpulseOriginNode =>
    let compiled := pImpulseOriginNode.Compile context
    if compiled.1 ≠ InvalidIndex then
      (node.compileImpulseForce pDefinition (compiled.2.writePowered pDefinition
        (fun definition => { definition with m_inpulseOriginVectorNodeIdx := compiled.1 }))).after
        [CompileOp.compileInput 2 compiled.1,
         CompileOp.writeReference ReferenceField.m_inpulseOriginVectorNodeIdx compiled.1]
    else
      { result := InvalidIndex
        context := compiled.2.LogError node.nodeID CompileError.failedImpulseOriginInput
        trace := [CompileOp.compileInput 2 compiled.1,
                  CompileOp.logError CompileError.failedImpulseOriginInput] }
  | none => node.compileImpulseForce pDefinition context

/-- Lines 50-63 of `PoweredRagdollToolsNode::Compile`: the physics blend weight input
(pin 1). -/
def PoweredRagdollToolsNode.compilePhysicsBlendWeight (node : PoweredRagdollToolsNode)
    (pDefinition : Nat) (context : GraphCompilationContext) : CompileOutcome :=
  match node.GetConnectedInputNode 1 with
  | some pInputNode =>
    let compiled := pInputNode.Compile context
    if compiled.1 ≠ InvalidIndex then
      (node.compileImpulseOrigin pDefinition (compiled.2.writePowered pDefinition
        (fun definition => { definition with m_physicsBlendWeightNodeIdx := compiled.1 }))).after
        [CompileOp.compileInput 1 compiled.1,
         CompileOp.writeReference ReferenceField.m_physicsBlendWeightNodeIdx compiled.1]
    else
      { result := InvalidIndex
        context := compiled.2.LogError node.nodeID CompileError.failedPhysicsBlendWeightInput
        trace := [CompileOp.compileInput 1 compiled.1,
                  CompileOp.logError CompileError.failedPhysicsBlendWeightInput] }
  | none => node.compileImpulseOrigin pDefinition context

/-- Lines 29-46 of `PoweredRagdollToolsNode::Compile`: the pose input (pin 0), which must be
connected. -/
def PoweredRagdollToolsNode.compileInput (node : PoweredRagdollToolsNode) (pDefinition : Nat)
    (context : GraphCompilationContext) : CompileOutcome :=
  match node.GetConnectedInputNode 0 with
  | some pInputNode =>
    let compiled := pInputNode.Compile context
    if compiled.1 ≠ InvalidIndex then
      (node.compilePhysicsBlendWeight pDefinition (compiled.2.writePowered pDefinition
        (fun definition => { definition with m_childNodeIdx := compiled.1 }))).after
        [CompileOp.compileInput 0 compiled.1,
         CompileOp.writeReference ReferenceField.m_childNodeIdx compiled.1]
    else
      { result := InvalidIndex
        context := compiled.2
        trace := [CompileOp.compileInput 0 compiled.1] }
  | none =>
    { result := InvalidIndex
      context := context.LogError node.nodeID CompileError.disconnectedInputPin
      trace := [CompileOp.logError CompileError.disconnectedInputPin] }

/-- The call `context.GetDefinition<PoweredRagdollNode>( this, pDefinition )` of line 26. -/
def PoweredRagdollToolsNode.GetDefinition (node : PoweredRagdollToolsNode)
    (context : GraphCompilationContext) : GetDefinitionResult :=
  context.GetDefinition node.nodeID (fun m_nodeIdx =>
    NodeDefinition.poweredRagdoll (PoweredRagdollNode.Definition.create m_nodeIdx))

/-- Lines 23-115, `PoweredRagdollToolsNode::Compile( context )`. -/
def PoweredRagdollToolsNode.Compile (node : PoweredRagdollToolsNode)
    (context : GraphCompilationContext) : CompileOutcome :=
  let definition := node.GetDefinition context
  if definition.state = NodeCompilationState.NeedCompilation then
    node.compileInput definition.pDefinition definition.context
  else
    { result := definition.context.nodeIdxAt definition.pDefinition
      context := definition.context
      trace := [] }

/-! ### SimulatedRagdollToolsNode -/

/-- The members of a `SimulatedRagdollToolsNode` that `Compile` reads: its identity (`this`),
the nodes connected to its input pins (pin 0 the entry, the others the exit options), its
profile identifiers, and the resource its variation data resolves to for a variation. -/
structure SimulatedRagdollToolsNode where
  nodeID : Nat
  m_inputs : List (Option FlowToolsNode)
  m_entryProfileID : StringID
  m_simulatedProfileID : StringID
  m_exitProfileID : StringID
  ragdollDefinitionResourceID : Nat → Nat

/-- The call `GetConnectedInputNode<FlowToolsNode>( pinIdx )`. -/
def SimulatedRagdollToolsNode.GetConnectedInputNode (node : SimulatedRagdollToolsNode)
    (pinIdx : Nat) : Option FlowToolsNode :=
  node.m_inputs.getD pinIdx none

/-- The call `GetNumInputPins()`. -/
def SimulatedRagdollToolsNode.GetNumInputPins (node : SimulatedRagdollToolsNode) : Nat :=
  node.m_inputs.length

/-- Lines 177-192 of `SimulatedRagdollToolsNode::Compile`: the loop over the exit option pins,
from pin `i` on, over the nodes connected to the pins that are left. The first component is
the value of an early `return`, if there was one. -/
def SimulatedRagdollToolsNode.compileExitOptions (pDefinition : Nat) :
    Nat → List (Option FlowToolsNode) → GraphCompilationContext →
      Option Int × GraphCompilationContext × List CompileOp
  | _, [], context => (none, context, [])
  | i, none :: pins, context =>
    SimulatedRagdollToolsNode.compileExitOptions pDefinition (i + 1) pins context
  | i, some pExitOptionNode :: pins, context =>
    let compiled := pExitOptionNode.Compile context
    if compiled.1 ≠ InvalidIndex then
      let rest := SimulatedRagdollToolsNode.compileExitOptions pDefinition (i + 1) pins
        (compiled.2.writeSimulated pDefinition (fun definition =>
          { definition with
            m_exitOptionNodeIndices := definition.m_exitOptionNodeIndices ++ [compiled.1] }))
      (rest.1, rest.2.1,
       [CompileOp.compileInput i compiled.1,
        CompileOp.writeReference ReferenceField.m_exitOptionNodeIndices compiled.1] ++ rest.2.2)
    else
      -- `return false;`
      (some 0, compiled.2, [CompileOp.compileInput i compiled.1])

/-- Lines 194-211 of `SimulatedRagdollToolsNode::Compile`: the exit profile check and the
literal members. -/
def SimulatedRagdollToolsNode.compileSettings (node : SimulatedRagdollToolsNode)
    (pDefinition : Nat) (context : GraphCompilationContext) : CompileOutcome :=
  if !(context.exitOptionNodeIndicesAt pDefinition).isEmpty && !node.m_exitProfileID.IsValid then
    { result := InvalidIndex
      context := context.LogError node.nodeID CompileError.invalidExitProfileID
      trace := [CompileOp.logError CompileError.invalidExitProfileID] }
  else
    let resourceID := node.ragdollDefinitionResourceID context.m_variationID
    let registered := context.RegisterResource resourceID
    let written := registered.2.writeSimulated pDefinition (fun definition =>
      { definition with m_dataSlotIdx := registered.1
                        m_entryProfileID := node.m_entryProfileID
                        m_simulatedProfileID := node.m_simulatedProfileID
                        m_exitProfileID := node.m_exitProfileID })
    { result := written.nodeIdxAt pDefinition
      context := written
      trace := [CompileOp.registerResource resourceID, CompileOp.writeSettings] }

/-- Lines 174-211 of `SimulatedRagdollToolsNode::Compile`: the exits and what follows. -/
def SimulatedRagdollToolsNode.compileExits (node : SimulatedRagdollToolsNode)
    (pDefinition : Nat) (context : GraphCompilationContext) : CompileOutcome :=
  let exits := SimulatedRagdollToolsNode.compileExitOptions pDefinition 1
    (node.m_inputs.drop 1) context
  match exits.1 with
  | some returned => { result := returned, context := exits.2.1, trace := exits.2.2 }
  | none => (node.compileSettings pDefinition exits.2.1).after exits.2.2

/-- Lines 152-172 of `SimulatedRagdollToolsNode::Compile`: the entry input (pin 0), which must
be connected. -/
def SimulatedRagdollToolsNode.compileEntry (node : SimulatedRagdollToolsNode)
    (pDefinition : Nat) (context : GraphCompilationContext) : CompileOutcome :=
  match node.GetConnectedInputNode 0 with
  | some pEntryNode =>
    let compiled := pEntryNode.Compile context
    if compiled.1 ≠ InvalidIndex then
      (node.compileExits pDefinition (compiled.2.writeSimulated pDefinition (fun definition =>
        { definition with m_entryNodeIdx := compiled.1 }))).after
        [CompileOp.compileInput 0 compiled.1,
         CompileOp.writeReference ReferenceField.m_entryNodeIdx compiled.1]
    else
      { result := InvalidIndex
        context := compiled.2
        trace := [CompileOp.compileInput 0 compiled.1] }
  | none =>
    { result := InvalidIndex
      context := context.LogError node.nodeID CompileError.disconnectedInputPin
      trace := [CompileOp.logError CompileError.disconnectedInputPin] }

/-- Lines 140-150 of `SimulatedRagdollToolsNode::Compile`: the entry and simulated profile
identifiers, then the inputs. -/
def SimulatedRagdollToolsNode.compileProfiles (node : SimulatedRagdollToolsNode)
    (pDefinition : Nat) (context : GraphCompilationContext) : CompileOutcome :=
  if !node.m_entryProfileID.IsValid then
    { result := InvalidIndex
      context := context.LogError node.nodeID CompileError.invalidEntryProfileID
      trace := [CompileOp.logError CompileError.invalidEntryProfileID] }
  else if !node.m_simulatedProfileID.IsValid then
    { result := InvalidIndex
      context := context.LogError node.nodeID CompileError.invalidSimulatedProfileID
      trace := [CompileOp.logError CompileError.invalidSimulatedProfileID] }
  else
    node.compileEntry pDefinition context

/-- The call `context.GetDefinition<SimulatedRagdollNode>( this, pDefinition )` of
line 137. -/
def SimulatedRagdollToolsNode.GetDefinition (node : SimulatedRagdollToolsNode)
    (context : GraphCompilationContext) : GetDefinitionResult :=
  context.GetDefinition node.nodeID (fun m_nodeIdx =>
    NodeDefinition.simulatedRagdoll (SimulatedRagdollNode.Definition.create m_nodeIdx))

/-- Lines 134-212, `SimulatedRagdollToolsNode::Compile( context )`. -/
def SimulatedRagdollToolsNode.Compile (node : SimulatedRagdollToolsNode)
    (context : GraphCompilationContext) : CompileOutcome :=
  let definition := node.GetDefinition context
  if definition.state = NodeCompilationState.NeedCompilation then
    node.compileProfiles definition.pDefinition definition.context
  else
    { result := definition.context.nodeIdxAt definition.pDefinition
      context := definition.context
      trace := [] }

/-! ### Properties of a compilation in progress -/

/-- While the node whose definition sits in slot `pDefinition` is being compiled: the
definitions `before` that were in the array when `Compile` was called are still its first
entries, the slot comes after them and is in the array, and the definition in it has the slot
as its `m_nodeIdx`. -/
structure GraphCompilationContext.Holds (before : List NodeDefinition) (pDefinition : Nat)
    (context : GraphCompilationContext) : Prop where
  le : before.length ≤ pDefinition
  lt : pDefinition < context.m_nodeDefinitions.length
  frame : context.m_nodeDefinitions.take before.length = before
  idx : context.nodeIdxAt pDefinition = (pDefinition : Int)

/-- What holds of every outcome of a `Compile`, with `before` the definitions in the array when
it was called: they are still the first entries of the array; every compiled index written to a
reference member is a valid one; and when the result is `InvalidIndex` the literal members have
not been written and no resource has been registered. -/
structure CompileOutcome.Sound (before : List NodeDefinition) (outcome : CompileOutcome) :
    Prop where
  frame : outcome.context.m_nodeDefinitions.take before.length = before
  validReferences : ∀ field compiledNodeIdx,
    CompileOp.writeReference field compiledNodeIdx ∈ outcome.trace →
      compiledNodeIdx ≠ InvalidIndex
  failed : outcome.result = InvalidIndex →
    CompileOp.writeSettings ∉ outcome.trace ∧ registeredResources outcome.trace = []

/-- The condition of lines 97-99 of `PoweredRagdollToolsNode::Compile`: one of the impulse
origin and force nodes is set and one is not. -/
def PoweredRagdollToolsNode.impulseIncomplete (node : PoweredRagdollToolsNode) : Bool :=
  ((node.GetConnectedInputNode 2).isSome || (node.GetConnectedInputNode 3).isSome)
    && ((node.GetConnectedInputNode 2).isNone || (node.GetConnectedInputNode 3).isNone)

/-- What holds of the outcome of the part of `PoweredRagdollToolsNode::Compile` that follows
the pose input, for the definition in slot `pDefinition`: when an input compiled to
`InvalidIndex` the result is `InvalidIndex` and that input is the last one compiled; when no
input did, the result is `InvalidIndex` if the impulse pins are incomplete and the slot
otherwise; and the definition in the slot still has the slot as its `m_nodeIdx`. -/
structure PoweredRagdollToolsNode.Staged (node : PoweredRagdollToolsNode) (pDefinition : Nat)
    (outcome : CompileOutcome) : Prop where
  failFast : ∀ pinIdx, (pinIdx, InvalidIndex) ∈ compiledInputs outcome.trace →
    outcome.result = InvalidIndex ∧
      ∃ earlier, compiledInputs outcome.trace = earlier ++ [(pinIdx, InvalidIndex)]
  succeeded : (∀ x ∈ compiledInputs outcome.trace, x.2 ≠ InvalidIndex) →
    outcome.result = if node.impulseIncomplete then InvalidIndex else (pDefinition : Int)
  idx : outcome.context.nodeIdxAt pDefinition = (pDefinition : Int)

/-- Every node registered in `context` is registered, to the same slot, in `later`. -/
def GraphCompilationContext.RegisteredIn (context later : GraphCompilationContext) : Prop :=
  ∀ nodeID slot, context.m_nodeIDToIndexMap nodeID = some slot →
    later.m_nodeIDToIndexMap nodeID = some slot

/-- The definition in slot `pDefinition` is that of a simulated ragdoll node, has the slot as
its `m_nodeIdx`, and has `exits` as its `m_exitOptionNodeIndices`. -/
def GraphCompilationContext.SimulatedAt (context : GraphCompilationContext) (pDefinition : Nat)
    (exits : List Int) : Prop :=
  ∃ definition,
    context.m_nodeDefinitions[pDefinition]? = some (NodeDefinition.simulatedRagdoll definition) ∧
    definition.m_nodeIdx = (pDefinition : Int) ∧
    definition.m_exitOptionNodeIndices = exits

/-! ### Concrete inputs of the compilation -/

/-- A context in which nothing has been compiled yet. -/
def exampleCompilationContext : GraphCompilationContext :=
  { m_nodeDefinitions := []
    m_nodeIDToIndexMap := fun _ => none
    m_log := []
    m_registeredResources := []
    m_variationID := 0 }

/-- A context in which one node of another kind, of identity 9, has been compiled: its
definition is in slot 0. -/
def exampleContextAfterClip : GraphCompilationContext :=
  { m_nodeDefinitions := [NodeDefinition.other 0]
    m_nodeIDToIndexMap := fun k => if k = 9 then some 0 else none
    m_log := []
    m_registeredResources := []
    m_variationID := 0 }

/-- A tools node of another kind that compiles: it takes the next slot of the array the first
time and gives the same slot when compiled again. -/
def exampleClipToolsNode (nodeID : Nat) : FlowToolsNode :=
  { Compile := fun context =>
      ((((context.GetDefinition nodeID NodeDefinition.other).pDefinition : Nat) : Int),
       (context.GetDefinition nodeID NodeDefinition.other).context)
    keepsDefinitions := by
      intro context
      cases hmap : context.m_nodeIDToIndexMap nodeID <;>
        simp [GraphCompilationContext.GetDefinition, hmap]
    keepsRegistered := by
      intro context k slot h
      cases hmap : context.m_nodeIDToIndexMap nodeID with
      | some existing => simpa [GraphCompilationContext.GetDefinition, hmap] using h
      | none =>
        have hk : k ≠ nodeID := by
          intro hk
          rw [hk, hmap] at h
          exact absurd h (by simp)
        simpa [GraphCompilationContext.GetDefinition, hmap, hk] using h }

/-- A tools node whose compilation fails: it logs nothing, changes nothing and returns
`InvalidIndex`. -/
def exampleBrokenToolsNode : FlowToolsNode :=
  { Compile := fun context => (InvalidIndex, context)
    keepsDefinitions := by intro context; simp
    keepsRegistered := by intro context k slot h; exact h }

/-- A powered ragdoll node, of identity 100, with the given nodes on its four input pins. -/
def examplePoweredRagdoll (pin0 pin1 pin2 pin3 : Option FlowToolsNode) :
    PoweredRagdollToolsNode :=
  { nodeID := 100
    m_inputs := [pin0, pin1, pin2, pin3]
    m_profileID := { m_ID := 5, valid := true }
    m_physicsBlendWeight := 1 / 2
    m_isGravityEnabled := true
    ragdollDefinitionResourceID := fun _ => 42 }

/-- A simulated ragdoll node, of identity 200, with valid entry and simulated profiles, the
given exit profile, and the given nodes on its input pins. -/
def exampleSimulatedRagdoll (exitProfileID : StringID) (inputs : List (Option FlowToolsNode)) :
    SimulatedRagdollToolsNode :=
  { nodeID := 200
    m_inputs := inputs
    m_entryProfileID := { m_ID := 1, valid := true }
    m_simulatedProfileID := { m_ID := 2, valid := true }
    m_exitProfileID := exitProfileID
    ragdollDefinitionResourceID := fun _ => 43 }

/-- The context left by the compilation of a powered ragdoll node (slot 0, its pose input in
slot 1) and then of a simulated ragdoll node (slot 2) whose entry is the same pose input and
whose one exit option is in slot 3. -/
def exampleContextAfterRagdolls : GraphCompilationContext :=
  ((exampleSimulatedRagdoll { m_ID := 3, valid := true }
      [some (exampleClipToolsNode 1), some (exampleClipToolsNode 2)]).Compile
    ((examplePoweredRagdoll (some (exampleClipToolsNode 1)) none none none).Compile
      exampleCompilationContext).context).context

namespace GraphNodes

/-- The observable state of the child pose node (`m_pChildNode`): what `IsValid()`,
`GetDuration()`, `GetPreviousTime()`, `GetCurrentTime()` and, for an animation clip reference
node, `GetAnimation()->GetAverageLinearVelocity()` return. -/
structure PoseNode where
  valid : Bool
  m_duration : ℚ
  m_previousTime : ℚ
  m_currentTime : ℚ
  averageLinearVelocity : ℚ
deriving DecidableEq, Repr

/-- The call `m_pChildNode->IsValid()`. -/
def PoseNode.IsValid (child : PoseNode) : Bool := child.valid

/-- The call `m_pChildNode->GetDuration()`. -/
def PoseNode.GetDuration (child : PoseNode) : ℚ := child.m_duration

/-- The call `m_pChildNode->GetPreviousTime()`. -/
def PoseNode.GetPreviousTime (child : PoseNode) : ℚ := child.m_previousTime

/-- The call `m_pChildNode->GetCurrentTime()`. -/
def PoseNode.GetCurrentTime (child : PoseNode) : ℚ := child.m_currentTime

/-- The call `m_pChildNode->GetAnimation()->GetAverageLinearVelocity()`. -/
def PoseNode.GetAverageLinearVelocity (child : PoseNode) : ℚ := child.averageLinearVelocity

/-- What a call into the child leaves behind. -/
structure ChildStep where
  result : GraphPoseNodeResult
  context : GraphContext
  child : PoseNode

/-- The child pose node's code, which is not part of these nodes: any functions at all. -/
structure ChildBehaviour where
  Update : GraphContext → PoseNode → ChildStep
  UpdateSync : GraphContext → SyncTrackTimeRange → PoseNode → ChildStep
  Initialize : GraphContext → SyncTrackTime → PoseNode → GraphContext × PoseNode

/-- A float value node, seen through `GetValue<float>( context )`. -/
abbrev FloatValueNode := GraphContext → ℚ

/-- The call `pValueNode->GetValue<float>( context )`. -/
def FloatValueNode.GetValue (valueNode : FloatValueNode) (context : GraphContext) : ℚ :=
  valueNode context

/-- The two development-build warnings of the file. -/
inductive Warning where
  | synchronizedSpeedScale
  | negativeVelocity
deriving DecidableEq, Repr

/-- The three float divisions of the file, by the variable they define. -/
inductive DivSite where
  | blendWeightDelta
  | speedMultiplier
  | duration
deriving DecidableEq, Repr

/-- The operations an update performs that the claims speak of. -/
inductive Op where
  | childUpdate (deltaTime : ℚ)
  | childUpdateSync (deltaTime : ℚ) (updateRange : SyncTrackTimeRange)
  | div (site : DivSite) (numerator denominator : ℚ)
  | logWarning (warning : Warning)
deriving DecidableEq, Repr

/-- The delta times with which the child's unsynchronized update was entered, in order. -/
def childDeltaTimes : List Op → List ℚ
  | [] => []
  | Op.childUpdate deltaTime :: ops => deltaTime :: childDeltaTimes ops
  | _ :: ops => childDeltaTimes ops

/-- The divisions evaluated at a given site, as (numerator, denominator), in order. -/
def divisionsAt (site : DivSite) : List Op → List (ℚ × ℚ)
  | [] => []
  | Op.div s numerator denominator :: ops =>
    if s = site then (numerator, denominator) :: divisionsAt site ops else divisionsAt site ops
  | _ :: ops => divisionsAt site ops

/-- The synchronized updates of the child that were entered, as (delta time of the context,
update range), in order. -/
def childSyncUpdates : List Op → List (ℚ × SyncTrackTimeRange)
  | [] => []
  | Op.childUpdateSync deltaTime updateRange :: ops =>
    (deltaTime, updateRange) :: childSyncUpdates ops
  | _ :: ops => childSyncUpdates ops

/-- What an update leaves behind. -/
structure Outcome (Node : Type) where
  result : GraphPoseNodeResult
  context : GraphContext
  node : Node
  trace : List Op

/-- The blend-in block shared by both nodes (lines 51-56 and 200-205): the blend weight and the
scale after it, and the division it evaluated. -/
structure BlendIn where
  m_blendWeight : ℚ
  scale : ℚ
  trace : List Op

/-- Lines 51-56 and 200-205:
`if ( pSettings->m_blendInTime > 0.0f && m_blendWeight < 1.0f ) { ... }`. -/
def blendIn (m_blendInTime m_blendWeight deltaTime scale : ℚ) : BlendIn :=
  if m_blendInTime > 0 ∧ m_blendWeight < 1 then
    let blendWeightDelta := deltaTime / m_blendInTime
    let w := Math.Clamp (m_blendWeight + blendWeightDelta) 0 1
    { m_blendWeight := w
      scale := Math.Lerp 1 scale w
      trace := [Op.div DivSite.blendWeightDelta deltaTime m_blendInTime] }
  else
    { m_blendWeight := m_blendWeight, scale := scale, trace := [] }

/-! ## State recorder -/

/-- Modelled from the spec: `GraphStateRecorder` (its header is not among the sources); spec 6:
"ordered append (`<<` style) of primitive fields on record". The values recorded so far. -/
abbrev GraphStateRecorder := List ℚ

/-- The `recorder << value` of a recording in progress. -/
def GraphStateRecorder.write (recorder : GraphStateRecorder) (value : ℚ) : GraphStateRecorder :=
  recorder ++ [value]

/-- Modelled from the spec: `GraphStateRecording` (its header is not among the sources); spec 6:
"symmetric ordered read on restore". The recorded values and the position of the next read. -/
structure GraphStateRecording where
  m_values : List ℚ
  m_readIdx : Nat

/-- The `recording << member` of a restore: the next value, and the recording past it. -/
def GraphStateRecording.read (recording : GraphStateRecording) : ℚ × GraphStateRecording :=
  (recording.m_values.getD recording.m_readIdx 0,
   { recording with m_readIdx := recording.m_readIdx + 1 })

/-- The members of the `PoseNode` base class of both speed-scale nodes. -/
structure PoseNodeMembers where
  m_duration : ℚ
  m_previousTime : ℚ
  m_currentTime : ℚ

/-- Modelled from the spec: what `PoseNode::RecordGraphState` and `PoseNode::RestoreGraphState`
(the pose node's file is not among the sources) write and read; spec 6: "symmetric ordered read
on restore; record/restore order must match exactly between a node's override and its base
class override (base-first)". The base class appends `width` values of its choosing and reads as
many back; which values, and what it makes of them, is left open. -/
structure PoseNodeStateProtocol where
  width : Nat
  Record : PoseNodeMembers → Fin width → ℚ
  Restore : (Fin width → ℚ) → PoseNodeMembers → PoseNodeMembers

/-- Modelled from the spec: `PoseNode::RecordGraphState( recorder )`, see
`PoseNodeStateProtocol`. -/
def PoseNode.RecordGraphState (P : PoseNodeStateProtocol) (members : PoseNodeMembers)
    (recorder : GraphStateRecorder) : GraphStateRecorder :=
  recorder ++ List.ofFn (P.Record members)

/-- Modelled from the spec: `PoseNode::RestoreGraphState( recording )`, see
`PoseNodeStateProtocol`. -/
def PoseNode.RestoreGraphState (P : PoseNodeStateProtocol) (recording : GraphStateRecording)
    (members : PoseNodeMembers) : GraphStateRecording × PoseNodeMembers :=
  ({ recording with m_readIdx := recording.m_readIdx + P.width },
   P.Restore (fun i => recording.m_values.getD (recording.m_readIdx + i.val) 0) members)

/-! ## SpeedScaleNode -/

/-- The members of `SpeedScaleNode`, its settings (`m_blendInTime`) and its `PassthroughNode`
and `PoseNode` bases included. -/
structure SpeedScaleNode where
  m_blendInTime : ℚ
  m_pChildNode : PoseNode
  m_pScaleValueNode : Option FloatValueNode
  m_blendWeight : ℚ
  m_duration : ℚ
  m_previousTime : ℚ
  m_currentTime : ℚ

/-- Modelled from the spec: `SpeedScaleNode::GetSpeedScale` (declared in the header, which is
not among the sources); spec 4.4: "reads a scale factor from its value-input node". -/
def SpeedScaleNode.GetSpeedScale (scaleValueNode : FloatValueNode) (context : GraphContext) : ℚ :=
  scaleValueNode.GetValue context

/-- Modelled from the spec: `PassthroughNode::InitializeInternal` (the passthrough node's file
is not among the sources); spec 3: a node is "Initialize"d when its graph activates, and a
passthrough node has exactly one pose-producing child, which is initialized with it. -/
def PassthroughNode.InitializeInternal (B : ChildBehaviour) (context : GraphContext)
    (initialTime : SyncTrackTime) (node : SpeedScaleNode) : GraphContext × SpeedScaleNode :=
  let r := B.Initialize context initialTime node.m_pChildNode
  (r.1, { node with m_pChildNode := r.2 })

/-- Modelled from the spec: `PassthroughNode::Update( context )` (the passthrough node's file is
not among the sources); glossary: a passthrough node is a "composite node with exactly one
pose-producing child whose result it forwards"; spec 4.3 (3): "invoke the child's update". The
child is updated with the context as it stands and its result is returned; the node's own
members are left alone (spec 4.4: the node's reported duration is the one the speed scale
computed). -/
def PassthroughNode.Update (B : ChildBehaviour) (context : GraphContext)
    (node : SpeedScaleNode) : Outcome SpeedScaleNode :=
  let r := B.Update context node.m_pChildNode
  { result := r.result
    context := r.context
    node := { node with m_pChildNode := r.child }
    trace := [Op.childUpdate context.m_deltaTime] }

/-- Lines 16-25, `SpeedScaleNode::InitializeInternal`; `none` when an `EE_ASSERT` fails. -/
def SpeedScaleNode.InitializeInternal (B : ChildBehaviour) (context : GraphContext)
    (initialTime : SyncTrackTime) (node : SpeedScaleNode) : Option (GraphContext × SpeedScaleNode) :=
  if context.IsValid = false then none
  else if node.m_pScaleValueNode.isNone then none
  else
    let r := PassthroughNode.InitializeInternal B context initialTime node
    some (r.1, { r.2 with m_blendWeight := if r.2.m_blendInTime > 0 then 0 else 1 })

/-- Lines 45-69 of `SpeedScaleNode::Update`: "Adjust the delta time for the child node". -/
def SpeedScaleNode.adjustDeltaTime (cfg : BuildConfig) (context : GraphContext)
    (node : SpeedScaleNode) : GraphContext × SpeedScaleNode × List Op :=
  if node.m_pChildNode.IsValid then
    match node.m_pScaleValueNode with
    | some scaleValueNode =>
      let b := blendIn node.m_blendInTime node.m_blendWeight context.m_deltaTime
        (SpeedScaleNode.GetSpeedScale scaleValueNode context)
      let speedScale := b.scale
      if Math.IsNearZero cfg speedScale then
        ({ context with m_deltaTime := 0 },
         { node with m_blendWeight := b.m_blendWeight, m_duration := 0 },
         b.trace)
      else
        ({ context with m_deltaTime := context.m_deltaTime * speedScale },
         { node with m_blendWeight := b.m_blendWeight
                     m_duration := node.m_pChildNode.GetDuration / speedScale },
         b.trace ++ [Op.div DivSite.duration node.m_pChildNode.GetDuration speedScale])
    | none => (context, node, [])
  else (context, node, [])

/-- Lines 35-81, the unsynchronized `SpeedScaleNode::Update( context )`. -/
def SpeedScaleNode.Update (cfg : BuildConfig) (B : ChildBehaviour) (context : GraphContext)
    (node : SpeedScaleNode) : Outcome SpeedScaleNode :=
  -- Record old delta time
  let deltaTime := context.m_deltaTime
  -- Adjust the delta time for the child node
  let adjusted := SpeedScaleNode.adjustDeltaTime cfg context node
  -- Update the child node
  let out := PassthroughNode.Update B adjusted.1 adjusted.2.1
  -- Reset the delta time
  { result := out.result
    context := { out.context with m_deltaTime := deltaTime }
    node := out.node
    trace := adjusted.2.2 ++ out.trace }

/-- Successive unsynchronized updates of a `SpeedScaleNode`, one per frame context, each on the
node the previous one left; the node after the last. -/
def SpeedScaleNode.UpdateAll (cfg : BuildConfig) (B : ChildBehaviour) :
    SpeedScaleNode → List GraphContext → SpeedScaleNode
  | node, [] => node
  | node, context :: frames =>
    SpeedScaleNode.UpdateAll cfg B (SpeedScaleNode.Update cfg B context node).node frames

/-- Modelled from the spec: `PassthroughNode::Update( context, updateRange )` (the passthrough
node's file is not among the sources); glossary: a passthrough node forwards its child's
result; spec 4.4: the speed scale must "delegate without re-timing" when driven through the
synchronized entry point. The child's synchronized update is entered with the context and the
range as they stand and its result is returned. -/
def PassthroughNode.UpdateSync (B : ChildBehaviour) (context : GraphContext)
    (updateRange : SyncTrackTimeRange) (node : SpeedScaleNode) : Outcome SpeedScaleNode :=
  let r := B.UpdateSync context updateRange node.m_pChildNode
  { result := r.result
    context := r.context
    node := { node with m_pChildNode := r.child }
    trace := [Op.childUpdateSync context.m_deltaTime updateRange] }

/-- Lines 83-90, the synchronized `SpeedScaleNode::Update( context, updateRange )`. -/
def SpeedScaleNode.UpdateSync (cfg : BuildConfig) (B : ChildBehaviour) (context : GraphContext)
    (updateRange : SyncTrackTimeRange) (node : SpeedScaleNode) : Outcome SpeedScaleNode :=
  let warning : List Op :=
    if cfg.EE_DEVELOPMENT_TOOLS then [Op.logWarning Warning.synchronizedSpeedScale] else []
  let out := PassthroughNode.UpdateSync B context updateRange node
  { result := out.result
    context := out.context
    node := out.node
    trace := warning ++ out.trace }

/-- The states of a `SpeedScaleNode` that an initialization followed by unsynchronized updates
reaches. -/
inductive SpeedScaleNode.Reachable (cfg : BuildConfig) (B : ChildBehaviour) :
    SpeedScaleNode → Prop where
  | init (context : GraphContext) (initialTime : SyncTrackTime) (node : SpeedScaleNode)
      (context₁ : GraphContext) (node₀ : SpeedScaleNode)
      (h : SpeedScaleNode.InitializeInternal B context initialTime node = some (context₁, node₀)) :
      SpeedScaleNode.Reachable cfg B node₀
  | update (context : GraphContext) (node : SpeedScaleNode)
      (h : SpeedScaleNode.Reachable cfg B node) :
      SpeedScaleNode.Reachable cfg B (SpeedScaleNode.Update cfg B context node).node

/-- What successive unsynchronized updates of a `SpeedScaleNode` give back, frame by frame: the
result, the context after the update and the operations performed. -/
def SpeedScaleNode.UpdateOutputs (cfg : BuildConfig) (B : ChildBehaviour) :
    SpeedScaleNode → List GraphContext → List (GraphPoseNodeResult × GraphContext × List Op)
  | _, [] => []
  | node, context :: frames =>
    ((SpeedScaleNode.Update cfg B context node).result,
     (SpeedScaleNode.Update cfg B context node).context,
     (SpeedScaleNode.Update cfg B context node).trace) ::
    SpeedScaleNode.UpdateOutputs cfg B (SpeedScaleNode.Update cfg B context node).node frames

/-- The `PoseNode` members of a `SpeedScaleNode`. -/
def SpeedScaleNode.poseNodeMembers (node : SpeedScaleNode) : PoseNodeMembers :=
  { m_duration := node.m_duration
    m_previousTime := node.m_previousTime
    m_currentTime := node.m_currentTime }

/-- Lines 93-97, `SpeedScaleNode::RecordGraphState` (development builds). -/
def SpeedScaleNode.RecordGraphState (P : PoseNodeStateProtocol) (node : SpeedScaleNode)
    (recorder : GraphStateRecorder) : GraphStateRecorder :=
  (PoseNode.RecordGraphState P node.poseNodeMembers recorder).write node.m_blendWeight

/-- Lines 99-103, `SpeedScaleNode::RestoreGraphState` (development builds). -/
def SpeedScaleNode.RestoreGraphState (P : PoseNodeStateProtocol)
    (recording : GraphStateRecording) (node : SpeedScaleNode) :
    GraphStateRecording × SpeedScaleNode :=
  let base := PoseNode.RestoreGraphState P recording node.poseNodeMembers
  let blendWeight := base.1.read
  (blendWeight.2,
   { node with m_duration := base.2.m_duration
               m_previousTime := base.2.m_previousTime
               m_currentTime := base.2.m_currentTime
               m_blendWeight := blendWeight.1 })

/-- The delta time accumulated over a list of frame contexts. -/
def accumulatedDeltaTime (frames : List GraphContext) : ℚ :=
  (frames.map GraphContext.m_deltaTime).sum

/-! ## VelocityBasedSpeedScaleNode -/

/-- The members of `VelocityBasedSpeedScaleNode`, its settings (`m_blendInTime`) and its
`PoseNode` base included; the child is an animation clip reference node. -/
structure VelocityBasedSpeedScaleNode where
  m_blendInTime : ℚ
  m_pChildNode : PoseNode
  m_pDesiredVelocityValueNode : Option FloatValueNode
  m_blendWeight : ℚ
  m_duration : ℚ
  m_previousTime : ℚ
  m_currentTime : ℚ

/-- Modelled from the spec: `VelocityBasedSpeedScaleNode::IsValid` (declared in the header,
which is not among the sources); spec 4.4: the node "mirrors the child's
previousTime/currentTime/validity up to itself" and is invalid when there is "no
connected/initialized child". -/
def VelocityBasedSpeedScaleNode.IsValid (node : VelocityBasedSpeedScaleNode) : Bool :=
  node.m_pChildNode.IsValid

/-- Lines 115-140, `VelocityBasedSpeedScaleNode::InitializeInternal`; `none` when an
`EE_ASSERT` fails. The source reads the blend-in time through `GetSettings<SpeedScaleNode>()`;
it is taken to be this node's own `m_blendInTime`. `PoseNode::InitializeInternal` (not among
the sources) has no member these nodes read. -/
def VelocityBasedSpeedScaleNode.InitializeInternal (B : ChildBehaviour) (context : GraphContext)
    (initialTime : SyncTrackTime) (node : VelocityBasedSpeedScaleNode) :
    Option (GraphContext × VelocityBasedSpeedScaleNode) :=
  if context.IsValid = false then none
  else if node.m_pDesiredVelocityValueNode.isNone then none
  else
    let m_blendWeight : ℚ := if node.m_blendInTime > 0 then 0 else 1
    let r := B.Initialize context initialTime node.m_pChildNode
    let child := r.2
    if child.IsValid then
      some (r.1, { node with m_blendWeight := m_blendWeight
                             m_pChildNode := child
                             m_duration := child.GetDuration
                             m_previousTime := child.GetPreviousTime
                             m_currentTime := child.GetCurrentTime })
    else
      some (r.1, { node with m_blendWeight := m_blendWeight
                             m_pChildNode := child
                             m_duration := 1
                             m_previousTime := 0
                             m_currentTime := 0 })

/-- Lines 175-196 of `VelocityBasedSpeedScaleNode::Update`: the speed multiplier before
blend-in, with the operations that computing it performs. -/
def VelocityBasedSpeedScaleNode.speedMultiplier (cfg : BuildConfig) (context : GraphContext)
    (child : PoseNode) (desiredVelocityValueNode : FloatValueNode) : ℚ × List Op :=
  let desiredVelocity := desiredVelocityValueNode.GetValue context
  if desiredVelocity ≥ 0 then
    let averageVelocity := child.GetAverageLinearVelocity
    if !Math.IsNearZero cfg averageVelocity then
      (desiredVelocity / averageVelocity,
       [Op.div DivSite.speedMultiplier desiredVelocity averageVelocity])
    else
      (0, [])
  else
    (1, if cfg.EE_DEVELOPMENT_TOOLS then [Op.logWarning Warning.negativeVelocity] else [])

/-- Lines 173-210 of `VelocityBasedSpeedScaleNode::Update`: "Adjust the delta time for the
child node". -/
def VelocityBasedSpeedScaleNode.adjustDeltaTime (cfg : BuildConfig) (context : GraphContext)
    (node : VelocityBasedSpeedScaleNode) :
    GraphContext × VelocityBasedSpeedScaleNode × List Op :=
  if node.m_pChildNode.IsValid then
    match node.m_pDesiredVelocityValueNode with
    | some desiredVelocityValueNode =>
      let m := VelocityBasedSpeedScaleNode.speedMultiplier cfg context node.m_pChildNode
        desiredVelocityValueNode
      let b := blendIn node.m_blendInTime node.m_blendWeight context.m_deltaTime m.1
      let speedMultiplier := b.scale
      ({ context with m_deltaTime := context.m_deltaTime * speedMultiplier },
       { node with m_blendWeight := b.m_blendWeight
                   m_duration := node.m_pChildNode.GetDuration / speedMultiplier },
       m.2 ++ b.trace ++ [Op.div DivSite.duration node.m_pChildNode.GetDuration speedMultiplier])
    | none => (context, node, [])
  else (context, node, [])

/-- Lines 215-228 of `VelocityBasedSpeedScaleNode::Update`: "Forward child node results". -/
def VelocityBasedSpeedScaleNode.forwardChild (B : ChildBehaviour) (context : GraphContext)
    (node : VelocityBasedSpeedScaleNode) : Outcome VelocityBasedSpeedScaleNode :=
  if node.IsValid then
    let r := B.Update context node.m_pChildNode
    { result := r.result
      context := r.context
      node := { node with m_pChildNode := r.child
                          m_duration := r.child.GetDuration
                          m_previousTime := r.child.GetPreviousTime
                          m_currentTime := r.child.GetCurrentTime }
      trace := [Op.childUpdate context.m_deltaTime] }
  else
    { result := { GraphPoseNodeResult.default with
                  m_sampledEventRange := SampledEventRange.at context.GetNumSampledEvents }
      context := context
      node := node
      trace := [] }

/-- Lines 163-235, the unsynchronized `VelocityBasedSpeedScaleNode::Update( context )`. -/
def VelocityBasedSpeedScaleNode.Update (cfg : BuildConfig) (B : ChildBehaviour)
    (context : GraphContext) (node : VelocityBasedSpeedScaleNode) :
    Outcome VelocityBasedSpeedScaleNode :=
  -- Record old delta time
  let deltaTime := context.m_deltaTime
  -- Adjust the delta time for the child node
  let adjusted := VelocityBasedSpeedScaleNode.adjustDeltaTime cfg context node
  -- Update the child node
  let out := VelocityBasedSpeedScaleNode.forwardChild B adjusted.1 adjusted.2.1
  -- Reset the time delta
  { result := out.result
    context := { out.context with m_deltaTime := deltaTime }
    node := out.node
    trace := adjusted.2.2 ++ out.trace }

/-- Lines 237-259, the synchronized `VelocityBasedSpeedScaleNode::Update( context,
updateRange )`. -/
def VelocityBasedSpeedScaleNode.UpdateSync (cfg : BuildConfig) (B : ChildBehaviour)
    (context : GraphContext) (updateRange : SyncTrackTimeRange)
    (node : VelocityBasedSpeedScaleNode) : Outcome VelocityBasedSpeedScaleNode :=
  let warning : List Op :=
    if cfg.EE_DEVELOPMENT_TOOLS then [Op.logWarning Warning.synchronizedSpeedScale] else []
  -- Forward child node results
  if node.IsValid then
    let r := B.UpdateSync context updateRange node.m_pChildNode
    { result := r.result
      context := r.context
      node := { node with m_pChildNode := r.child
                          m_duration := r.child.GetDuration
                          m_previousTime := r.child.GetPreviousTime
                          m_currentTime := r.child.GetCurrentTime }
      trace := warning ++ [Op.childUpdateSync context.m_deltaTime updateRange] }
  else
    { result := { GraphPoseNodeResult.default with
                  m_sampledEventRange := SampledEventRange.at context.GetNumSampledEvents }
      context := context
      node := node
      trace := warning }

/-- The states of a `VelocityBasedSpeedScaleNode` that an initialization followed by
unsynchronized updates reaches. -/
inductive VelocityBasedSpeedScaleNode.Reachable (cfg : BuildConfig) (B : ChildBehaviour) :
    VelocityBasedSpeedScaleNode → Prop where
  | init (context : GraphContext) (initialTime : SyncTrackTime)
      (node : VelocityBasedSpeedScaleNode) (context₁ : GraphContext)
      (node₀ : VelocityBasedSpeedScaleNode)
      (h : VelocityBasedSpeedScaleNode.InitializeInternal B context initialTime node
        = some (context₁, node₀)) :
      VelocityBasedSpeedScaleNode.Reachable cfg B node₀
  | update (context : GraphContext) (node : VelocityBasedSpeedScaleNode)
      (h : VelocityBasedSpeedScaleNode.Reachable cfg B node) :
      VelocityBasedSpeedScaleNode.Reachable cfg B
        (VelocityBasedSpeedScaleNode.Update cfg B context node).node

/-- What successive unsynchronized updates of a `VelocityBasedSpeedScaleNode` give back, frame
by frame: the result, the context after the update and the operations performed. -/
def VelocityBasedSpeedScaleNode.UpdateOutputs (cfg : BuildConfig) (B : ChildBehaviour) :
    VelocityBasedSpeedScaleNode → List GraphContext →
      List (GraphPoseNodeResult × GraphContext × List Op)
  | _, [] => []
  | node, context :: frames =>
    ((VelocityBasedSpeedScaleNode.Update cfg B context node).result,
     (VelocityBasedSpeedScaleNode.Update cfg B context node).context,
     (VelocityBasedSpeedScaleNode.Update cfg B context node).trace) ::
    VelocityBasedSpeedScaleNode.UpdateOutputs cfg B
      (VelocityBasedSpeedScaleNode.Update cfg B context node).node frames

/-- The `PoseNode` members of a `VelocityBasedSpeedScaleNode`. -/
def VelocityBasedSpeedScaleNode.poseNodeMembers (node : VelocityBasedSpeedScaleNode) :
    PoseNodeMembers :=
  { m_duration := node.m_duration
    m_previousTime := node.m_previousTime
    m_currentTime := node.m_currentTime }

/-- Lines 262-266, `VelocityBasedSpeedScaleNode::RecordGraphState` (development builds). -/
def VelocityBasedSpeedScaleNode.RecordGraphState (P : PoseNodeStateProtocol)
    (node : VelocityBasedSpeedScaleNode) (recorder : GraphStateRecorder) : GraphStateRecorder :=
  (PoseNode.RecordGraphState P node.poseNodeMembers recorder).write node.m_blendWeight

/-- Lines 268-272, `VelocityBasedSpeedScaleNode::RestoreGraphState` (development builds). -/
def VelocityBasedSpeedScaleNode.RestoreGraphState (P : PoseNodeStateProtocol)
    (recording : GraphStateRecording) (node : VelocityBasedSpeedScaleNode) :
    GraphStateRecording × VelocityBasedSpeedScaleNode :=
  let base := PoseNode.RestoreGraphState P recording node.poseNodeMembers
  let blendWeight := base.1.read
  (blendWeight.2,
   { node with m_duration := base.2.m_duration
               m_previousTime := base.2.m_previousTime
               m_currentTime := base.2.m_currentTime
               m_blendWeight := blendWeight.1 })

/-! ## SpeedScaleNode with rounded float arithmetic

The same code as `SpeedScaleNode.Update`, with the result of every float addition,
multiplication and division rounded to a float. -/

/-- The integer nearest to `x`, the even one of the two when `x` lies half way between. -/
def roundHalfEven (x : ℚ) : ℤ :=
  if x - ⌊x⌋ < 1 / 2 then ⌊x⌋
  else if 1 / 2 < x - ⌊x⌋ then ⌊x⌋ + 1
  else if ⌊x⌋ % 2 = 0 then ⌊x⌋
  else ⌊x⌋ + 1

/-- The spacing of the IEEE 754 binary32 floats in the binade of `q`: 24 significant bits,
smallest exponent -126 (below `2 ^ (-126)` the spacing is `2 ^ (-149)`). -/
def Binary32.ulp (q : ℚ) : ℚ :=
  (2 : ℚ) ^ (max (Int.log 2 |q|) (-126) - 23)

/-- The binary32 float nearest to `q`, ties to even: what an arithmetic operation on `float`
operands returns when its exact result is `q`. Overflow to infinity is left out (the exponent
is not bounded above). -/
def Binary32.round (q : ℚ) : ℚ :=
  (roundHalfEven (q / Binary32.ulp q) : ℚ) * Binary32.ulp q

/-- How a build computes with `float`, which the source does not fix: `round` gives the float
an addition, multiplication or division returns from its exact result, and `Lerp` is
`Math::Lerp` as the build computes it (the math header is not among the sources). -/
structure FloatArithmetic where
  round : ℚ → ℚ
  Lerp : ℚ → ℚ → ℚ → ℚ

/-- Arithmetic without rounding: the idealisation of the other sections. -/
def FloatArithmetic.unrounded : FloatArithmetic :=
  { round := fun q => q, Lerp := Math.Lerp }

/-- Lines 51-56 with rounding: the float division of line 53 and the float addition of
line 54 are rounded, `Math::Clamp` compares and `Math::Lerp` is the build's. -/
def blendInFloat (F : FloatArithmetic) (m_blendInTime m_blendWeight deltaTime scale : ℚ) :
    BlendIn :=
  if m_blendInTime > 0 ∧ m_blendWeight < 1 then
    let blendWeightDelta := F.round (deltaTime / m_blendInTime)
    let w := Math.Clamp (F.round (m_blendWeight + blendWeightDelta)) 0 1
    { m_blendWeight := w
      scale := F.Lerp 1 scale w
      trace := [Op.div DivSite.blendWeightDelta deltaTime m_blendInTime] }
  else
    { m_blendWeight := m_blendWeight, scale := scale, trace := [] }

/-- Lines 45-69 of `SpeedScaleNode::Update` with rounding: besides the blend-in block, the
float multiplication of line 65 and the float division of line 66 are rounded. -/
def SpeedScaleNode.adjustDeltaTimeFloat (F : FloatArithmetic) (cfg : BuildConfig)
    (context : GraphContext) (node : SpeedScaleNode) :
    GraphContext × SpeedScaleNode × List Op :=
  if node.m_pChildNode.IsValid then
    match node.m_pScaleValueNode with
    | some scaleValueNode =>
      let b := blendInFloat F node.m_blendInTime node.m_blendWeight context.m_deltaTime
        (SpeedScaleNode.GetSpeedScale scaleValueNode context)
      let speedScale := b.scale
      if Math.IsNearZero cfg speedScale then
        ({ context with m_deltaTime := 0 },
         { node with m_blendWeight := b.m_blendWeight, m_duration := 0 },
         b.trace)
      else
        ({ context with m_deltaTime := F.round (context.m_deltaTime * speedScale) },
         { node with m_blendWeight := b.m_blendWeight
                     m_duration := F.round (node.m_pChildNode.GetDuration / speedScale) },
         b.trace ++ [Op.div DivSite.duration node.m_pChildNode.GetDuration speedScale])
    | none => (context, node, [])
  else (context, node, [])

/-- Lines 35-81, the unsynchronized `SpeedScaleNode::Update( context )`, with rounding. -/
def SpeedScaleNode.UpdateFloat (F : FloatArithmetic) (cfg : BuildConfig) (B : ChildBehaviour)
    (context : GraphContext) (node : SpeedScaleNode) : Outcome SpeedScaleNode :=
  -- Record old delta time
  let deltaTime := context.m_deltaTime
  -- Adjust the delta time for the child node
  let adjusted := SpeedScaleNode.adjustDeltaTimeFloat F cfg context node
  -- Update the child node
  let out := PassthroughNode.Update B adjusted.1 adjusted.2.1
  -- Reset the delta time
  { result := out.result
    context := { out.context with m_deltaTime := deltaTime }
    node := out.node
    trace := adjusted.2.2 ++ out.trace }

/-- Successive unsynchronized updates with rounding, one per frame context, each on the node
the previous one left; the node after the last. -/
def SpeedScaleNode.UpdateAllFloat (F : FloatArithmetic) (cfg : BuildConfig)
    (B : ChildBehaviour) : SpeedScaleNode → List GraphContext → SpeedScaleNode
  | node, [] => node
  | node, context :: frames =>
    SpeedScaleNode.UpdateAllFloat F cfg B (SpeedScaleNode.UpdateFloat F cfg B context node).node
      frames

/-! ## Concrete inputs -/

/-- A build with the tolerance 1/1000000 and the development tools on. -/
def exampleConfig : BuildConfig :=
  { Epsilon := 1 / 1000000, EE_DEVELOPMENT_TOOLS := true }

/-- A child whose update advances its current time by the delta time it is given, reports one
sampled event range at the end of the buffer, and leaves another delta time behind in the
context. -/
def exampleBehaviour : ChildBehaviour :=
  { Update := fun context child =>
      { result := { m_taskIdx := 7
                    m_sampledEventRange := SampledEventRange.at context.GetNumSampledEvents }
        context := { context with m_deltaTime := 99 }
        child := { child with m_previousTime := child.m_currentTime
                              m_currentTime := child.m_currentTime + context.m_deltaTime } }
    UpdateSync := fun context updateRange child =>
      { result := { m_taskIdx := 8
                    m_sampledEventRange := SampledEventRange.at context.GetNumSampledEvents }
        context := context
        child := { child with m_previousTime := updateRange.m_startTime.m_percentageThrough
                              m_currentTime := updateRange.m_endTime.m_percentageThrough } }
    Initialize := fun context _ child => (context, { child with valid := true }) }

/-- A valid clip of two seconds with average linear velocity `a`. -/
def exampleClip (a : ℚ) : PoseNode :=
  { valid := true, m_duration := 2, m_previousTime := 0, m_currentTime := 0
    averageLinearVelocity := a }

/-- A frame of `dt` seconds with an empty event buffer. -/
def exampleFrame (dt : ℚ) : GraphContext :=
  { m_deltaTime := dt, m_sampledEventsBuffer := [], valid := true }

/-- A speed-scale node over `exampleClip 1` with a constant scale value node. -/
def exampleSpeedScaleNode (blendInTime blendWeight scale : ℚ) : SpeedScaleNode :=
  { m_blendInTime := blendInTime
    m_pChildNode := exampleClip 1
    m_pScaleValueNode := some (fun _ => scale)
    m_blendWeight := blendWeight
    m_duration := 2
    m_previousTime := 0
    m_currentTime := 0 }

/-- A velocity-based speed-scale node over `exampleClip a` with a constant desired velocity. -/
def exampleVelocityNode (blendInTime blendWeight a desiredVelocity : ℚ) :
    VelocityBasedSpeedScaleNode :=
  { m_blendInTime := blendInTime
    m_pChildNode := exampleClip a
    m_pDesiredVelocityValueNode := some (fun _ => desiredVelocity)
    m_blendWeight := blendWeight
    m_duration := 2
    m_previousTime := 0
    m_currentTime := 0 }


/-- A sync track range from the start to the middle of the first event. -/
def exampleRange : SyncTrackTimeRange :=
  { m_startTime := { m_eventIdx := 0, m_percentageThrough := 0 }
    m_endTime := { m_eventIdx := 0, m_percentageThrough := 1 / 2 } }

/-- A velocity-based speed-scale node whose child is not valid. -/
def exampleInvalidVelocityNode : VelocityBasedSpeedScaleNode :=
  { m_blendInTime := 0
    m_pChildNode := { exampleClip 1 with valid := false }
    m_pDesiredVelocityValueNode := some (fun _ => 3)
    m_blendWeight := 1
    m_duration := 1
    m_previousTime := 0
    m_currentTime := 0 }

/-- A pose node base class that records its duration, previous time and current time, in this
order, and restores them. -/
def exampleProtocol : PoseNodeStateProtocol :=
  { width := 3
    Record := fun members i =>
      if i.val = 0 then members.m_duration
      else if i.val = 1 then members.m_previousTime
      else members.m_currentTime
    Restore := fun values _ =>
      { m_duration := values ⟨0, by decide⟩
        m_previousTime := values ⟨1, by decide⟩
        m_currentTime := values ⟨2, by decide⟩ } }

/-! ## Theorems -/

/-! ### Helper lemmas -/

theorem blendIn_scale_eq (b w dt s : ℚ) :
    (blendIn b w dt s).scale
      = if b > 0 ∧ w < 1 then Math.Lerp 1 s (Math.Clamp (w + dt / b) 0 1) else s := by
  unfold blendIn
  split <;> rfl

theorem blendIn_weight_eq (b w dt s : ℚ) :
    (blendIn b w dt s).m_blendWeight
      = if b > 0 ∧ w < 1 then Math.Clamp (w + dt / b) 0 1 else w := by
  unfold blendIn
  split <;> rfl

theorem blendIn_trace_eq (b w dt s : ℚ) :
    (blendIn b w dt s).trace
      = if b > 0 ∧ w < 1 then [Op.div DivSite.blendWeightDelta dt b] else [] := by
  unfold blendIn
  split <;> rfl

theorem childDeltaTimes_append (xs ys : List Op) :
    childDeltaTimes (xs ++ ys) = childDeltaTimes xs ++ childDeltaTimes ys := by
  induction xs with
  | nil => rfl
  | cons x xs ih => cases x <;> simp [childDeltaTimes, ih]

theorem divisionsAt_append (site : DivSite) (xs ys : List Op) :
    divisionsAt site (xs ++ ys) = divisionsAt site xs ++ divisionsAt site ys := by
  induction xs with
  | nil => rfl
  | cons x xs ih =>
    cases x <;> simp [divisionsAt, ih]
    split <;> simp

theorem childDeltaTimes_blendIn (b w dt s : ℚ) :
    childDeltaTimes (blendIn b w dt s).trace = [] := by
  rw [blendIn_trace_eq]
  split <;> rfl

theorem divisionsAt_duration_blendIn (b w dt s : ℚ) :
    divisionsAt DivSite.duration (blendIn b w dt s).trace = [] := by
  rw [blendIn_trace_eq]
  split <;> simp [divisionsAt]

/-- The scale after blend-in, written the way the spec writes it, for a weight that is at
most 1. -/
theorem blendIn_scale_spec (b w dt s : ℚ) (hw : w ≤ 1) :
    (blendIn b w dt s).scale
      = if b ≤ 0 ∨ w = 1 then s else Math.Lerp 1 s (Math.Clamp (w + dt / b) 0 1) := by
  rw [blendIn_scale_eq]
  by_cases hb : b > 0
  · by_cases h1 : w = 1
    · simp [h1]
    · have hlt : w < 1 := lt_of_le_of_ne hw h1
      have hnb : ¬ b ≤ 0 := not_le.mpr hb
      simp [hb, hlt, h1, hnb]
  · have hb2 : b ≤ 0 := not_lt.mp hb
    simp [hb, hb2]

/-- The adjustment of `SpeedScaleNode::Update` when the child is valid, the scale value node is
present and the scale after blend-in is not near zero. -/
theorem SpeedScaleNode.adjustDeltaTime_scaled (cfg : BuildConfig) (context : GraphContext)
    (n : SpeedScaleNode) (scaleValueNode : FloatValueNode)
    (hchild : n.m_pChildNode.IsValid = true)
    (hvalue : n.m_pScaleValueNode = some scaleValueNode)
    (hnz : Math.IsNearZero cfg
      (blendIn n.m_blendInTime n.m_blendWeight context.m_deltaTime
        (scaleValueNode context)).scale = false) :
    SpeedScaleNode.adjustDeltaTime cfg context n
      = ({ context with m_deltaTime := context.m_deltaTime *
            (blendIn n.m_blendInTime n.m_blendWeight context.m_deltaTime
              (scaleValueNode context)).scale },
         { n with
            m_blendWeight := (blendIn n.m_blendInTime n.m_blendWeight context.m_deltaTime
              (scaleValueNode context)).m_blendWeight
            m_duration := n.m_pChildNode.GetDuration /
              (blendIn n.m_blendInTime n.m_blendWeight context.m_deltaTime
                (scaleValueNode context)).scale },
         (blendIn n.m_blendInTime n.m_blendWeight context.m_deltaTime
              (scaleValueNode context)).trace ++
           [Op.div DivSite.duration n.m_pChildNode.GetDuration
             (blendIn n.m_blendInTime n.m_blendWeight context.m_deltaTime
              (scaleValueNode context)).scale]) := by
  unfold SpeedScaleNode.adjustDeltaTime
  simp only [hchild, hvalue, SpeedScaleNode.GetSpeedScale, FloatValueNode.GetValue, hnz]
  simp

/-- The adjustment of `SpeedScaleNode::Update` when the child is valid, the scale value node is
present and the scale after blend-in is near zero. -/
theorem SpeedScaleNode.adjustDeltaTime_frozen (cfg : BuildConfig) (context : GraphContext)
    (n : SpeedScaleNode) (scaleValueNode : FloatValueNode)
    (hchild : n.m_pChildNode.IsValid = true)
    (hvalue : n.m_pScaleValueNode = some scaleValueNode)
    (hz : Math.IsNearZero cfg
      (blendIn n.m_blendInTime n.m_blendWeight context.m_deltaTime
        (scaleValueNode context)).scale = true) :
    SpeedScaleNode.adjustDeltaTime cfg context n
      = ({ context with m_deltaTime := 0 },
         { n with
            m_blendWeight := (blendIn n.m_blendInTime n.m_blendWeight context.m_deltaTime
              (scaleValueNode context)).m_blendWeight
            m_duration := 0 },
         (blendIn n.m_blendInTime n.m_blendWeight context.m_deltaTime
              (scaleValueNode context)).trace) := by
  unfold SpeedScaleNode.adjustDeltaTime
  simp only [hchild, hvalue, SpeedScaleNode.GetSpeedScale, FloatValueNode.GetValue, hz]
  simp

theorem blendIn_scale_one (b w dt : ℚ) : (blendIn b w dt 1).scale = 1 := by
  rw [blendIn_scale_eq]
  split <;> simp [Math.Lerp]

theorem blendIn_scale_inactive (b w dt s : ℚ) (hinactive : b ≤ 0 ∨ w = 1) :
    (blendIn b w dt s).scale = s := by
  have hnot : ¬ (b > 0 ∧ w < 1) := by
    rintro ⟨hb, hlt⟩
    rcases hinactive with h | h
    · exact absurd hb (not_lt.mpr h)
    · exact absurd h (ne_of_lt hlt)
  rw [blendIn_scale_eq, if_neg hnot]

theorem childDeltaTimes_speedMultiplier (cfg : BuildConfig) (context : GraphContext)
    (child : PoseNode) (valueNode : FloatValueNode) :
    childDeltaTimes
      (VelocityBasedSpeedScaleNode.speedMultiplier cfg context child valueNode).2 = [] := by
  unfold VelocityBasedSpeedScaleNode.speedMultiplier
  simp only
  split
  · split <;> simp [childDeltaTimes]
  · split <;> simp [childDeltaTimes]

theorem divisionsAt_duration_speedMultiplier (cfg : BuildConfig) (context : GraphContext)
    (child : PoseNode) (valueNode : FloatValueNode) :
    divisionsAt DivSite.duration
      (VelocityBasedSpeedScaleNode.speedMultiplier cfg context child valueNode).2 = [] := by
  unfold VelocityBasedSpeedScaleNode.speedMultiplier
  simp only
  split
  · split <;> simp [divisionsAt]
  · split <;> simp [divisionsAt]

/-- The adjustment of `VelocityBasedSpeedScaleNode::Update` when the child is valid and the
desired-velocity value node is present. -/
theorem VelocityBasedSpeedScaleNode.adjustDeltaTime_eq (cfg : BuildConfig)
    (context : GraphContext) (v : VelocityBasedSpeedScaleNode) (valueNode : FloatValueNode)
    (hchild : v.m_pChildNode.IsValid = true)
    (hvalue : v.m_pDesiredVelocityValueNode = some valueNode) :
    VelocityBasedSpeedScaleNode.adjustDeltaTime cfg context v
      = ({ context with m_deltaTime := context.m_deltaTime *
            (blendIn v.m_blendInTime v.m_blendWeight context.m_deltaTime
              (VelocityBasedSpeedScaleNode.speedMultiplier cfg context v.m_pChildNode
                valueNode).1).scale },
         { v with
            m_blendWeight := (blendIn v.m_blendInTime v.m_blendWeight context.m_deltaTime
              (VelocityBasedSpeedScaleNode.speedMultiplier cfg context v.m_pChildNode
                valueNode).1).m_blendWeight
            m_duration := v.m_pChildNode.GetDuration /
              (blendIn v.m_blendInTime v.m_blendWeight context.m_deltaTime
                (VelocityBasedSpeedScaleNode.speedMultiplier cfg context v.m_pChildNode
                  valueNode).1).scale },
         (VelocityBasedSpeedScaleNode.speedMultiplier cfg context v.m_pChildNode valueNode).2 ++
           (blendIn v.m_blendInTime v.m_blendWeight context.m_deltaTime
              (VelocityBasedSpeedScaleNode.speedMultiplier cfg context v.m_pChildNode
                valueNode).1).trace ++
           [Op.div DivSite.duration v.m_pChildNode.GetDuration
             (blendIn v.m_blendInTime v.m_blendWeight context.m_deltaTime
              (VelocityBasedSpeedScaleNode.speedMultiplier cfg context v.m_pChildNode
                valueNode).1).scale]) := by
  unfold VelocityBasedSpeedScaleNode.adjustDeltaTime
  simp only [hchild, hvalue]
  simp

/-- The unsynchronized update of the velocity-based node when the child is valid and the
desired-velocity value node is present, in terms of the scale `m` after blend-in: the child is
entered once, with the delta time times `m`, its result is returned, and the division of the
child's duration by `m` is evaluated. -/
theorem VelocityBasedSpeedScaleNode.Update_valid (cfg : BuildConfig) (B : ChildBehaviour)
    (context : GraphContext) (v : VelocityBasedSpeedScaleNode) (valueNode : FloatValueNode)
    (m : ℚ)
    (hchild : v.m_pChildNode.IsValid = true)
    (hvalue : v.m_pDesiredVelocityValueNode = some valueNode)
    (hm : (blendIn v.m_blendInTime v.m_blendWeight context.m_deltaTime
      (VelocityBasedSpeedScaleNode.speedMultiplier cfg context v.m_pChildNode
        valueNode).1).scale = m) :
    childDeltaTimes (VelocityBasedSpeedScaleNode.Update cfg B context v).trace
      = [context.m_deltaTime * m] ∧
    (VelocityBasedSpeedScaleNode.Update cfg B context v).result
      = (B.Update { context with m_deltaTime := context.m_deltaTime * m } v.m_pChildNode).result ∧
    divisionsAt DivSite.duration (VelocityBasedSpeedScaleNode.Update cfg B context v).trace
      = [(v.m_pChildNode.GetDuration, m)] := by
  have hadj := VelocityBasedSpeedScaleNode.adjustDeltaTime_eq cfg context v valueNode hchild hvalue
  rw [hm] at hadj
  have hvalid : VelocityBasedSpeedScaleNode.IsValid
      { v with
        m_blendWeight := (blendIn v.m_blendInTime v.m_blendWeight context.m_deltaTime
          (VelocityBasedSpeedScaleNode.speedMultiplier cfg context v.m_pChildNode
            valueNode).1).m_blendWeight
        m_duration := v.m_pChildNode.GetDuration / m } = true := hchild
  refine ⟨?_, ?_, ?_⟩
  · simp only [VelocityBasedSpeedScaleNode.Update, VelocityBasedSpeedScaleNode.forwardChild, hadj,
      hvalid, if_true, childDeltaTimes_append, childDeltaTimes_blendIn,
      childDeltaTimes_speedMultiplier]
    simp [childDeltaTimes]
  · simp only [VelocityBasedSpeedScaleNode.Update, VelocityBasedSpeedScaleNode.forwardChild, hadj,
      hvalid, if_true]
  · simp only [VelocityBasedSpeedScaleNode.Update, VelocityBasedSpeedScaleNode.forwardChild, hadj,
      hvalid, if_true, divisionsAt_append, divisionsAt_duration_blendIn,
      divisionsAt_duration_speedMultiplier]
    simp [divisionsAt]

theorem VelocityBasedSpeedScaleNode.speedMultiplier_negative (cfg : BuildConfig)
    (context : GraphContext) (child : PoseNode) (valueNode : FloatValueNode)
    (hneg : valueNode context < 0) :
    (VelocityBasedSpeedScaleNode.speedMultiplier cfg context child valueNode).1 = 1 := by
  unfold VelocityBasedSpeedScaleNode.speedMultiplier
  simp only [FloatValueNode.GetValue, ge_iff_le, if_neg (not_le.mpr hneg)]

theorem VelocityBasedSpeedScaleNode.speedMultiplier_still (cfg : BuildConfig)
    (context : GraphContext) (child : PoseNode) (valueNode : FloatValueNode)
    (hpos : 0 ≤ valueNode context)
    (hz : Math.IsNearZero cfg child.GetAverageLinearVelocity = true) :
    (VelocityBasedSpeedScaleNode.speedMultiplier cfg context child valueNode).1 = 0 := by
  unfold VelocityBasedSpeedScaleNode.speedMultiplier
  simp only [FloatValueNode.GetValue, ge_iff_le, if_pos hpos, hz]
  simp

theorem VelocityBasedSpeedScaleNode.speedMultiplier_ratio (cfg : BuildConfig)
    (context : GraphContext) (child : PoseNode) (valueNode : FloatValueNode)
    (hpos : 0 ≤ valueNode context)
    (hnz : Math.IsNearZero cfg child.GetAverageLinearVelocity = false) :
    (VelocityBasedSpeedScaleNode.speedMultiplier cfg context child valueNode).1
      = valueNode context / child.GetAverageLinearVelocity := by
  unfold VelocityBasedSpeedScaleNode.speedMultiplier
  simp only [FloatValueNode.GetValue, ge_iff_le, if_pos hpos, hnz]
  simp

theorem SpeedScaleNode.adjustDeltaTime_settings (cfg : BuildConfig) (context : GraphContext)
    (n : SpeedScaleNode) :
    (SpeedScaleNode.adjustDeltaTime cfg context n).2.1.m_blendInTime = n.m_blendInTime ∧
    (SpeedScaleNode.adjustDeltaTime cfg context n).2.1.m_pScaleValueNode
      = n.m_pScaleValueNode := by
  unfold SpeedScaleNode.adjustDeltaTime
  split
  · split
    · simp only
      split <;> exact ⟨rfl, rfl⟩
    · exact ⟨rfl, rfl⟩
  · exact ⟨rfl, rfl⟩

theorem SpeedScaleNode.Update_settings (cfg : BuildConfig) (B : ChildBehaviour)
    (context : GraphContext) (n : SpeedScaleNode) :
    (SpeedScaleNode.Update cfg B context n).node.m_blendInTime = n.m_blendInTime ∧
    (SpeedScaleNode.Update cfg B context n).node.m_pScaleValueNode = n.m_pScaleValueNode := by
  have h := SpeedScaleNode.adjustDeltaTime_settings cfg context n
  simpa only [SpeedScaleNode.Update, PassthroughNode.Update] using h

theorem SpeedScaleNode.adjustDeltaTime_weight (cfg : BuildConfig) (context : GraphContext)
    (n : SpeedScaleNode) (scaleValueNode : FloatValueNode)
    (hchild : n.m_pChildNode.IsValid = true)
    (hvalue : n.m_pScaleValueNode = some scaleValueNode) :
    (SpeedScaleNode.adjustDeltaTime cfg context n).2.1.m_blendWeight
      = (blendIn n.m_blendInTime n.m_blendWeight context.m_deltaTime
          (scaleValueNode context)).m_blendWeight := by
  cases hz : Math.IsNearZero cfg (blendIn n.m_blendInTime n.m_blendWeight context.m_deltaTime
      (scaleValueNode context)).scale
  · rw [SpeedScaleNode.adjustDeltaTime_scaled cfg context n scaleValueNode hchild hvalue hz]
  · rw [SpeedScaleNode.adjustDeltaTime_frozen cfg context n scaleValueNode hchild hvalue hz]

theorem SpeedScaleNode.Update_weight (cfg : BuildConfig) (B : ChildBehaviour)
    (context : GraphContext) (n : SpeedScaleNode) (scaleValueNode : FloatValueNode)
    (hchild : n.m_pChildNode.IsValid = true)
    (hvalue : n.m_pScaleValueNode = some scaleValueNode) :
    (SpeedScaleNode.Update cfg B context n).node.m_blendWeight
      = (blendIn n.m_blendInTime n.m_blendWeight context.m_deltaTime
          (scaleValueNode context)).m_blendWeight := by
  have h := SpeedScaleNode.adjustDeltaTime_weight cfg context n scaleValueNode hchild hvalue
  simpa only [SpeedScaleNode.Update, PassthroughNode.Update] using h

/-- With a positive blend-in time, a weight in [0, 1] and a delta time that is not negative,
the blend-in block leaves the weight `min (w + dt / b) 1`. -/
theorem blendIn_weight_ramp (b w dt s : ℚ) (hb : 0 < b) (hw0 : 0 ≤ w) (hw1 : w ≤ 1)
    (hdt : 0 ≤ dt) :
    (blendIn b w dt s).m_blendWeight = min (w + dt / b) 1 := by
  have hq : 0 ≤ dt / b := div_nonneg hdt (le_of_lt hb)
  rw [blendIn_weight_eq]
  by_cases hlt : w < 1
  · rw [if_pos ⟨hb, hlt⟩]
    unfold Math.Clamp
    rw [max_eq_left (by linarith)]
  · have h1 : w = 1 := le_antisymm hw1 (not_lt.mp hlt)
    rw [if_neg (fun h => hlt h.2), h1, min_eq_right (by linarith)]

/-- When the weight the blend-in block leaves is 1, the scale it leaves is the target. -/
theorem blendIn_scale_of_weight_one (b w dt s : ℚ)
    (h : (blendIn b w dt s).m_blendWeight = 1) :
    (blendIn b w dt s).scale = s := by
  rw [blendIn_weight_eq] at h
  rw [blendIn_scale_eq]
  by_cases hc : b > 0 ∧ w < 1
  · rw [if_pos hc] at h
    rw [if_pos hc, h]
    simp [Math.Lerp]
  · rw [if_neg hc]

theorem SpeedScaleNode.UpdateAll_append (cfg : BuildConfig) (B : ChildBehaviour)
    (n : SpeedScaleNode) (xs ys : List GraphContext) :
    SpeedScaleNode.UpdateAll cfg B n (xs ++ ys)
      = SpeedScaleNode.UpdateAll cfg B (SpeedScaleNode.UpdateAll cfg B n xs) ys := by
  induction xs generalizing n with
  | nil => rfl
  | cons x xs ih => exact ih _

theorem SpeedScaleNode.UpdateAll_settings (cfg : BuildConfig) (B : ChildBehaviour)
    (n : SpeedScaleNode) (frames : List GraphContext) :
    (SpeedScaleNode.UpdateAll cfg B n frames).m_blendInTime = n.m_blendInTime ∧
    (SpeedScaleNode.UpdateAll cfg B n frames).m_pScaleValueNode = n.m_pScaleValueNode := by
  induction frames generalizing n with
  | nil => exact ⟨rfl, rfl⟩
  | cons x xs ih =>
    have h := SpeedScaleNode.Update_settings cfg B x n
    have h2 := ih (SpeedScaleNode.Update cfg B x n).node
    exact ⟨h2.1.trans h.1, h2.2.trans h.2⟩

theorem accumulatedDeltaTime_cons (c : GraphContext) (frames : List GraphContext) :
    accumulatedDeltaTime (c :: frames) = c.m_deltaTime + accumulatedDeltaTime frames := by
  simp [accumulatedDeltaTime]

theorem accumulatedDeltaTime_append (xs ys : List GraphContext) :
    accumulatedDeltaTime (xs ++ ys) = accumulatedDeltaTime xs + accumulatedDeltaTime ys := by
  simp [accumulatedDeltaTime]

theorem accumulatedDeltaTime_nonneg (frames : List GraphContext)
    (hdt : ∀ x ∈ frames, 0 ≤ x.m_deltaTime) : 0 ≤ accumulatedDeltaTime frames := by
  induction frames with
  | nil => simp [accumulatedDeltaTime]
  | cons x xs ih =>
    rw [accumulatedDeltaTime_cons]
    have h1 := hdt x (List.mem_cons_self x xs)
    have h2 := ih (fun y hy => hdt y (List.mem_cons_of_mem x hy))
    linarith

/-- The blend weight after a run of updates: with a positive blend-in time, a scale value node,
a weight in [0, 1] at the start, delta times that are not negative and a child that is valid
before each update, it is `min (w + accumulated / blendInTime) 1`. -/
theorem SpeedScaleNode.UpdateAll_weight (cfg : BuildConfig) (B : ChildBehaviour)
    (scaleValueNode : FloatValueNode) (frames : List GraphContext) (n : SpeedScaleNode)
    (hb : 0 < n.m_blendInTime)
    (hvalue : n.m_pScaleValueNode = some scaleValueNode)
    (hw0 : 0 ≤ n.m_blendWeight) (hw1 : n.m_blendWeight ≤ 1)
    (hdt : ∀ x ∈ frames, 0 ≤ x.m_deltaTime)
    (hchild : ∀ l x r, frames = l ++ x :: r →
      (SpeedScaleNode.UpdateAll cfg B n l).m_pChildNode.IsValid = true) :
    (SpeedScaleNode.UpdateAll cfg B n frames).m_blendWeight
      = min (n.m_blendWeight + accumulatedDeltaTime frames / n.m_blendInTime) 1 := by
  induction frames generalizing n with
  | nil => simp [SpeedScaleNode.UpdateAll, accumulatedDeltaTime, hw1]
  | cons c rest ih =>
    have hc : n.m_pChildNode.IsValid = true := hchild [] c rest rfl
    have hdtc : 0 ≤ c.m_deltaTime := hdt c (List.mem_cons_self c rest)
    have hset := SpeedScaleNode.Update_settings cfg B c n
    have hwt := SpeedScaleNode.Update_weight cfg B c n scaleValueNode hc hvalue
    rw [blendIn_weight_ramp _ _ _ _ hb hw0 hw1 hdtc] at hwt
    have hq : 0 ≤ c.m_deltaTime / n.m_blendInTime := div_nonneg hdtc (le_of_lt hb)
    have hrest := accumulatedDeltaTime_nonneg rest
      (fun y hy => hdt y (List.mem_cons_of_mem c hy))
    have hq2 : 0 ≤ accumulatedDeltaTime rest / n.m_blendInTime :=
      div_nonneg hrest (le_of_lt hb)
    have key := ih (SpeedScaleNode.Update cfg B c n).node (by rw [hset.1]; exact hb)
      (by rw [hset.2]; exact hvalue)
      (by rw [hwt]; exact le_min (by linarith) (by norm_num))
      (by rw [hwt]; exact min_le_right _ _)
      (fun y hy => hdt y (List.mem_cons_of_mem c hy))
      (fun l x r h => hchild (c :: l) x r (by rw [h]; rfl))
    show (SpeedScaleNode.UpdateAll cfg B (SpeedScaleNode.Update cfg B c n).node rest).m_blendWeight
      = _
    rw [key, hwt, hset.1, accumulatedDeltaTime_cons, add_div]
    rcases le_total (n.m_blendWeight + c.m_deltaTime / n.m_blendInTime) 1 with h | h
    · rw [min_eq_left h, add_assoc]
    · rw [min_eq_right h, min_eq_right (by linarith), min_eq_right (by linarith)]

theorem SpeedScaleNode.InitializeInternal_some (B : ChildBehaviour) (context₀ : GraphContext)
    (initialTime : SyncTrackTime) (n : SpeedScaleNode) (context₁ : GraphContext)
    (n₀ : SpeedScaleNode)
    (hinit : SpeedScaleNode.InitializeInternal B context₀ initialTime n = some (context₁, n₀)) :
    n₀.m_blendInTime = n.m_blendInTime ∧ n₀.m_pScaleValueNode = n.m_pScaleValueNode ∧
    n₀.m_blendWeight = if n.m_blendInTime > 0 then 0 else 1 := by
  unfold SpeedScaleNode.InitializeInternal at hinit
  split at hinit
  · exact absurd hinit (by simp)
  · split at hinit
    · exact absurd hinit (by simp)
    · simp only [PassthroughNode.InitializeInternal, Option.some.injEq, Prod.mk.injEq] at hinit
      rw [← hinit.2]
      exact ⟨rfl, rfl, rfl⟩

theorem SpeedScaleNode.adjustDeltaTime_child (cfg : BuildConfig) (context : GraphContext)
    (n : SpeedScaleNode) :
    (SpeedScaleNode.adjustDeltaTime cfg context n).2.1.m_pChildNode = n.m_pChildNode := by
  unfold SpeedScaleNode.adjustDeltaTime
  split
  · split
    · simp only
      split <;> rfl
    · rfl
  · rfl

/-- A child whose update keeps it valid stays valid through any run of updates. -/
theorem SpeedScaleNode.UpdateAll_child_valid (cfg : BuildConfig) (B : ChildBehaviour)
    (hkeeps : ∀ context child, child.IsValid = true → (B.Update context child).child.IsValid = true)
    (frames : List GraphContext) (n : SpeedScaleNode) (hchild : n.m_pChildNode.IsValid = true) :
    (SpeedScaleNode.UpdateAll cfg B n frames).m_pChildNode.IsValid = true := by
  induction frames generalizing n with
  | nil => exact hchild
  | cons c rest ih =>
    apply ih
    show (B.Update (SpeedScaleNode.adjustDeltaTime cfg c n).1
      (SpeedScaleNode.adjustDeltaTime cfg c n).2.1.m_pChildNode).child.IsValid = true
    apply hkeeps
    rw [SpeedScaleNode.adjustDeltaTime_child]
    exact hchild

theorem Math.Clamp_unit_range (x : ℚ) : 0 ≤ Math.Clamp x 0 1 ∧ Math.Clamp x 0 1 ≤ 1 := by
  unfold Math.Clamp
  exact ⟨le_min (le_max_right _ _) (by norm_num), min_le_right _ _⟩

/-- With a delta time that is not negative and a positive blend-in time, the blend-in block
does not lower the weight. -/
theorem blendIn_weight_mono (b w dt s : ℚ) (hb : 0 < b) (hdt : 0 ≤ dt) :
    w ≤ (blendIn b w dt s).m_blendWeight := by
  have hq : 0 ≤ dt / b := div_nonneg hdt (le_of_lt hb)
  rw [blendIn_weight_eq]
  split
  · rename_i h
    unfold Math.Clamp
    exact le_min (le_trans (by linarith) (le_max_left _ _)) (le_of_lt h.2)
  · exact le_refl _

/-- The distance of the scale after the blend-in block from the target, for a positive blend-in
time: `|1 - s| * (1 - w')` with `w'` the weight the block leaves, capped at 1. -/
theorem blendIn_scale_distance (b w dt s : ℚ) (hb : 0 < b) :
    |(blendIn b w dt s).scale - s| = |1 - s| * (1 - min (blendIn b w dt s).m_blendWeight 1) := by
  rw [blendIn_scale_eq, blendIn_weight_eq]
  by_cases h : b > 0 ∧ w < 1
  · rw [if_pos h, if_pos h, min_eq_left (Math.Clamp_unit_range _).2]
    have h1 := (Math.Clamp_unit_range (w + dt / b)).2
    have : Math.Lerp 1 s (Math.Clamp (w + dt / b) 0 1) - s
        = (1 - s) * (1 - Math.Clamp (w + dt / b) 0 1) := by
      unfold Math.Lerp; ring
    rw [this, abs_mul, abs_of_nonneg (by linarith : (0 : ℚ) ≤ 1 - Math.Clamp (w + dt / b) 0 1)]
  · rw [if_neg h, if_neg h]
    have hw : 1 ≤ w := by
      by_contra hlt
      exact h ⟨hb, not_le.mp hlt⟩
    rw [min_eq_right hw]
    simp

/-- The blend weight after an unsynchronized update of a `SpeedScaleNode`: the one before, or
the one the blend-in block leaves for some target scale. -/
theorem SpeedScaleNode.Update_weight_cases (cfg : BuildConfig) (B : ChildBehaviour)
    (context : GraphContext) (n : SpeedScaleNode) :
    (SpeedScaleNode.Update cfg B context n).node.m_blendWeight = n.m_blendWeight ∨
    ∃ s, (SpeedScaleNode.Update cfg B context n).node.m_blendWeight
      = (blendIn n.m_blendInTime n.m_blendWeight context.m_deltaTime s).m_blendWeight := by
  cases hchild : n.m_pChildNode.IsValid
  · left
    simp [SpeedScaleNode.Update, PassthroughNode.Update, SpeedScaleNode.adjustDeltaTime, hchild]
  · cases hvalue : n.m_pScaleValueNode with
    | none =>
      left
      simp [SpeedScaleNode.Update, PassthroughNode.Update, SpeedScaleNode.adjustDeltaTime,
        hchild, hvalue]
    | some scaleValueNode =>
      right
      exact ⟨scaleValueNode context,
        SpeedScaleNode.Update_weight cfg B context n scaleValueNode hchild hvalue⟩

theorem VelocityBasedSpeedScaleNode.velocity_adjustDeltaTime_settings (cfg : BuildConfig)
    (context : GraphContext) (v : VelocityBasedSpeedScaleNode) :
    (VelocityBasedSpeedScaleNode.adjustDeltaTime cfg context v).2.1.m_blendInTime
      = v.m_blendInTime ∧
    (VelocityBasedSpeedScaleNode.adjustDeltaTime cfg context v).2.1.m_pChildNode
      = v.m_pChildNode ∧
    (VelocityBasedSpeedScaleNode.adjustDeltaTime cfg context v).2.1.m_pDesiredVelocityValueNode
      = v.m_pDesiredVelocityValueNode := by
  unfold VelocityBasedSpeedScaleNode.adjustDeltaTime
  split
  · split
    · exact ⟨rfl, rfl, rfl⟩
    · exact ⟨rfl, rfl, rfl⟩
  · exact ⟨rfl, rfl, rfl⟩

/-- The synchronized update of a velocity-based node that is not valid: no update of the child
is entered and the default result's task index is returned. -/
theorem VelocityBasedSpeedScaleNode.UpdateSync_invalid (cfg : BuildConfig)
    (B : ChildBehaviour) (context : GraphContext) (updateRange : SyncTrackTimeRange)
    (v : VelocityBasedSpeedScaleNode) (hinvalid : v.IsValid = false) :
    childSyncUpdates (VelocityBasedSpeedScaleNode.UpdateSync cfg B context updateRange v).trace
      = [] ∧
    (VelocityBasedSpeedScaleNode.UpdateSync cfg B context updateRange v).result.m_taskIdx
      = -1 := by
  simp only [VelocityBasedSpeedScaleNode.UpdateSync, hinvalid]
  cases cfg.EE_DEVELOPMENT_TOOLS <;>
    simp [childSyncUpdates, GraphPoseNodeResult.default, InvalidIndex]

/-- The value read right after the base class's part of a recording made at the end of
`recorder` is the value written right after it. -/
theorem GraphStateRecording.read_after_base (recorder : GraphStateRecorder) (width : Nat)
    (base : Fin width → ℚ) (value : ℚ) :
    (GraphStateRecording.read
      { m_values := (recorder ++ List.ofFn base) ++ [value]
        m_readIdx := recorder.length + width }).1 = value := by
  unfold GraphStateRecording.read
  simp only
  rw [List.getD_eq_getElem?_getD, List.getElem?_append_right (by simp)]
  simp

/-- Two `SpeedScaleNode`s with the same settings, child, value node and blend weight give the
same result, context and operations when updated, and agree in the same way afterwards. -/
theorem SpeedScaleNode.Update_agree (cfg : BuildConfig) (B : ChildBehaviour)
    (context : GraphContext) (n x : SpeedScaleNode)
    (hb : x.m_blendInTime = n.m_blendInTime) (hc : x.m_pChildNode = n.m_pChildNode)
    (hv : x.m_pScaleValueNode = n.m_pScaleValueNode) (hw : x.m_blendWeight = n.m_blendWeight) :
    ((SpeedScaleNode.Update cfg B context x).result = (SpeedScaleNode.Update cfg B context n).result ∧
     (SpeedScaleNode.Update cfg B context x).context
       = (SpeedScaleNode.Update cfg B context n).context ∧
     (SpeedScaleNode.Update cfg B context x).trace
       = (SpeedScaleNode.Update cfg B context n).trace) ∧
    ((SpeedScaleNode.Update cfg B context x).node.m_blendInTime
       = (SpeedScaleNode.Update cfg B context n).node.m_blendInTime ∧
     (SpeedScaleNode.Update cfg B context x).node.m_pChildNode
       = (SpeedScaleNode.Update cfg B context n).node.m_pChildNode ∧
     (SpeedScaleNode.Update cfg B context x).node.m_pScaleValueNode
       = (SpeedScaleNode.Update cfg B context n).node.m_pScaleValueNode ∧
     (SpeedScaleNode.Update cfg B context x).node.m_blendWeight
       = (SpeedScaleNode.Update cfg B context n).node.m_blendWeight) := by
  obtain ⟨nb, nc, nv, nw, nd, np, ncur⟩ := n
  obtain ⟨xb, xc, xv, xw, xd, xp, xcur⟩ := x
  simp only at hb hc hv hw
  subst hb hc hv hw
  simp only [SpeedScaleNode.Update, PassthroughNode.Update, SpeedScaleNode.adjustDeltaTime]
  cases hvalid : xc.IsValid
  · simp
  · cases xv with
    | none => simp
    | some scaleValueNode =>
      simp only [if_true]
      split <;> simp

theorem SpeedScaleNode.UpdateOutputs_agree (cfg : BuildConfig) (B : ChildBehaviour)
    (frames : List GraphContext) (n x : SpeedScaleNode)
    (hb : x.m_blendInTime = n.m_blendInTime) (hc : x.m_pChildNode = n.m_pChildNode)
    (hv : x.m_pScaleValueNode = n.m_pScaleValueNode) (hw : x.m_blendWeight = n.m_blendWeight) :
    SpeedScaleNode.UpdateOutputs cfg B x frames = SpeedScaleNode.UpdateOutputs cfg B n frames := by
  induction frames generalizing n x with
  | nil => rfl
  | cons c rest ih =>
    have h := SpeedScaleNode.Update_agree cfg B c n x hb hc hv hw
    simp only [SpeedScaleNode.UpdateOutputs]
    rw [h.1.1, h.1.2.1, h.1.2.2, ih _ _ h.2.1 h.2.2.1 h.2.2.2.1 h.2.2.2.2]

/-- Two `VelocityBasedSpeedScaleNode`s with the same settings, child, value node and blend
weight give the same result, context and operations when updated, and agree in the same way
afterwards. -/
theorem VelocityBasedSpeedScaleNode.velocity_Update_agree (cfg : BuildConfig) (B : ChildBehaviour)
    (context : GraphContext) (v y : VelocityBasedSpeedScaleNode)
    (hb : y.m_blendInTime = v.m_blendInTime) (hc : y.m_pChildNode = v.m_pChildNode)
    (hv : y.m_pDesiredVelocityValueNode = v.m_pDesiredVelocityValueNode)
    (hw : y.m_blendWeight = v.m_blendWeight) :
    ((VelocityBasedSpeedScaleNode.Update cfg B context y).result
       = (VelocityBasedSpeedScaleNode.Update cfg B context v).result ∧
     (VelocityBasedSpeedScaleNode.Update cfg B context y).context
       = (VelocityBasedSpeedScaleNode.Update cfg B context v).context ∧
     (VelocityBasedSpeedScaleNode.Update cfg B context y).trace
       = (VelocityBasedSpeedScaleNode.Update cfg B context v).trace) ∧
    ((VelocityBasedSpeedScaleNode.Update cfg B context y).node.m_blendInTime
       = (VelocityBasedSpeedScaleNode.Update cfg B context v).node.m_blendInTime ∧
     (VelocityBasedSpeedScaleNode.Update cfg B context y).node.m_pChildNode
       = (VelocityBasedSpeedScaleNode.Update cfg B context v).node.m_pChildNode ∧
     (VelocityBasedSpeedScaleNode.Update cfg B context y).node.m_pDesiredVelocityValueNode
       = (VelocityBasedSpeedScaleNode.Update cfg B context v).node.m_pDesiredVelocityValueNode ∧
     (VelocityBasedSpeedScaleNode.Update cfg B context y).node.m_blendWeight
       = (VelocityBasedSpeedScaleNode.Update cfg B context v).node.m_blendWeight) := by
  obtain ⟨vb, vc, vv, vw, vd, vp, vcur⟩ := v
  obtain ⟨yb, yc, yv, yw, yd, yp, ycur⟩ := y
  simp only at hb hc hv hw
  subst hb hc hv hw
  simp only [VelocityBasedSpeedScaleNode.Update, VelocityBasedSpeedScaleNode.forwardChild,
    VelocityBasedSpeedScaleNode.adjustDeltaTime, VelocityBasedSpeedScaleNode.IsValid]
  cases hvalid : yc.IsValid
  · simp [hvalid]
  · cases yv with
    | none => simp [hvalid]
    | some valueNode => simp [hvalid]

theorem VelocityBasedSpeedScaleNode.velocity_UpdateOutputs_agree (cfg : BuildConfig)
    (B : ChildBehaviour) (frames : List GraphContext) (v y : VelocityBasedSpeedScaleNode)
    (hb : y.m_blendInTime = v.m_blendInTime) (hc : y.m_pChildNode = v.m_pChildNode)
    (hv : y.m_pDesiredVelocityValueNode = v.m_pDesiredVelocityValueNode)
    (hw : y.m_blendWeight = v.m_blendWeight) :
    VelocityBasedSpeedScaleNode.UpdateOutputs cfg B y frames
      = VelocityBasedSpeedScaleNode.UpdateOutputs cfg B v frames := by
  induction frames generalizing v y with
  | nil => rfl
  | cons c rest ih =>
    have h := VelocityBasedSpeedScaleNode.velocity_Update_agree cfg B c v y hb hc hv hw
    simp only [VelocityBasedSpeedScaleNode.UpdateOutputs]
    rw [h.1.1, h.1.2.1, h.1.2.2, ih _ _ h.2.1 h.2.2.1 h.2.2.2.1 h.2.2.2.2]

/-! ### The claims -/

/-- C1: after the unsynchronized update of either speed-scale node returns, the context's
delta time is the one it had on entry, whatever the node's state, the context and the child's
behaviour. -/
theorem C1_update_restores_deltaTime (cfg : BuildConfig) (B : ChildBehaviour)
    (context : GraphContext) (n : SpeedScaleNode) (v : VelocityBasedSpeedScaleNode) :
    (SpeedScaleNode.Update cfg B context n).context.m_deltaTime = context.m_deltaTime ∧
    (VelocityBasedSpeedScaleNode.Update cfg B context v).context.m_deltaTime
      = context.m_deltaTime :=
  ⟨rfl, rfl⟩

/-- C2: with a valid child and a scale value node, when the effective scale `e` is not near
zero the child's update is entered exactly once, with delta time `dt * e`, and the node returns
what the child returns there; `e` is the scale factor `s` when blending is inactive (blend-in
time at most 0, or weight already 1), and `Lerp(1, s, Clamp(w + dt / blendInTime, 0, 1))`
otherwise. The blend weight on entry is at most 1, as it always is. -/
theorem C2_child_receives_scaled_deltaTime (cfg : BuildConfig) (B : ChildBehaviour)
    (context : GraphContext) (n : SpeedScaleNode) (scaleValueNode : FloatValueNode) (e : ℚ)
    (hchild : n.m_pChildNode.IsValid = true)
    (hvalue : n.m_pScaleValueNode = some scaleValueNode)
    (hw : n.m_blendWeight ≤ 1)
    (he : e = if n.m_blendInTime ≤ 0 ∨ n.m_blendWeight = 1 then scaleValueNode context
              else Math.Lerp 1 (scaleValueNode context)
                (Math.Clamp (n.m_blendWeight + context.m_deltaTime / n.m_blendInTime) 0 1))
    (hnz : Math.IsNearZero cfg e = false) :
    childDeltaTimes (SpeedScaleNode.Update cfg B context n).trace = [context.m_deltaTime * e] ∧
    (SpeedScaleNode.Update cfg B context n).result
      = (B.Update { context with m_deltaTime := context.m_deltaTime * e } n.m_pChildNode).result := by
  have hscale : (blendIn n.m_blendInTime n.m_blendWeight context.m_deltaTime
      (scaleValueNode context)).scale = e := by
    rw [blendIn_scale_spec _ _ _ _ hw, he]
  have hadj := SpeedScaleNode.adjustDeltaTime_scaled cfg context n scaleValueNode hchild hvalue
    (by rw [hscale]; exact hnz)
  rw [hscale] at hadj
  constructor
  · simp only [SpeedScaleNode.Update, PassthroughNode.Update, hadj, childDeltaTimes_append,
      childDeltaTimes_blendIn]
    simp [childDeltaTimes]
  · simp only [SpeedScaleNode.Update, PassthroughNode.Update, hadj]

/-- C2, the scenario of the spec: scale 2, blend-in time 0: the child is entered with the
frame's delta time times 2. -/
theorem C2_witness :
    childDeltaTimes (SpeedScaleNode.Update exampleConfig exampleBehaviour
      (exampleFrame (1 / 60)) (exampleSpeedScaleNode 0 1 2)).trace = [1 / 60 * 2] :=
  (C2_child_receives_scaled_deltaTime exampleConfig exampleBehaviour (exampleFrame (1 / 60))
    (exampleSpeedScaleNode 0 1 2) (fun _ => 2) 2 rfl rfl
    (by simp [exampleSpeedScaleNode])
    (by simp [exampleSpeedScaleNode])
    (by simp [Math.IsNearZero, exampleConfig]; norm_num)).1

/-- C3: with a valid child and a scale value node, blending inactive and a scale factor `s`
that is not near zero (a positive one in particular), the node's duration after the
unsynchronized update is the child's duration `d` divided by `s`; it is already so when the
child's update is entered. -/
theorem C3_duration_is_child_duration_over_scale (cfg : BuildConfig) (B : ChildBehaviour)
    (context : GraphContext) (n : SpeedScaleNode) (scaleValueNode : FloatValueNode)
    (hchild : n.m_pChildNode.IsValid = true)
    (hvalue : n.m_pScaleValueNode = some scaleValueNode)
    (hinactive : n.m_blendInTime ≤ 0 ∨ n.m_blendWeight = 1)
    (hnz : Math.IsNearZero cfg (scaleValueNode context) = false) :
    (SpeedScaleNode.Update cfg B context n).node.m_duration
      = n.m_pChildNode.GetDuration / scaleValueNode context ∧
    (SpeedScaleNode.adjustDeltaTime cfg context n).2.1.m_duration
      = n.m_pChildNode.GetDuration / scaleValueNode context := by
  have hnot : ¬ (n.m_blendInTime > 0 ∧ n.m_blendWeight < 1) := by
    rintro ⟨hb, hlt⟩
    rcases hinactive with h | h
    · exact absurd hb (not_lt.mpr h)
    · exact absurd h (ne_of_lt hlt)
  have hscale : (blendIn n.m_blendInTime n.m_blendWeight context.m_deltaTime
      (scaleValueNode context)).scale = scaleValueNode context := by
    rw [blendIn_scale_eq, if_neg hnot]
  have hadj := SpeedScaleNode.adjustDeltaTime_scaled cfg context n scaleValueNode hchild hvalue
    (by rw [hscale]; exact hnz)
  rw [hscale] at hadj
  constructor
  · simp only [SpeedScaleNode.Update, PassthroughNode.Update, hadj]
  · rw [hadj]

/-- C3, the scenario of the spec: child duration 2, scale 2, blend-in time 0: the reported
duration is 1. -/
theorem C3_witness :
    (SpeedScaleNode.Update exampleConfig exampleBehaviour (exampleFrame (1 / 60))
      (exampleSpeedScaleNode 0 1 2)).node.m_duration = 1 := by
  have h := (C3_duration_is_child_duration_over_scale exampleConfig exampleBehaviour
    (exampleFrame (1 / 60)) (exampleSpeedScaleNode 0 1 2) (fun _ => 2) rfl rfl
    (by simp [exampleSpeedScaleNode])
    (by simp [Math.IsNearZero, exampleConfig]; norm_num)).1
  rw [h]
  simp [exampleSpeedScaleNode, exampleClip, PoseNode.GetDuration]

/-- C4: with a valid child and a scale value node, when the effective scale (the scale after
blend-in interpolation) is near zero, the child's update is entered exactly once, with delta
time 0, the node's duration is 0 (when the child's update is entered and after the update),
and the division of the child's duration by the scale is not evaluated. -/
theorem C4_near_zero_scale_freezes_child (cfg : BuildConfig) (B : ChildBehaviour)
    (context : GraphContext) (n : SpeedScaleNode) (scaleValueNode : FloatValueNode)
    (hchild : n.m_pChildNode.IsValid = true)
    (hvalue : n.m_pScaleValueNode = some scaleValueNode)
    (hz : Math.IsNearZero cfg
      (if n.m_blendInTime > 0 ∧ n.m_blendWeight < 1 then
        Math.Lerp 1 (scaleValueNode context)
          (Math.Clamp (n.m_blendWeight + context.m_deltaTime / n.m_blendInTime) 0 1)
       else scaleValueNode context) = true) :
    childDeltaTimes (SpeedScaleNode.Update cfg B context n).trace = [0] ∧
    (SpeedScaleNode.Update cfg B context n).node.m_duration = 0 ∧
    divisionsAt DivSite.duration (SpeedScaleNode.Update cfg B context n).trace = [] ∧
    (SpeedScaleNode.adjustDeltaTime cfg context n).2.1.m_duration = 0 := by
  rw [← blendIn_scale_eq] at hz
  have hadj := SpeedScaleNode.adjustDeltaTime_frozen cfg context n scaleValueNode hchild hvalue hz
  refine ⟨?_, ?_, ?_, by rw [hadj]⟩
  · simp only [SpeedScaleNode.Update, PassthroughNode.Update, hadj, childDeltaTimes_append,
      childDeltaTimes_blendIn]
    simp [childDeltaTimes]
  · simp only [SpeedScaleNode.Update, PassthroughNode.Update, hadj]
  · simp only [SpeedScaleNode.Update, PassthroughNode.Update, hadj, divisionsAt_append,
      divisionsAt_duration_blendIn]
    simp [divisionsAt]

/-- C4 at scale 0 with no blend-in, and at a target scale of -1 reached half way through a
blend-in of one second (effective scale 0): the child is frozen. -/
theorem C4_witness :
    childDeltaTimes (SpeedScaleNode.Update exampleConfig exampleBehaviour (exampleFrame (1 / 60))
      (exampleSpeedScaleNode 0 1 0)).trace = [0] ∧
    (SpeedScaleNode.Update exampleConfig exampleBehaviour (exampleFrame (1 / 2))
      (exampleSpeedScaleNode 1 0 (-1))).node.m_duration = 0 :=
  ⟨(C4_near_zero_scale_freezes_child exampleConfig exampleBehaviour (exampleFrame (1 / 60))
      (exampleSpeedScaleNode 0 1 0) (fun _ => 0) rfl rfl
      (by simp [Math.IsNearZero, exampleConfig, exampleSpeedScaleNode])).1,
   (C4_near_zero_scale_freezes_child exampleConfig exampleBehaviour (exampleFrame (1 / 2))
      (exampleSpeedScaleNode 1 0 (-1)) (fun _ => -1) rfl rfl
      (by norm_num [Math.IsNearZero, exampleConfig, exampleSpeedScaleNode, exampleFrame,
        Math.Lerp, Math.Clamp])).2.1⟩

/-- C5 as stated fails: with a child whose average linear velocity is 0, a desired velocity of
-1 and blending inactive, the speed multiplier is 1, not 0, and the child's update is entered
with the caller's delta time 1/60, not with 0. -/
theorem C5_counterexample :
    (exampleVelocityNode 0 1 0 (-1)).m_pChildNode.IsValid = true ∧
    Math.IsNearZero exampleConfig
      (exampleVelocityNode 0 1 0 (-1)).m_pChildNode.GetAverageLinearVelocity = true ∧
    (VelocityBasedSpeedScaleNode.speedMultiplier exampleConfig (exampleFrame (1 / 60))
      (exampleVelocityNode 0 1 0 (-1)).m_pChildNode (fun _ => -1)).1 = 1 ∧
    childDeltaTimes (VelocityBasedSpeedScaleNode.Update exampleConfig exampleBehaviour
      (exampleFrame (1 / 60)) (exampleVelocityNode 0 1 0 (-1))).trace = [1 / 60] ∧
    ¬ childDeltaTimes (VelocityBasedSpeedScaleNode.Update exampleConfig exampleBehaviour
      (exampleFrame (1 / 60)) (exampleVelocityNode 0 1 0 (-1))).trace = [0] := by
  have hm : (VelocityBasedSpeedScaleNode.speedMultiplier exampleConfig (exampleFrame (1 / 60))
      (exampleVelocityNode 0 1 0 (-1)).m_pChildNode (fun _ => -1)).1 = 1 :=
    VelocityBasedSpeedScaleNode.speedMultiplier_negative _ _ _ _ (by norm_num)
  have hu := (VelocityBasedSpeedScaleNode.Update_valid exampleConfig exampleBehaviour
    (exampleFrame (1 / 60)) (exampleVelocityNode 0 1 0 (-1)) (fun _ => -1) 1 rfl rfl
    (by rw [hm]; exact blendIn_scale_one _ _ _)).1
  have hdt : (exampleFrame (1 / 60)).m_deltaTime * 1 = 1 / 60 := by
    simp [exampleFrame]
  rw [hdt] at hu
  refine ⟨rfl, ?_, hm, hu, ?_⟩
  · simp [Math.IsNearZero, exampleConfig, exampleVelocityNode, exampleClip,
      PoseNode.GetAverageLinearVelocity]
  · rw [hu]
    norm_num

/-- C5, amended: with a valid child and the desired-velocity node present, whenever the child's
average linear velocity is near zero the speed multiplier is 0 for every desired velocity that
is not negative, so with blending inactive the child's update is entered with delta time 0. -/
theorem C5_still_child_nonnegative_velocity_freezes (cfg : BuildConfig) (B : ChildBehaviour)
    (context : GraphContext) (v : VelocityBasedSpeedScaleNode) (valueNode : FloatValueNode)
    (hchild : v.m_pChildNode.IsValid = true)
    (hvalue : v.m_pDesiredVelocityValueNode = some valueNode)
    (hz : Math.IsNearZero cfg v.m_pChildNode.GetAverageLinearVelocity = true)
    (hpos : 0 ≤ valueNode context)
    (hinactive : v.m_blendInTime ≤ 0 ∨ v.m_blendWeight = 1) :
    (VelocityBasedSpeedScaleNode.speedMultiplier cfg context v.m_pChildNode valueNode).1 = 0 ∧
    childDeltaTimes (VelocityBasedSpeedScaleNode.Update cfg B context v).trace = [0] := by
  have hm := VelocityBasedSpeedScaleNode.speedMultiplier_still cfg context v.m_pChildNode
    valueNode hpos hz
  have hu := (VelocityBasedSpeedScaleNode.Update_valid cfg B context v valueNode 0 hchild hvalue
    (by rw [hm]; exact blendIn_scale_inactive _ _ _ _ hinactive)).1
  rw [mul_zero] at hu
  exact ⟨hm, hu⟩

/-- C5 amended, the scenario of the spec: desired velocity 3, average velocity 0: the
multiplier is 0 and the child is frozen. -/
theorem C5_witness :
    (VelocityBasedSpeedScaleNode.speedMultiplier exampleConfig (exampleFrame (1 / 60))
      (exampleVelocityNode 0 1 0 3).m_pChildNode (fun _ => 3)).1 = 0 ∧
    childDeltaTimes (VelocityBasedSpeedScaleNode.Update exampleConfig exampleBehaviour
      (exampleFrame (1 / 60)) (exampleVelocityNode 0 1 0 3)).trace = [0] :=
  C5_still_child_nonnegative_velocity_freezes exampleConfig exampleBehaviour
    (exampleFrame (1 / 60)) (exampleVelocityNode 0 1 0 3) (fun _ => 3) rfl rfl
    (by simp [Math.IsNearZero, exampleConfig, exampleVelocityNode, exampleClip,
      PoseNode.GetAverageLinearVelocity])
    (by norm_num)
    (by simp [exampleVelocityNode])

/-- C6, the code at the scenario of the spec (desired velocity 3, average velocity 0, no
blend-in, a valid child of duration 2): the speed multiplier is 0, and the division of the
child's duration by it, `2 / 0`, is evaluated all the same. -/
theorem C6_division_by_zero_multiplier_is_evaluated :
    (VelocityBasedSpeedScaleNode.speedMultiplier exampleConfig (exampleFrame (1 / 60))
      (exampleVelocityNode 0 1 0 3).m_pChildNode (fun _ => 3)).1 = 0 ∧
    divisionsAt DivSite.duration (VelocityBasedSpeedScaleNode.Update exampleConfig
      exampleBehaviour (exampleFrame (1 / 60)) (exampleVelocityNode 0 1 0 3)).trace
      = [(2, 0)] := by
  have hm : (VelocityBasedSpeedScaleNode.speedMultiplier exampleConfig (exampleFrame (1 / 60))
      (exampleVelocityNode 0 1 0 3).m_pChildNode (fun _ => 3)).1 = 0 :=
    VelocityBasedSpeedScaleNode.speedMultiplier_still _ _ _ _ (by norm_num)
      (by simp [Math.IsNearZero, exampleConfig, exampleVelocityNode, exampleClip,
        PoseNode.GetAverageLinearVelocity])
  have hu := (VelocityBasedSpeedScaleNode.Update_valid exampleConfig exampleBehaviour
    (exampleFrame (1 / 60)) (exampleVelocityNode 0 1 0 3) (fun _ => 3) 0 rfl rfl
    (by rw [hm]; exact blendIn_scale_inactive _ _ _ _ (Or.inl (le_refl 0)))).2.2
  exact ⟨hm, hu⟩

/-- C7: with a valid child and a desired velocity below 0, whatever the average velocity, the
blend weight and the blend-in time, the speed multiplier is 1 before and after blend-in, the
child's update is entered exactly once, with the caller's delta time, and the node returns what
the child returns for the caller's context. -/
theorem C7_negative_velocity_keeps_identity (cfg : BuildConfig) (B : ChildBehaviour)
    (context : GraphContext) (v : VelocityBasedSpeedScaleNode) (valueNode : FloatValueNode)
    (hchild : v.m_pChildNode.IsValid = true)
    (hvalue : v.m_pDesiredVelocityValueNode = some valueNode)
    (hneg : valueNode context < 0) :
    (VelocityBasedSpeedScaleNode.speedMultiplier cfg context v.m_pChildNode valueNode).1 = 1 ∧
    (blendIn v.m_blendInTime v.m_blendWeight context.m_deltaTime
      (VelocityBasedSpeedScaleNode.speedMultiplier cfg context v.m_pChildNode
        valueNode).1).scale = 1 ∧
    childDeltaTimes (VelocityBasedSpeedScaleNode.Update cfg B context v).trace
      = [context.m_deltaTime] ∧
    (VelocityBasedSpeedScaleNode.Update cfg B context v).result
      = (B.Update context v.m_pChildNode).result := by
  have hm := VelocityBasedSpeedScaleNode.speedMultiplier_negative cfg context v.m_pChildNode
    valueNode hneg
  have hb : (blendIn v.m_blendInTime v.m_blendWeight context.m_deltaTime
      (VelocityBasedSpeedScaleNode.speedMultiplier cfg context v.m_pChildNode
        valueNode).1).scale = 1 := by
    rw [hm]; exact blendIn_scale_one _ _ _
  have hu := VelocityBasedSpeedScaleNode.Update_valid cfg B context v valueNode 1 hchild hvalue hb
  rw [mul_one] at hu
  exact ⟨hm, hb, hu.1, hu.2.1⟩

/-- C7 at desired velocity -1, average velocity 5, half way through a blend-in of one
second. -/
theorem C7_witness :
    childDeltaTimes (VelocityBasedSpeedScaleNode.Update exampleConfig exampleBehaviour
      (exampleFrame (1 / 60)) (exampleVelocityNode 1 (1 / 2) 5 (-1))).trace
      = [(exampleFrame (1 / 60)).m_deltaTime] ∧
    (VelocityBasedSpeedScaleNode.Update exampleConfig exampleBehaviour
      (exampleFrame (1 / 60)) (exampleVelocityNode 1 (1 / 2) 5 (-1))).result
      = (exampleBehaviour.Update (exampleFrame (1 / 60)) (exampleClip 5)).result :=
  (C7_negative_velocity_keeps_identity exampleConfig exampleBehaviour (exampleFrame (1 / 60))
    (exampleVelocityNode 1 (1 / 2) 5 (-1)) (fun _ => -1) rfl rfl (by norm_num)).2.2

/-- C8: with a valid child, a desired velocity `v` of at least 0, an average linear velocity
`a` of the child that is not near zero, and blending inactive, the speed multiplier is `v / a`
and the child's update is entered exactly once, with the caller's delta time times `v / a`. -/
theorem C8_multiplier_is_velocity_ratio (cfg : BuildConfig) (B : ChildBehaviour)
    (context : GraphContext) (v : VelocityBasedSpeedScaleNode) (valueNode : FloatValueNode)
    (hchild : v.m_pChildNode.IsValid = true)
    (hvalue : v.m_pDesiredVelocityValueNode = some valueNode)
    (hpos : 0 ≤ valueNode context)
    (hnz : Math.IsNearZero cfg v.m_pChildNode.GetAverageLinearVelocity = false)
    (hinactive : v.m_blendInTime ≤ 0 ∨ v.m_blendWeight = 1) :
    (VelocityBasedSpeedScaleNode.speedMultiplier cfg context v.m_pChildNode valueNode).1
      = valueNode context / v.m_pChildNode.GetAverageLinearVelocity ∧
    childDeltaTimes (VelocityBasedSpeedScaleNode.Update cfg B context v).trace
      = [context.m_deltaTime * (valueNode context / v.m_pChildNode.GetAverageLinearVelocity)] := by
  have hm := VelocityBasedSpeedScaleNode.speedMultiplier_ratio cfg context v.m_pChildNode
    valueNode hpos hnz
  have hu := (VelocityBasedSpeedScaleNode.Update_valid cfg B context v valueNode
    (valueNode context / v.m_pChildNode.GetAverageLinearVelocity) hchild hvalue
    (by rw [hm]; exact blendIn_scale_inactive _ _ _ _ hinactive)).1
  exact ⟨hm, hu⟩

/-- C8 at desired velocity 3 and average velocity 2: the multiplier is 3/2. -/
theorem C8_witness :
    (VelocityBasedSpeedScaleNode.speedMultiplier exampleConfig (exampleFrame (1 / 60))
      (exampleVelocityNode 0 1 2 3).m_pChildNode (fun _ => 3)).1
      = 3 / (exampleVelocityNode 0 1 2 3).m_pChildNode.GetAverageLinearVelocity :=
  (C8_multiplier_is_velocity_ratio exampleConfig exampleBehaviour (exampleFrame (1 / 60))
    (exampleVelocityNode 0 1 2 3) (fun _ => 3) rfl rfl (by norm_num)
    (by simp [Math.IsNearZero, exampleConfig, exampleVelocityNode, exampleClip,
      PoseNode.GetAverageLinearVelocity]; norm_num)
    (by simp [exampleVelocityNode])).1

/-- C9: initialization of either node (valid context, value node present, so that no assertion
fails) succeeds, and leaves the blend weight 0 when the blend-in time is positive, so that the
effective scale `Lerp(1, s, weight)` is 1 for every target scale `s`, and leaves the blend
weight 1 when the blend-in time is at most 0. -/
theorem C9_initial_blend_weight (B : ChildBehaviour) (context : GraphContext)
    (initialTime : SyncTrackTime) (n : SpeedScaleNode) (v : VelocityBasedSpeedScaleNode)
    (hcontext : context.IsValid = true)
    (hn : n.m_pScaleValueNode.isSome = true)
    (hv : v.m_pDesiredVelocityValueNode.isSome = true) :
    (∃ c₁ n₀, SpeedScaleNode.InitializeInternal B context initialTime n = some (c₁, n₀) ∧
      (0 < n.m_blendInTime →
        n₀.m_blendWeight = 0 ∧ ∀ s : ℚ, Math.Lerp 1 s n₀.m_blendWeight = 1) ∧
      (n.m_blendInTime ≤ 0 → n₀.m_blendWeight = 1)) ∧
    (∃ c₁ v₀, VelocityBasedSpeedScaleNode.InitializeInternal B context initialTime v
        = some (c₁, v₀) ∧
      (0 < v.m_blendInTime →
        v₀.m_blendWeight = 0 ∧ ∀ s : ℚ, Math.Lerp 1 s v₀.m_blendWeight = 1) ∧
      (v.m_blendInTime ≤ 0 → v₀.m_blendWeight = 1)) := by
  have hn2 : n.m_pScaleValueNode.isNone = false := by
    cases h : n.m_pScaleValueNode with
    | none => rw [h] at hn; exact absurd hn (by simp)
    | some x => rfl
  have hv2 : v.m_pDesiredVelocityValueNode.isNone = false := by
    cases h : v.m_pDesiredVelocityValueNode with
    | none => rw [h] at hv; exact absurd hv (by simp)
    | some x => rfl
  have heq : SpeedScaleNode.InitializeInternal B context initialTime n
      = some ((PassthroughNode.InitializeInternal B context initialTime n).1,
          { (PassthroughNode.InitializeInternal B context initialTime n).2 with
            m_blendWeight := if n.m_blendInTime > 0 then 0 else 1 }) := by
    unfold SpeedScaleNode.InitializeInternal
    rw [if_neg (by simp [hcontext]), if_neg (by simp [hn2])]
    rfl
  constructor
  · refine ⟨_, _, heq, ?_, ?_⟩
    · intro hb
      have hw : (if n.m_blendInTime > 0 then (0 : ℚ) else 1) = 0 := if_pos hb
      refine ⟨hw, fun s => ?_⟩
      show Math.Lerp 1 s (if n.m_blendInTime > 0 then (0 : ℚ) else 1) = 1
      rw [hw]
      simp [Math.Lerp]
    · intro hb
      exact if_neg (not_lt.mpr hb)
  · unfold VelocityBasedSpeedScaleNode.InitializeInternal
    rw [if_neg (by simp [hcontext]), if_neg (by simp [hv2])]
    simp only
    split
    · refine ⟨_, _, rfl, ?_, ?_⟩
      · intro hb
        have hw : (if v.m_blendInTime > 0 then (0 : ℚ) else 1) = 0 := if_pos hb
        refine ⟨hw, fun s => ?_⟩
        show Math.Lerp 1 s (if v.m_blendInTime > 0 then (0 : ℚ) else 1) = 1
        rw [hw]
        simp [Math.Lerp]
      · intro hb
        exact if_neg (not_lt.mpr hb)
    · refine ⟨_, _, rfl, ?_, ?_⟩
      · intro hb
        have hw : (if v.m_blendInTime > 0 then (0 : ℚ) else 1) = 0 := if_pos hb
        refine ⟨hw, fun s => ?_⟩
        show Math.Lerp 1 s (if v.m_blendInTime > 0 then (0 : ℚ) else 1) = 1
        rw [hw]
        simp [Math.Lerp]
      · intro hb
        exact if_neg (not_lt.mpr hb)

/-- C9 at a blend-in time of one second, on nodes whose blend weight was 1/2 before: both
initializations succeed. -/
theorem C9_witness :
    (∃ c₁ n₀, SpeedScaleNode.InitializeInternal exampleBehaviour (exampleFrame 0) ⟨0, 0⟩
      (exampleSpeedScaleNode 1 (1 / 2) 2) = some (c₁, n₀)) ∧
    (∃ c₁ v₀, VelocityBasedSpeedScaleNode.InitializeInternal exampleBehaviour (exampleFrame 0)
      ⟨0, 0⟩ (exampleVelocityNode 1 (1 / 2) 1 3) = some (c₁, v₀)) := by
  have h := C9_initial_blend_weight exampleBehaviour (exampleFrame 0) ⟨0, 0⟩
    (exampleSpeedScaleNode 1 (1 / 2) 2) (exampleVelocityNode 1 (1 / 2) 1 3) rfl rfl rfl
  obtain ⟨⟨c₁, n₀, h1, -⟩, ⟨c₂, v₀, h2, -⟩⟩ := h
  exact ⟨⟨c₁, n₀, h1⟩, ⟨c₂, v₀, h2⟩⟩

/-- Without rounding: a `SpeedScaleNode` with a positive blend-in time is initialized and then
updated once per frame, the delta times not negative, the scale value node present and the
child valid before each update. If by the update of frame `c` the accumulated delta time (that
of `c` included) has reached the blend-in time, then after that update the blend weight is 1
and the effective scale that update used is the target scale it read; and the same holds of
every later update `c₂`. -/
theorem SpeedScaleNode.UpdateAll_completes_unrounded (cfg : BuildConfig) (B : ChildBehaviour)
    (context₀ context₁ : GraphContext) (initialTime : SyncTrackTime) (n n₀ : SpeedScaleNode)
    (scaleValueNode : FloatValueNode) (before after : List GraphContext) (c : GraphContext)
    (hinit : SpeedScaleNode.InitializeInternal B context₀ initialTime n = some (context₁, n₀))
    (hb : 0 < n.m_blendInTime)
    (hvalue : n.m_pScaleValueNode = some scaleValueNode)
    (hdt : ∀ x ∈ before ++ c :: after, 0 ≤ x.m_deltaTime)
    (hchild : ∀ l x r, before ++ c :: after = l ++ x :: r →
      (SpeedScaleNode.UpdateAll cfg B n₀ l).m_pChildNode.IsValid = true)
    (hreached : n.m_blendInTime ≤ accumulatedDeltaTime (before ++ [c])) :
    ((SpeedScaleNode.UpdateAll cfg B n₀ (before ++ [c])).m_blendWeight = 1 ∧
     (blendIn n.m_blendInTime (SpeedScaleNode.UpdateAll cfg B n₀ before).m_blendWeight
        c.m_deltaTime (scaleValueNode c)).scale = scaleValueNode c) ∧
    ∀ between c₂ rest, after = between ++ c₂ :: rest →
      (SpeedScaleNode.UpdateAll cfg B n₀ (before ++ c :: between ++ [c₂])).m_blendWeight = 1 ∧
      (blendIn n.m_blendInTime
        (SpeedScaleNode.UpdateAll cfg B n₀ (before ++ c :: between)).m_blendWeight
        c₂.m_deltaTime (scaleValueNode c₂)).scale = scaleValueNode c₂ := by
  obtain ⟨hb₀, hv₀, hw₀⟩ := SpeedScaleNode.InitializeInternal_some B context₀ initialTime n
    context₁ n₀ hinit
  rw [if_pos hb] at hw₀
  -- what holds of any update `x` of the run by which the blend-in time has been reached
  have key : ∀ l x r, before ++ c :: after = l ++ x :: r →
      n.m_blendInTime ≤ accumulatedDeltaTime (l ++ [x]) →
      (SpeedScaleNode.UpdateAll cfg B n₀ (l ++ [x])).m_blendWeight = 1 ∧
      (blendIn n.m_blendInTime (SpeedScaleNode.UpdateAll cfg B n₀ l).m_blendWeight
        x.m_deltaTime (scaleValueNode x)).scale = scaleValueNode x := by
    intro l x r hsplit hsum
    have hdt2 : ∀ y ∈ l ++ [x], 0 ≤ y.m_deltaTime := by
      intro y hy
      apply hdt y
      rw [hsplit]
      rcases List.mem_append.mp hy with h | h
      · exact List.mem_append_left _ h
      · exact List.mem_append_right _ (by
          rw [List.mem_singleton] at h
          rw [h]
          exact List.mem_cons_self _ _)
    have hchild2 : ∀ l2 x2 r2, l ++ [x] = l2 ++ x2 :: r2 →
        (SpeedScaleNode.UpdateAll cfg B n₀ l2).m_pChildNode.IsValid = true := by
      intro l2 x2 r2 h
      apply hchild l2 x2 (r2 ++ r)
      rw [hsplit]
      have : l ++ x :: r = (l ++ [x]) ++ r := by simp
      rw [this, h]
      simp
    have hweight := SpeedScaleNode.UpdateAll_weight cfg B scaleValueNode (l ++ [x]) n₀
      (by rw [hb₀]; exact hb) (by rw [hv₀]; exact hvalue) (by rw [hw₀]) (by rw [hw₀]; norm_num)
      hdt2 hchild2
    rw [hw₀, hb₀, zero_add] at hweight
    have hone : 1 ≤ accumulatedDeltaTime (l ++ [x]) / n.m_blendInTime := by
      rw [le_div_iff₀ hb, one_mul]
      exact hsum
    rw [min_eq_right hone] at hweight
    refine ⟨hweight, ?_⟩
    apply blendIn_scale_of_weight_one
    have hset := SpeedScaleNode.UpdateAll_settings cfg B n₀ l
    have hstep := SpeedScaleNode.Update_weight cfg B x (SpeedScaleNode.UpdateAll cfg B n₀ l)
      scaleValueNode (hchild l x r hsplit) (by rw [hset.2, hv₀]; exact hvalue)
    rw [hset.1, hb₀] at hstep
    rw [← hstep]
    rw [SpeedScaleNode.UpdateAll_append] at hweight
    exact hweight
  refine ⟨key before c after rfl hreached, ?_⟩
  intro between c₂ rest hafter
  have hsplit : before ++ c :: after = (before ++ c :: between) ++ c₂ :: rest := by
    rw [hafter]; simp
  have hsum : n.m_blendInTime ≤ accumulatedDeltaTime ((before ++ c :: between) ++ [c₂]) := by
    have hnn : 0 ≤ accumulatedDeltaTime (between ++ [c₂]) := by
      apply accumulatedDeltaTime_nonneg
      intro y hy
      apply hdt y
      rw [hafter]
      apply List.mem_append_right
      apply List.mem_cons_of_mem
      rcases List.mem_append.mp hy with h | h
      · exact List.mem_append_left _ h
      · exact List.mem_append_right _ (by
          rw [List.mem_singleton] at h
          rw [h]
          exact List.mem_cons_self _ _)
    have heq : (before ++ c :: between) ++ [c₂] = (before ++ [c]) ++ (between ++ [c₂]) := by
      simp
    rw [heq, accumulatedDeltaTime_append]
    linarith
  exact key (before ++ c :: between) c₂ rest hsplit hsum

/-! ### The blend-in with rounded float arithmetic -/

theorem blendInFloat_unrounded (b w dt s : ℚ) :
    blendInFloat FloatArithmetic.unrounded b w dt s = blendIn b w dt s :=
  rfl

theorem SpeedScaleNode.UpdateFloat_unrounded (cfg : BuildConfig) (B : ChildBehaviour)
    (context : GraphContext) (n : SpeedScaleNode) :
    SpeedScaleNode.UpdateFloat FloatArithmetic.unrounded cfg B context n
      = SpeedScaleNode.Update cfg B context n :=
  rfl

/-- Without rounding the runs of the two embeddings are the same. -/
theorem SpeedScaleNode.UpdateAllFloat_unrounded (cfg : BuildConfig) (B : ChildBehaviour)
    (n : SpeedScaleNode) (frames : List GraphContext) :
    SpeedScaleNode.UpdateAllFloat FloatArithmetic.unrounded cfg B n frames
      = SpeedScaleNode.UpdateAll cfg B n frames := by
  induction frames generalizing n with
  | nil => rfl
  | cons c rest ih =>
    show SpeedScaleNode.UpdateAllFloat FloatArithmetic.unrounded cfg B
      (SpeedScaleNode.UpdateFloat FloatArithmetic.unrounded cfg B c n).node rest = _
    rw [SpeedScaleNode.UpdateFloat_unrounded, ih]
    rfl

/-- C12: blend-in is monotone. A `SpeedScaleNode` with a positive blend-in time and a scale
value node that gives the same target `s` every frame is updated along a sequence of frames;
for any two consecutive updates `c₁`, `c₂` of the sequence whose delta times are not negative,
the blend weight does not decrease across either of them, and, the child being valid before
each of the two, the effective scale of the second is no farther from `s` than that of the
first. -/
theorem C12_blend_in_is_monotone (cfg : BuildConfig) (B : ChildBehaviour) (n₀ : SpeedScaleNode)
    (scaleValueNode : FloatValueNode) (s : ℚ) (before : List GraphContext)
    (c₁ c₂ : GraphContext)
    (hb : 0 < n₀.m_blendInTime)
    (hvalue : n₀.m_pScaleValueNode = some scaleValueNode)
    (hfixed : ∀ context, scaleValueNode context = s)
    (hdt₁ : 0 ≤ c₁.m_deltaTime) (hdt₂ : 0 ≤ c₂.m_deltaTime) :
    (SpeedScaleNode.UpdateAll cfg B n₀ before).m_blendWeight
      ≤ (SpeedScaleNode.UpdateAll cfg B n₀ (before ++ [c₁])).m_blendWeight ∧
    (SpeedScaleNode.UpdateAll cfg B n₀ (before ++ [c₁])).m_blendWeight
      ≤ (SpeedScaleNode.UpdateAll cfg B n₀ (before ++ [c₁] ++ [c₂])).m_blendWeight ∧
    ((SpeedScaleNode.UpdateAll cfg B n₀ before).m_pChildNode.IsValid = true →
     (SpeedScaleNode.UpdateAll cfg B n₀ (before ++ [c₁])).m_pChildNode.IsValid = true →
      |(blendIn n₀.m_blendInTime (SpeedScaleNode.UpdateAll cfg B n₀ (before ++ [c₁])).m_blendWeight
          c₂.m_deltaTime (scaleValueNode c₂)).scale - s|
        ≤ |(blendIn n₀.m_blendInTime (SpeedScaleNode.UpdateAll cfg B n₀ before).m_blendWeight
          c₁.m_deltaTime (scaleValueNode c₁)).scale - s|) := by
  -- a single update does not lower the weight
  have step : ∀ (m : SpeedScaleNode) (c : GraphContext), m.m_blendInTime = n₀.m_blendInTime →
      0 ≤ c.m_deltaTime →
      m.m_blendWeight ≤ (SpeedScaleNode.Update cfg B c m).node.m_blendWeight := by
    intro m c hm hc
    rcases SpeedScaleNode.Update_weight_cases cfg B c m with h | ⟨t, h⟩
    · rw [h]
    · rw [h]
      exact blendIn_weight_mono _ _ _ _ (by rw [hm]; exact hb) hc
  have hset := SpeedScaleNode.UpdateAll_settings cfg B n₀ before
  have hset₁ := SpeedScaleNode.UpdateAll_settings cfg B n₀ (before ++ [c₁])
  have happ₁ : SpeedScaleNode.UpdateAll cfg B n₀ (before ++ [c₁])
      = (SpeedScaleNode.Update cfg B c₁ (SpeedScaleNode.UpdateAll cfg B n₀ before)).node := by
    rw [SpeedScaleNode.UpdateAll_append]; rfl
  have happ₂ : SpeedScaleNode.UpdateAll cfg B n₀ (before ++ [c₁] ++ [c₂])
      = (SpeedScaleNode.Update cfg B c₂
          (SpeedScaleNode.UpdateAll cfg B n₀ (before ++ [c₁]))).node := by
    rw [SpeedScaleNode.UpdateAll_append]; rfl
  refine ⟨?_, ?_, ?_⟩
  · rw [happ₁]
    exact step _ c₁ hset.1 hdt₁
  · rw [happ₂]
    exact step _ c₂ hset₁.1 hdt₂
  · intro hchild₁ _
    have hw₁ := SpeedScaleNode.Update_weight cfg B c₁ (SpeedScaleNode.UpdateAll cfg B n₀ before)
      scaleValueNode hchild₁ (by rw [hset.2]; exact hvalue)
    rw [← happ₁, hset.1, hfixed c₁] at hw₁
    rw [hfixed c₁, hfixed c₂, blendIn_scale_distance _ _ _ _ hb,
      blendIn_scale_distance _ _ _ _ hb, ← hw₁]
    have hmono := blendIn_weight_mono n₀.m_blendInTime
      (SpeedScaleNode.UpdateAll cfg B n₀ (before ++ [c₁])).m_blendWeight c₂.m_deltaTime
      s hb hdt₂
    have hmin : min (SpeedScaleNode.UpdateAll cfg B n₀ (before ++ [c₁])).m_blendWeight 1
        ≤ min (blendIn n₀.m_blendInTime
          (SpeedScaleNode.UpdateAll cfg B n₀ (before ++ [c₁])).m_blendWeight c₂.m_deltaTime
          s).m_blendWeight 1 :=
      min_le_min hmono (le_refl 1)
    have habs : (0 : ℚ) ≤ |1 - s| := abs_nonneg _
    nlinarith

/-- C12 on a blend-in of one second towards the scale 2, at frames of a third of a second: the
weight after the first update is at most the weight after the second. -/
theorem C12_witness :
    (SpeedScaleNode.UpdateAll exampleConfig exampleBehaviour (exampleSpeedScaleNode 1 0 2)
      ([] ++ [exampleFrame (1 / 3)])).m_blendWeight
    ≤ (SpeedScaleNode.UpdateAll exampleConfig exampleBehaviour (exampleSpeedScaleNode 1 0 2)
      ([] ++ [exampleFrame (1 / 3)] ++ [exampleFrame (1 / 3)])).m_blendWeight :=
  (C12_blend_in_is_monotone exampleConfig exampleBehaviour (exampleSpeedScaleNode 1 0 2)
    (fun _ => 2) 2 [] (exampleFrame (1 / 3)) (exampleFrame (1 / 3))
    (by norm_num [exampleSpeedScaleNode]) rfl (fun _ => rfl)
    (by norm_num [exampleFrame]) (by norm_num [exampleFrame])).2.1

/-- C13: after the unsynchronized and after the synchronized update of a valid
`VelocityBasedSpeedScaleNode`, the node's previous and current time are those of the child as
the child's update left it; the child the node holds afterwards is the one the child's update
returned (for the adjusted context, respectively for the caller's context and range). -/
theorem C13_velocity_node_mirrors_child_times (cfg : BuildConfig) (B : ChildBehaviour)
    (context : GraphContext) (updateRange : SyncTrackTimeRange)
    (v : VelocityBasedSpeedScaleNode) (hvalid : v.IsValid = true) :
    ((VelocityBasedSpeedScaleNode.Update cfg B context v).node.m_pChildNode
        = (B.Update (VelocityBasedSpeedScaleNode.adjustDeltaTime cfg context v).1
            v.m_pChildNode).child ∧
      (VelocityBasedSpeedScaleNode.Update cfg B context v).node.m_previousTime
        = (VelocityBasedSpeedScaleNode.Update cfg B context v).node.m_pChildNode.GetPreviousTime ∧
      (VelocityBasedSpeedScaleNode.Update cfg B context v).node.m_currentTime
        = (VelocityBasedSpeedScaleNode.Update cfg B context v).node.m_pChildNode.GetCurrentTime) ∧
    ((VelocityBasedSpeedScaleNode.UpdateSync cfg B context updateRange v).node.m_pChildNode
        = (B.UpdateSync context updateRange v.m_pChildNode).child ∧
      (VelocityBasedSpeedScaleNode.UpdateSync cfg B context updateRange v).node.m_previousTime
        = (VelocityBasedSpeedScaleNode.UpdateSync cfg B context updateRange
            v).node.m_pChildNode.GetPreviousTime ∧
      (VelocityBasedSpeedScaleNode.UpdateSync cfg B context updateRange v).node.m_currentTime
        = (VelocityBasedSpeedScaleNode.UpdateSync cfg B context updateRange
            v).node.m_pChildNode.GetCurrentTime) := by
  have hset := VelocityBasedSpeedScaleNode.velocity_adjustDeltaTime_settings cfg context v
  have hvalid₁ : VelocityBasedSpeedScaleNode.IsValid
      (VelocityBasedSpeedScaleNode.adjustDeltaTime cfg context v).2.1 = true := by
    unfold VelocityBasedSpeedScaleNode.IsValid
    rw [hset.2.1]
    exact hvalid
  constructor
  · simp only [VelocityBasedSpeedScaleNode.Update, VelocityBasedSpeedScaleNode.forwardChild,
      hvalid₁, if_true, hset.2.1]
    refine ⟨?_, ?_, ?_⟩ <;> trivial
  · simp only [VelocityBasedSpeedScaleNode.UpdateSync, hvalid, if_true]
    refine ⟨?_, ?_, ?_⟩ <;> trivial

/-- C13 on the example node over a valid clip: after a synchronized update over the example
range the node's current time is the child's. -/
theorem C13_witness :
    (VelocityBasedSpeedScaleNode.UpdateSync exampleConfig exampleBehaviour (exampleFrame (1 / 60))
      exampleRange (exampleVelocityNode 0 1 2 3)).node.m_currentTime
    = (VelocityBasedSpeedScaleNode.UpdateSync exampleConfig exampleBehaviour
        (exampleFrame (1 / 60)) exampleRange
        (exampleVelocityNode 0 1 2 3)).node.m_pChildNode.GetCurrentTime :=
  (C13_velocity_node_mirrors_child_times exampleConfig exampleBehaviour (exampleFrame (1 / 60))
    exampleRange (exampleVelocityNode 0 1 2 3) rfl).2.2.2

/-- C14: when a `VelocityBasedSpeedScaleNode` is not valid, its unsynchronized and its
synchronized update both return a result whose sampled event range starts and ends at the
number of events in the context's sampled event buffer, and neither enters an update of the
child, which is left as it was. -/
theorem C14_invalid_velocity_node_returns_empty_range (cfg : BuildConfig) (B : ChildBehaviour)
    (context : GraphContext) (updateRange : SyncTrackTimeRange)
    (v : VelocityBasedSpeedScaleNode) (hinvalid : v.IsValid = false) :
    ((VelocityBasedSpeedScaleNode.Update cfg B context v).result.m_sampledEventRange.m_startIdx
        = (context.m_sampledEventsBuffer.length : Int) ∧
      (VelocityBasedSpeedScaleNode.Update cfg B context v).result.m_sampledEventRange.m_endIdx
        = (context.m_sampledEventsBuffer.length : Int) ∧
      childDeltaTimes (VelocityBasedSpeedScaleNode.Update cfg B context v).trace = [] ∧
      childSyncUpdates (VelocityBasedSpeedScaleNode.Update cfg B context v).trace = [] ∧
      (VelocityBasedSpeedScaleNode.Update cfg B context v).node.m_pChildNode = v.m_pChildNode) ∧
    ((VelocityBasedSpeedScaleNode.UpdateSync cfg B context updateRange
          v).result.m_sampledEventRange.m_startIdx
        = (context.m_sampledEventsBuffer.length : Int) ∧
      (VelocityBasedSpeedScaleNode.UpdateSync cfg B context updateRange
          v).result.m_sampledEventRange.m_endIdx
        = (context.m_sampledEventsBuffer.length : Int) ∧
      childDeltaTimes (VelocityBasedSpeedScaleNode.UpdateSync cfg B context updateRange v).trace
        = [] ∧
      childSyncUpdates (VelocityBasedSpeedScaleNode.UpdateSync cfg B context updateRange v).trace
        = [] ∧
      (VelocityBasedSpeedScaleNode.UpdateSync cfg B context updateRange v).node.m_pChildNode
        = v.m_pChildNode) := by
  have hchild : v.m_pChildNode.IsValid = false := hinvalid
  have hadj : VelocityBasedSpeedScaleNode.adjustDeltaTime cfg context v = (context, v, []) := by
    unfold VelocityBasedSpeedScaleNode.adjustDeltaTime
    simp [hchild]
  constructor
  · simp only [VelocityBasedSpeedScaleNode.Update, VelocityBasedSpeedScaleNode.forwardChild,
      hadj, hinvalid]
    simp [SampledEventRange.at, GraphContext.GetNumSampledEvents, childDeltaTimes,
      childSyncUpdates]
  · simp only [VelocityBasedSpeedScaleNode.UpdateSync, hinvalid]
    cases cfg.EE_DEVELOPMENT_TOOLS <;>
      simp [SampledEventRange.at, GraphContext.GetNumSampledEvents, childDeltaTimes,
        childSyncUpdates]

/-- C14 on the example node whose child is not valid, with two events in the buffer: the range
of the unsynchronized update starts at 2. -/
theorem C14_witness :
    (VelocityBasedSpeedScaleNode.Update exampleConfig exampleBehaviour
      { m_deltaTime := 1 / 60, m_sampledEventsBuffer := [4, 5], valid := true }
      exampleInvalidVelocityNode).result.m_sampledEventRange.m_startIdx = 2 :=
  (C14_invalid_velocity_node_returns_empty_range exampleConfig exampleBehaviour
    { m_deltaTime := 1 / 60, m_sampledEventsBuffer := [4, 5], valid := true } exampleRange
    exampleInvalidVelocityNode rfl).1.1

/-- C15 as stated fails: the synchronized update of a `VelocityBasedSpeedScaleNode` whose child
is not valid does not enter the child's synchronized update, and what it returns (task index
-1) is not the result that update would have returned (task index 8). -/
theorem C15_counterexample :
    exampleInvalidVelocityNode.IsValid = false ∧
    childSyncUpdates (VelocityBasedSpeedScaleNode.UpdateSync exampleConfig exampleBehaviour
      (exampleFrame (1 / 60)) exampleRange exampleInvalidVelocityNode).trace = [] ∧
    (VelocityBasedSpeedScaleNode.UpdateSync exampleConfig exampleBehaviour
      (exampleFrame (1 / 60)) exampleRange exampleInvalidVelocityNode).result.m_taskIdx = -1 ∧
    (exampleBehaviour.UpdateSync (exampleFrame (1 / 60)) exampleRange
      exampleInvalidVelocityNode.m_pChildNode).result.m_taskIdx = 8 ∧
    (VelocityBasedSpeedScaleNode.UpdateSync exampleConfig exampleBehaviour
      (exampleFrame (1 / 60)) exampleRange exampleInvalidVelocityNode).result
      ≠ (exampleBehaviour.UpdateSync (exampleFrame (1 / 60)) exampleRange
          exampleInvalidVelocityNode.m_pChildNode).result := by
  have h := (VelocityBasedSpeedScaleNode.UpdateSync_invalid exampleConfig exampleBehaviour
    (exampleFrame (1 / 60)) exampleRange exampleInvalidVelocityNode rfl)
  refine ⟨rfl, h.1, h.2, rfl, ?_⟩
  intro heq
  have h2 := congrArg GraphPoseNodeResult.m_taskIdx heq
  rw [h.2] at h2
  exact absurd h2 (by decide)

/-- C15, amended: the synchronized update of a `SpeedScaleNode`, and that of a
`VelocityBasedSpeedScaleNode` that is valid, delegate without re-timing: the child's
synchronized update is entered exactly once, with the caller's update range and the context as
the caller passed it (its delta time included), the blend weight is left as it was, the child's
result is returned as it is, and the context is left as the child left it. -/
theorem C15_synchronized_update_delegates (cfg : BuildConfig) (B : ChildBehaviour)
    (context : GraphContext) (updateRange : SyncTrackTimeRange) (n : SpeedScaleNode)
    (v : VelocityBasedSpeedScaleNode) (hvalid : v.IsValid = true) :
    (childSyncUpdates (SpeedScaleNode.UpdateSync cfg B context updateRange n).trace
        = [(context.m_deltaTime, updateRange)] ∧
      (SpeedScaleNode.UpdateSync cfg B context updateRange n).result
        = (B.UpdateSync context updateRange n.m_pChildNode).result ∧
      (SpeedScaleNode.UpdateSync cfg B context updateRange n).context
        = (B.UpdateSync context updateRange n.m_pChildNode).context ∧
      (SpeedScaleNode.UpdateSync cfg B context updateRange n).node.m_blendWeight
        = n.m_blendWeight) ∧
    (childSyncUpdates (VelocityBasedSpeedScaleNode.UpdateSync cfg B context updateRange v).trace
        = [(context.m_deltaTime, updateRange)] ∧
      (VelocityBasedSpeedScaleNode.UpdateSync cfg B context updateRange v).result
        = (B.UpdateSync context updateRange v.m_pChildNode).result ∧
      (VelocityBasedSpeedScaleNode.UpdateSync cfg B context updateRange v).context
        = (B.UpdateSync context updateRange v.m_pChildNode).context ∧
      (VelocityBasedSpeedScaleNode.UpdateSync cfg B context updateRange v).node.m_blendWeight
        = v.m_blendWeight) := by
  constructor
  · simp only [SpeedScaleNode.UpdateSync, PassthroughNode.UpdateSync]
    cases cfg.EE_DEVELOPMENT_TOOLS <;> simp [childSyncUpdates]
  · simp only [VelocityBasedSpeedScaleNode.UpdateSync, hvalid, if_true]
    cases cfg.EE_DEVELOPMENT_TOOLS <;> simp [childSyncUpdates]

/-- C15 amended, on the example nodes: the synchronized update of the speed-scale node enters
the child's synchronized update once, with the frame's delta time and the example range. -/
theorem C15_witness :
    childSyncUpdates (SpeedScaleNode.UpdateSync exampleConfig exampleBehaviour
      (exampleFrame (1 / 60)) exampleRange (exampleSpeedScaleNode 1 (1 / 2) 2)).trace
      = [((exampleFrame (1 / 60)).m_deltaTime, exampleRange)] :=
  (C15_synchronized_update_delegates exampleConfig exampleBehaviour (exampleFrame (1 / 60))
    exampleRange (exampleSpeedScaleNode 1 (1 / 2) 2) (exampleVelocityNode 0 1 2 3) rfl).1.1

/-- C16: state snapshot and restore of both speed-scale nodes. Recording a node appends what the
pose node base class records, followed by exactly one more value, the blend weight. Restoring
that recording, read from where it was written, into a node `x` of the same settings, child
and value node reads the base class's values and then the blend weight, consumes the recording
to its end, and leaves `x` with the recorded blend weight; on any sequence of frames the
restored node then gives back the same results, contexts and operations, update by update, as
the recorded one. -/
theorem C16_record_restore_round_trip (cfg : BuildConfig) (B : ChildBehaviour)
    (P : PoseNodeStateProtocol) (recorder : GraphStateRecorder) (frames : List GraphContext)
    (n x : SpeedScaleNode) (v y : VelocityBasedSpeedScaleNode)
    (hnb : x.m_blendInTime = n.m_blendInTime) (hnc : x.m_pChildNode = n.m_pChildNode)
    (hnv : x.m_pScaleValueNode = n.m_pScaleValueNode)
    (hvb : y.m_blendInTime = v.m_blendInTime) (hvc : y.m_pChildNode = v.m_pChildNode)
    (hvv : y.m_pDesiredVelocityValueNode = v.m_pDesiredVelocityValueNode) :
    (SpeedScaleNode.RecordGraphState P n recorder
        = recorder ++ List.ofFn (P.Record n.poseNodeMembers) ++ [n.m_blendWeight] ∧
      (SpeedScaleNode.RestoreGraphState P
        { m_values := SpeedScaleNode.RecordGraphState P n recorder
          m_readIdx := recorder.length } x).2.m_blendWeight = n.m_blendWeight ∧
      (SpeedScaleNode.RestoreGraphState P
        { m_values := SpeedScaleNode.RecordGraphState P n recorder
          m_readIdx := recorder.length } x).1.m_readIdx
        = (SpeedScaleNode.RecordGraphState P n recorder).length ∧
      SpeedScaleNode.UpdateOutputs cfg B (SpeedScaleNode.RestoreGraphState P
        { m_values := SpeedScaleNode.RecordGraphState P n recorder
          m_readIdx := recorder.length } x).2 frames
        = SpeedScaleNode.UpdateOutputs cfg B n frames) ∧
    (VelocityBasedSpeedScaleNode.RecordGraphState P v recorder
        = recorder ++ List.ofFn (P.Record v.poseNodeMembers) ++ [v.m_blendWeight] ∧
      (VelocityBasedSpeedScaleNode.RestoreGraphState P
        { m_values := VelocityBasedSpeedScaleNode.RecordGraphState P v recorder
          m_readIdx := recorder.length } y).2.m_blendWeight = v.m_blendWeight ∧
      (VelocityBasedSpeedScaleNode.RestoreGraphState P
        { m_values := VelocityBasedSpeedScaleNode.RecordGraphState P v recorder
          m_readIdx := recorder.length } y).1.m_readIdx
        = (VelocityBasedSpeedScaleNode.RecordGraphState P v recorder).length ∧
      VelocityBasedSpeedScaleNode.UpdateOutputs cfg B (VelocityBasedSpeedScaleNode.RestoreGraphState
        P { m_values := VelocityBasedSpeedScaleNode.RecordGraphState P v recorder
            m_readIdx := recorder.length } y).2 frames
        = VelocityBasedSpeedScaleNode.UpdateOutputs cfg B v frames) := by
  have hn : (SpeedScaleNode.RestoreGraphState P
      { m_values := SpeedScaleNode.RecordGraphState P n recorder
        m_readIdx := recorder.length } x).2.m_blendWeight = n.m_blendWeight :=
    GraphStateRecording.read_after_base recorder P.width (P.Record n.poseNodeMembers)
      n.m_blendWeight
  have hv : (VelocityBasedSpeedScaleNode.RestoreGraphState P
      { m_values := VelocityBasedSpeedScaleNode.RecordGraphState P v recorder
        m_readIdx := recorder.length } y).2.m_blendWeight = v.m_blendWeight :=
    GraphStateRecording.read_after_base recorder P.width (P.Record v.poseNodeMembers)
      v.m_blendWeight
  refine ⟨⟨rfl, hn, ?_, ?_⟩, ⟨rfl, hv, ?_, ?_⟩⟩
  · simp [SpeedScaleNode.RestoreGraphState, SpeedScaleNode.RecordGraphState,
      PoseNode.RestoreGraphState, PoseNode.RecordGraphState, GraphStateRecording.read,
      GraphStateRecorder.write]
    omega
  · exact SpeedScaleNode.UpdateOutputs_agree cfg B frames n _ hnb hnc hnv hn
  · simp [VelocityBasedSpeedScaleNode.RestoreGraphState,
      VelocityBasedSpeedScaleNode.RecordGraphState, PoseNode.RestoreGraphState,
      PoseNode.RecordGraphState, GraphStateRecording.read, GraphStateRecorder.write]
    omega
  · exact VelocityBasedSpeedScaleNode.velocity_UpdateOutputs_agree cfg B frames v _ hvb hvc hvv hv

/-- C16 on the example nodes: a blend weight of 1/3 recorded after one earlier value, with a
base class that records three values, is the blend weight of the node restored from it. -/
theorem C16_witness :
    (SpeedScaleNode.RestoreGraphState exampleProtocol
      { m_values := SpeedScaleNode.RecordGraphState exampleProtocol
          (exampleSpeedScaleNode 1 (1 / 3) 2) [9]
        m_readIdx := ([9] : GraphStateRecorder).length }
      (exampleSpeedScaleNode 1 0 2)).2.m_blendWeight
    = (exampleSpeedScaleNode 1 (1 / 3) 2).m_blendWeight :=
  (C16_record_restore_round_trip exampleConfig exampleBehaviour exampleProtocol [9] []
    (exampleSpeedScaleNode 1 (1 / 3) 2) (exampleSpeedScaleNode 1 0 2)
    (exampleVelocityNode 1 (1 / 3) 1 3) (exampleVelocityNode 1 0 1 3)
    rfl rfl rfl rfl rfl rfl).1.2.1

/-- C24: after the unsynchronized update of a valid `VelocityBasedSpeedScaleNode` the node's
duration is the duration of the child as the child's update left it, for every multiplier: the
quotient of the child's duration by the multiplier (after blend-in), which the node holds when
the child's update is entered if the desired-velocity node is present, is overwritten. -/
theorem C24_velocity_node_reports_child_duration (cfg : BuildConfig) (B : ChildBehaviour)
    (context : GraphContext) (v : VelocityBasedSpeedScaleNode) (hvalid : v.IsValid = true) :
    (VelocityBasedSpeedScaleNode.Update cfg B context v).node.m_pChildNode
      = (B.Update (VelocityBasedSpeedScaleNode.adjustDeltaTime cfg context v).1
          v.m_pChildNode).child ∧
    (VelocityBasedSpeedScaleNode.Update cfg B context v).node.m_duration
      = (VelocityBasedSpeedScaleNode.Update cfg B context v).node.m_pChildNode.GetDuration ∧
    (∀ valueNode, v.m_pDesiredVelocityValueNode = some valueNode →
      (VelocityBasedSpeedScaleNode.adjustDeltaTime cfg context v).2.1.m_duration
        = v.m_pChildNode.GetDuration /
          (blendIn v.m_blendInTime v.m_blendWeight context.m_deltaTime
            (VelocityBasedSpeedScaleNode.speedMultiplier cfg context v.m_pChildNode
              valueNode).1).scale) := by
  have hset := VelocityBasedSpeedScaleNode.velocity_adjustDeltaTime_settings cfg context v
  have hvalid₁ : VelocityBasedSpeedScaleNode.IsValid
      (VelocityBasedSpeedScaleNode.adjustDeltaTime cfg context v).2.1 = true := by
    unfold VelocityBasedSpeedScaleNode.IsValid
    rw [hset.2.1]
    exact hvalid
  refine ⟨?_, ?_, ?_⟩
  · simp only [VelocityBasedSpeedScaleNode.Update, VelocityBasedSpeedScaleNode.forwardChild,
      hvalid₁, if_true, hset.2.1]
  · simp only [VelocityBasedSpeedScaleNode.Update, VelocityBasedSpeedScaleNode.forwardChild,
      hvalid₁, if_true]
  · intro valueNode hvalue
    rw [VelocityBasedSpeedScaleNode.adjustDeltaTime_eq cfg context v valueNode hvalid hvalue]

/-- C24 on the example node at desired velocity 3 over a clip of two seconds and average
velocity 2 (multiplier 3/2): after the update the node's duration is the child's, 2, and not
2 / (3/2). -/
theorem C24_witness :
    (VelocityBasedSpeedScaleNode.Update exampleConfig exampleBehaviour (exampleFrame (1 / 60))
      (exampleVelocityNode 0 1 2 3)).node.m_duration = 2 ∧
    (VelocityBasedSpeedScaleNode.Update exampleConfig exampleBehaviour (exampleFrame (1 / 60))
      (exampleVelocityNode 0 1 2 3)).node.m_duration ≠ 2 / (3 / 2) := by
  have h := (C24_velocity_node_reports_child_duration exampleConfig exampleBehaviour
    (exampleFrame (1 / 60)) (exampleVelocityNode 0 1 2 3) rfl)
  have h2 : (VelocityBasedSpeedScaleNode.Update exampleConfig exampleBehaviour
      (exampleFrame (1 / 60)) (exampleVelocityNode 0 1 2 3)).node.m_duration = 2 := by
    rw [h.2.1, h.1]
    simp [exampleBehaviour, exampleVelocityNode, exampleClip, PoseNode.GetDuration]
  refine ⟨h2, ?_⟩
  rw [h2]
  norm_num

end GraphNodes

/-! ## Compilation of the ragdoll nodes: theorems -/

/-! ### Helper lemmas -/

theorem modifyAt_length {α : Type} (f : α → α) (p : Nat) (xs : List α) :
    (modifyAt f p xs).length = xs.length := by
  induction xs generalizing p with
  | nil => cases p <;> rfl
  | cons x xs ih =>
    cases p with
    | zero => rfl
    | succ n => simp [modifyAt, ih]

theorem modifyAt_take {α : Type} (f : α → α) (p n : Nat) (xs : List α) (h : n ≤ p) :
    (modifyAt f p xs).take n = xs.take n := by
  induction xs generalizing p n with
  | nil => cases p <;> rfl
  | cons x xs ih =>
    cases p with
    | zero =>
      have hn : n = 0 := Nat.le_zero.mp h
      subst hn
      rfl
    | succ q =>
      cases n with
      | zero => rfl
      | succ m => simp [modifyAt, ih q m (Nat.le_of_succ_le_succ h)]

theorem modifyAt_getD {α : Type} (f : α → α) (p : Nat) (xs : List α) (d : α)
    (h : p < xs.length) : (modifyAt f p xs).getD p d = f (xs.getD p d) := by
  induction xs generalizing p with
  | nil => exact absurd h (by simp)
  | cons x xs ih =>
    cases p with
    | zero => rfl
    | succ q =>
      have hq : q < xs.length := by simpa using h
      simpa [modifyAt] using ih q hq

theorem InvalidIndex_ne_slot (p : Nat) : (p : Int) ≠ InvalidIndex := by
  unfold InvalidIndex
  omega

theorem GraphCompilationContext.Holds.child {before : List NodeDefinition} {p : Nat}
    {context : GraphCompilationContext} (h : context.Holds before p) (child : FlowToolsNode) :
    (child.Compile context).2.Holds before p := by
  have hkeep := child.keepsDefinitions context
  have hlen : context.m_nodeDefinitions.length
      ≤ (child.Compile context).2.m_nodeDefinitions.length := by
    have := congrArg List.length hkeep
    simp at this
    omega
  refine ⟨h.le, lt_of_lt_of_le h.lt hlen, ?_, ?_⟩
  · have h1 : before.length ≤ context.m_nodeDefinitions.length :=
      le_trans h.le (le_of_lt h.lt)
    calc (child.Compile context).2.m_nodeDefinitions.take before.length
        = ((child.Compile context).2.m_nodeDefinitions.take
            context.m_nodeDefinitions.length).take before.length := by
          rw [List.take_take, min_eq_left h1]
      _ = before := by rw [hkeep, h.frame]
  · have hidx := h.idx
    unfold GraphCompilationContext.nodeIdxAt at hidx ⊢
    rw [List.getD_eq_getElem?_getD] at hidx ⊢
    have : (child.Compile context).2.m_nodeDefinitions[p]? = context.m_nodeDefinitions[p]? := by
      have h2 : ((child.Compile context).2.m_nodeDefinitions.take
          context.m_nodeDefinitions.length)[p]?
          = (child.Compile context).2.m_nodeDefinitions[p]? :=
        List.getElem?_take_of_lt h.lt
      rw [hkeep] at h2
      exact h2.symm
    rw [this]
    exact hidx

theorem GraphCompilationContext.Holds.LogError {before : List NodeDefinition} {p : Nat}
    {context : GraphCompilationContext} (h : context.Holds before p) (nodeID : Nat)
    (error : CompileError) : (context.LogError nodeID error).Holds before p :=
  ⟨h.le, h.lt, h.frame, h.idx⟩

theorem GraphCompilationContext.RegisterResource_definitions (context : GraphCompilationContext)
    (resourceID : Nat) :
    (context.RegisterResource resourceID).2.m_nodeDefinitions = context.m_nodeDefinitions := by
  unfold GraphCompilationContext.RegisterResource
  split <;> rfl

theorem GraphCompilationContext.Holds.RegisterResource {before : List NodeDefinition} {p : Nat}
    {context : GraphCompilationContext} (h : context.Holds before p) (resourceID : Nat) :
    (context.RegisterResource resourceID).2.Holds before p := by
  have hd := context.RegisterResource_definitions resourceID
  refine ⟨h.le, by rw [hd]; exact h.lt, by rw [hd]; exact h.frame, ?_⟩
  have hidx := h.idx
  unfold GraphCompilationContext.nodeIdxAt at hidx ⊢
  rw [hd]
  exact hidx

/-- A write through `pDefinition` by a function on entries that keeps `m_nodeIdx`. -/
theorem GraphCompilationContext.Holds.write {before : List NodeDefinition} {p : Nat}
    {context : GraphCompilationContext} (h : context.Holds before p)
    (g : NodeDefinition → NodeDefinition) (hg : ∀ entry, (g entry).m_nodeIdx = entry.m_nodeIdx) :
    GraphCompilationContext.Holds before p
      { context with m_nodeDefinitions := modifyAt g p context.m_nodeDefinitions } := by
  refine ⟨h.le, ?_, ?_, ?_⟩
  · show p < (modifyAt g p context.m_nodeDefinitions).length
    rw [modifyAt_length]
    exact h.lt
  · show (modifyAt g p context.m_nodeDefinitions).take before.length = before
    rw [modifyAt_take _ _ _ _ h.le]
    exact h.frame
  · have hidx := h.idx
    unfold GraphCompilationContext.nodeIdxAt at hidx ⊢
    show ((modifyAt g p context.m_nodeDefinitions).getD p _).m_nodeIdx = _
    rw [modifyAt_getD _ _ _ _ h.lt, hg]
    exact hidx

theorem GraphCompilationContext.Holds.writePowered {before : List NodeDefinition} {p : Nat}
    {context : GraphCompilationContext} (h : context.Holds before p)
    (f : PoweredRagdollNode.Definition → PoweredRagdollNode.Definition)
    (hf : ∀ definition, (f definition).m_nodeIdx = definition.m_nodeIdx) :
    (context.writePowered p f).Holds before p := by
  unfold GraphCompilationContext.writePowered
  apply h.write
  intro entry
  cases entry with
  | poweredRagdoll definition => exact hf definition
  | simulatedRagdoll definition => rfl
  | other m_nodeIdx => rfl

theorem GraphCompilationContext.Holds.writeSimulated {before : List NodeDefinition} {p : Nat}
    {context : GraphCompilationContext} (h : context.Holds before p)
    (f : SimulatedRagdollNode.Definition → SimulatedRagdollNode.Definition)
    (hf : ∀ definition, (f definition).m_nodeIdx = definition.m_nodeIdx) :
    (context.writeSimulated p f).Holds before p := by
  unfold GraphCompilationContext.writeSimulated
  apply h.write
  intro entry
  cases entry with
  | poweredRagdoll definition => rfl
  | simulatedRagdoll definition => exact hf definition
  | other m_nodeIdx => rfl

/-- After `GetDefinition` has created the node's definition, the compilation is in progress
for the slot it handed back. -/
theorem GraphCompilationContext.GetDefinition_need (context : GraphCompilationContext)
    (nodeID : Nat) (create : Int → NodeDefinition)
    (hcreate : ∀ m_nodeIdx, (create m_nodeIdx).m_nodeIdx = m_nodeIdx)
    (hneed : (context.GetDefinition nodeID create).state = NodeCompilationState.NeedCompilation) :
    (context.GetDefinition nodeID create).pDefinition = context.m_nodeDefinitions.length ∧
    (context.GetDefinition nodeID create).context.Holds context.m_nodeDefinitions
      (context.GetDefinition nodeID create).pDefinition := by
  unfold GraphCompilationContext.GetDefinition at hneed ⊢
  cases hmap : context.m_nodeIDToIndexMap nodeID with
  | some slot =>
    rw [hmap] at hneed
    exact absurd hneed (by simp)
  | none =>
    simp only
    refine ⟨by trivial, ⟨le_refl _, by simp, by simp, ?_⟩⟩
    unfold GraphCompilationContext.nodeIdxAt
    simp [List.getD_eq_getElem?_getD, hcreate]

/-- When the node has a definition already, `GetDefinition` leaves the context as it is. -/
theorem GraphCompilationContext.GetDefinition_compiled (context : GraphCompilationContext)
    (nodeID : Nat) (create : Int → NodeDefinition)
    (hstate : (context.GetDefinition nodeID create).state ≠ NodeCompilationState.NeedCompilation) :
    (context.GetDefinition nodeID create).context = context := by
  unfold GraphCompilationContext.GetDefinition at hstate ⊢
  cases hmap : context.m_nodeIDToIndexMap nodeID with
  | some slot => rfl
  | none =>
    rw [hmap] at hstate
    exact absurd rfl hstate

theorem CompileOutcome.Sound.after_write {before : List NodeDefinition} {outcome : CompileOutcome}
    (h : outcome.Sound before) (pinIdx : Nat) (field : ReferenceField) (compiledNodeIdx : Int)
    (hvalid : compiledNodeIdx ≠ InvalidIndex) :
    (outcome.after [CompileOp.compileInput pinIdx compiledNodeIdx,
      CompileOp.writeReference field compiledNodeIdx]).Sound before := by
  refine ⟨h.frame, ?_, ?_⟩
  · intro f i hmem
    simp only [CompileOutcome.after, List.cons_append, List.nil_append, List.mem_cons] at hmem
    rcases hmem with hmem | hmem | hmem
    · exact absurd hmem (by simp)
    · simp only [CompileOp.writeReference.injEq] at hmem
      rw [hmem.2]
      exact hvalid
    · exact h.validReferences f i hmem
  · intro hres
    have hf := h.failed hres
    simp only [CompileOutcome.after, List.cons_append, List.nil_append, List.mem_cons,
      registeredResources]
    refine ⟨?_, hf.2⟩
    rintro (hmem | hmem | hmem)
    · exact absurd hmem (by simp)
    · exact absurd hmem (by simp)
    · exact hf.1 hmem

theorem PoweredRagdollToolsNode.Staged.after_input {node : PoweredRagdollToolsNode} {p : Nat}
    {outcome : CompileOutcome} (h : node.Staged p outcome) (pinIdx : Nat)
    (field : ReferenceField) (compiledNodeIdx : Int) (hvalid : compiledNodeIdx ≠ InvalidIndex) :
    node.Staged p (outcome.after [CompileOp.compileInput pinIdx compiledNodeIdx,
      CompileOp.writeReference field compiledNodeIdx]) := by
  have htrace : compiledInputs (outcome.after [CompileOp.compileInput pinIdx compiledNodeIdx,
      CompileOp.writeReference field compiledNodeIdx]).trace
      = (pinIdx, compiledNodeIdx) :: compiledInputs outcome.trace := rfl
  refine ⟨?_, ?_, ?_⟩
  · intro pin hmem
    rw [htrace] at hmem ⊢
    rcases List.mem_cons.mp hmem with heq | hmem
    · have := (Prod.mk.injEq _ _ _ _ ▸ heq : pin = pinIdx ∧ InvalidIndex = compiledNodeIdx)
      exact absurd this.2.symm hvalid
    · obtain ⟨hres, earlier, hearlier⟩ := h.failFast pin hmem
      exact ⟨hres, (pinIdx, compiledNodeIdx) :: earlier, by rw [hearlier]; rfl⟩
  · intro hall
    rw [htrace] at hall
    exact h.succeeded (fun x hx => hall x (List.mem_cons_of_mem _ hx))
  · exact h.idx

/-- The outcome of an input whose compilation failed, with or without an error logged. -/
theorem PoweredRagdollToolsNode.Staged.failedInput (node : PoweredRagdollToolsNode) (p : Nat)
    (context : GraphCompilationContext) (pinIdx : Nat) (rest : List CompileOp)
    (hrest : compiledInputs rest = []) (hidx : context.nodeIdxAt p = (p : Int)) :
    node.Staged p { result := InvalidIndex, context := context,
                    trace := CompileOp.compileInput pinIdx InvalidIndex :: rest } := by
  have htrace : compiledInputs (CompileOp.compileInput pinIdx InvalidIndex :: rest)
      = [(pinIdx, InvalidIndex)] := by
    simp [compiledInputs, hrest]
  refine ⟨?_, ?_, ?_⟩
  · intro pin hmem
    simp only at hmem ⊢
    rw [htrace] at hmem ⊢
    rw [List.mem_singleton] at hmem
    exact ⟨by trivial, [], by rw [hmem]; rfl⟩
  · intro hall
    simp only at hall
    rw [htrace] at hall
    exact absurd rfl (hall (pinIdx, InvalidIndex) (List.mem_singleton.mpr rfl))
  · exact hidx

theorem PoweredRagdollToolsNode.compileSettings_ok (node : PoweredRagdollToolsNode)
    (before : List NodeDefinition) (p : Nat) (context : GraphCompilationContext)
    (h : context.Holds before p) :
    (node.compileSettings p context).Sound before ∧ node.Staged p (node.compileSettings p context) := by
  unfold PoweredRagdollToolsNode.compileSettings
  simp only
  cases hinc : node.impulseIncomplete
  · have hcond : (((node.GetConnectedInputNode 2).isSome || (node.GetConnectedInputNode 3).isSome)
        && ((node.GetConnectedInputNode 2).isNone || (node.GetConnectedInputNode 3).isNone))
        = false := hinc
    rw [hcond]
    simp only [Bool.false_eq_true, if_false]
    have hw := (h.RegisterResource (node.ragdollDefinitionResourceID context.m_variationID)).writePowered
      (fun definition =>
        { definition with
          m_dataSlotIdx := (context.RegisterResource
            (node.ragdollDefinitionResourceID context.m_variationID)).1
          m_profileID := node.m_profileID
          m_physicsBlendWeight := node.m_physicsBlendWeight
          m_isGravityEnabled := node.m_isGravityEnabled }) (fun _ => rfl)
    refine ⟨⟨hw.frame, ?_, ?_⟩, ⟨?_, ?_, hw.idx⟩⟩
    · intro f i hmem
      simp at hmem
    · intro hres
      simp only at hres
      rw [hw.idx] at hres
      exact absurd hres (InvalidIndex_ne_slot p)
    · intro pin hmem
      simp [compiledInputs] at hmem
    · intro _
      rw [hinc]
      simp only [Bool.false_eq_true, if_false]
      exact hw.idx
  · have hcond : (((node.GetConnectedInputNode 2).isSome || (node.GetConnectedInputNode 3).isSome)
        && ((node.GetConnectedInputNode 2).isNone || (node.GetConnectedInputNode 3).isNone))
        = true := hinc
    rw [hcond]
    simp only [if_true]
    refine ⟨⟨(h.LogError _ _).frame, ?_, ?_⟩, ⟨?_, ?_, (h.LogError _ _).idx⟩⟩
    · intro f i hmem
      simp at hmem
    · intro _
      simp [registeredResources]
    · intro pin hmem
      simp [compiledInputs] at hmem
    · intro _
      rw [hinc]
      simp

/-- The block the source repeats for each input pin: the connected node is compiled; when it
compiles, its index is written to a reference member and the compilation goes on; when it does
not, the compilation stops with `InvalidIndex`. -/
theorem PoweredRagdollToolsNode.stage_ok (node : PoweredRagdollToolsNode)
    (before : List NodeDefinition) (p : Nat) (context : GraphCompilationContext)
    (h : context.Holds before p) (child : FlowToolsNode) (pinIdx : Nat) (field : ReferenceField)
    (f : Int → PoweredRagdollNode.Definition → PoweredRagdollNode.Definition)
    (hf : ∀ i definition, (f i definition).m_nodeIdx = definition.m_nodeIdx)
    (next : GraphCompilationContext → CompileOutcome)
    (hnext : ∀ c, c.Holds before p → (next c).Sound before ∧ node.Staged p (next c))
    (failure : GraphCompilationContext → GraphCompilationContext)
    (hfailure : ∀ c, c.Holds before p → (failure c).Holds before p)
    (failureOps : List CompileOp)
    (hops₁ : compiledInputs failureOps = [])
    (hops₂ : registeredResources failureOps = [])
    (hops₃ : CompileOp.writeSettings ∉ failureOps)
    (hops₄ : ∀ g i, CompileOp.writeReference g i ∉ failureOps) :
    (if (child.Compile context).1 ≠ InvalidIndex then
        (next ((child.Compile context).2.writePowered p (f (child.Compile context).1))).after
          [CompileOp.compileInput pinIdx (child.Compile context).1,
           CompileOp.writeReference field (child.Compile context).1]
      else
        { result := InvalidIndex
          context := failure (child.Compile context).2
          trace := CompileOp.compileInput pinIdx (child.Compile context).1 :: failureOps
            }).Sound before ∧
    node.Staged p
      (if (child.Compile context).1 ≠ InvalidIndex then
        (next ((child.Compile context).2.writePowered p (f (child.Compile context).1))).after
          [CompileOp.compileInput pinIdx (child.Compile context).1,
           CompileOp.writeReference field (child.Compile context).1]
      else
        { result := InvalidIndex
          context := failure (child.Compile context).2
          trace := CompileOp.compileInput pinIdx (child.Compile context).1 :: failureOps }) := by
  by_cases hres : (child.Compile context).1 ≠ InvalidIndex
  · rw [if_pos hres]
    have hn := hnext _ ((h.child child).writePowered (f (child.Compile context).1) (hf _))
    exact ⟨hn.1.after_write _ _ _ hres, hn.2.after_input _ _ _ hres⟩
  · rw [if_neg hres]
    have hinv : (child.Compile context).1 = InvalidIndex := not_not.mp hres
    rw [hinv]
    refine ⟨⟨(hfailure _ (h.child child)).frame, ?_, ?_⟩,
      PoweredRagdollToolsNode.Staged.failedInput node p _ pinIdx failureOps hops₁
        (hfailure _ (h.child child)).idx⟩
    · intro g i hmem
      simp only [List.mem_cons] at hmem
      rcases hmem with hmem | hmem
      · exact absurd hmem (by simp)
      · exact absurd hmem (hops₄ g i)
    · intro _
      simp only [List.mem_cons, registeredResources]
      refine ⟨?_, hops₂⟩
      rintro (hmem | hmem)
      · exact absurd hmem (by simp)
      · exact hops₃ hmem

theorem PoweredRagdollToolsNode.compileImpulseForce_ok (node : PoweredRagdollToolsNode)
    (before : List NodeDefinition) (p : Nat) (context : GraphCompilationContext)
    (h : context.Holds before p) :
    (node.compileImpulseForce p context).Sound before ∧
      node.Staged p (node.compileImpulseForce p context) := by
  unfold PoweredRagdollToolsNode.compileImpulseForce
  cases hpin : node.GetConnectedInputNode 3 with
  | none => exact node.compileSettings_ok before p context h
  | some child =>
    exact node.stage_ok before p context h child 3 ReferenceField.m_inpulseForceVectorNodeIdx
      (fun i definition => { definition with m_inpulseForceVectorNodeIdx := i }) (fun _ _ => rfl)
      (node.compileSettings p) (fun c hc => node.compileSettings_ok before p c hc)
      (fun c => c.LogError node.nodeID CompileError.failedImpulseForceInput)
      (fun c hc => hc.LogError _ _)
      [CompileOp.logError CompileError.failedImpulseForceInput]
      rfl rfl (by simp) (by simp)

theorem PoweredRagdollToolsNode.compileImpulseOrigin_ok (node : PoweredRagdollToolsNode)
    (before : List NodeDefinition) (p : Nat) (context : GraphCompilationContext)
    (h : context.Holds before p) :
    (node.compileImpulseOrigin p context).Sound before ∧
      node.Staged p (node.compileImpulseOrigin p context) := by
  unfold PoweredRagdollToolsNode.compileImpulseOrigin
  cases hpin : node.GetConnectedInputNode 2 with
  | none => exact node.compileImpulseForce_ok before p context h
  | some child =>
    exact node.stage_ok before p context h child 2 ReferenceField.m_inpulseOriginVectorNodeIdx
      (fun i definition => { definition with m_inpulseOriginVectorNodeIdx := i })
      (fun _ _ => rfl)
      (node.compileImpulseForce p) (fun c hc => node.compileImpulseForce_ok before p c hc)
      (fun c => c.LogError node.nodeID CompileError.failedImpulseOriginInput)
      (fun c hc => hc.LogError _ _)
      [CompileOp.logError CompileError.failedImpulseOriginInput]
      rfl rfl (by simp) (by simp)

theorem PoweredRagdollToolsNode.compilePhysicsBlendWeight_ok (node : PoweredRagdollToolsNode)
    (before : List NodeDefinition) (p : Nat) (context : GraphCompilationContext)
    (h : context.Holds before p) :
    (node.compilePhysicsBlendWeight p context).Sound before ∧
      node.Staged p (node.compilePhysicsBlendWeight p context) := by
  unfold PoweredRagdollToolsNode.compilePhysicsBlendWeight
  cases hpin : node.GetConnectedInputNode 1 with
  | none => exact node.compileImpulseOrigin_ok before p context h
  | some child =>
    exact node.stage_ok before p context h child 1 ReferenceField.m_physicsBlendWeightNodeIdx
      (fun i definition => { definition with m_physicsBlendWeightNodeIdx := i })
      (fun _ _ => rfl)
      (node.compileImpulseOrigin p) (fun c hc => node.compileImpulseOrigin_ok before p c hc)
      (fun c => c.LogError node.nodeID CompileError.failedPhysicsBlendWeightInput)
      (fun c hc => hc.LogError _ _)
      [CompileOp.logError CompileError.failedPhysicsBlendWeightInput]
      rfl rfl (by simp) (by simp)

/-- The pose input and what follows, when the pose input pin is connected. -/
theorem PoweredRagdollToolsNode.compileInput_ok (node : PoweredRagdollToolsNode)
    (before : List NodeDefinition) (p : Nat) (context : GraphCompilationContext)
    (h : context.Holds before p) (child : FlowToolsNode)
    (hpin : node.GetConnectedInputNode 0 = some child) :
    (node.compileInput p context).Sound before ∧ node.Staged p (node.compileInput p context) := by
  unfold PoweredRagdollToolsNode.compileInput
  rw [hpin]
  exact node.stage_ok before p context h child 0 ReferenceField.m_childNodeIdx
    (fun i definition => { definition with m_childNodeIdx := i }) (fun _ _ => rfl)
    (node.compilePhysicsBlendWeight p)
    (fun c hc => node.compilePhysicsBlendWeight_ok before p c hc)
    (fun c => c) (fun _ hc => hc) [] rfl rfl (by simp) (by simp)

/-- The pose input when its pin is not connected. -/
theorem PoweredRagdollToolsNode.compileInput_disconnected (node : PoweredRagdollToolsNode)
    (before : List NodeDefinition) (p : Nat) (context : GraphCompilationContext)
    (h : context.Holds before p) (hpin : node.GetConnectedInputNode 0 = none) :
    (node.compileInput p context).Sound before ∧
    (node.compileInput p context).result = InvalidIndex ∧
    (node.compileInput p context).trace
      = [CompileOp.logError CompileError.disconnectedInputPin] := by
  unfold PoweredRagdollToolsNode.compileInput
  rw [hpin]
  refine ⟨⟨(h.LogError _ _).frame, ?_, ?_⟩, rfl, rfl⟩
  · intro f i hmem
    simp at hmem
  · intro _
    simp [registeredResources]

/-- Every outcome of `PoweredRagdollToolsNode::Compile` is sound. -/
theorem PoweredRagdollToolsNode.Compile_sound (node : PoweredRagdollToolsNode)
    (context : GraphCompilationContext) :
    (node.Compile context).Sound context.m_nodeDefinitions := by
  unfold PoweredRagdollToolsNode.Compile
  simp only
  by_cases hneed : (node.GetDefinition context).state = NodeCompilationState.NeedCompilation
  · rw [if_pos hneed]
    have hg := context.GetDefinition_need node.nodeID
      (fun m_nodeIdx =>
        NodeDefinition.poweredRagdoll (PoweredRagdollNode.Definition.create m_nodeIdx))
      (fun _ => rfl) hneed
    cases hpin : node.GetConnectedInputNode 0 with
    | none => exact (node.compileInput_disconnected _ _ _ hg.2 hpin).1
    | some child => exact (node.compileInput_ok _ _ _ hg.2 child hpin).1
  · rw [if_neg hneed]
    have hc := context.GetDefinition_compiled node.nodeID _ hneed
    refine ⟨?_, ?_, ?_⟩
    · show (node.GetDefinition context).context.m_nodeDefinitions.take _ = _
      unfold PoweredRagdollToolsNode.GetDefinition
      rw [hc]
      exact List.take_length _
    · intro f i hmem
      simp at hmem
    · intro _
      simp [registeredResources]

theorem registeredResources_append (xs ys : List CompileOp) :
    registeredResources (xs ++ ys) = registeredResources xs ++ registeredResources ys := by
  induction xs with
  | nil => rfl
  | cons x xs ih => cases x <;> simp [registeredResources, ih]

theorem CompileOutcome.Sound.afterOps {before : List NodeDefinition} {outcome : CompileOutcome}
    (h : outcome.Sound before) (ops : List CompileOp)
    (hops₁ : ∀ field i, CompileOp.writeReference field i ∈ ops → i ≠ InvalidIndex)
    (hops₂ : CompileOp.writeSettings ∉ ops) (hops₃ : registeredResources ops = []) :
    (outcome.after ops).Sound before := by
  refine ⟨h.frame, ?_, ?_⟩
  · intro f i hmem
    rcases List.mem_append.mp hmem with hmem | hmem
    · exact hops₁ f i hmem
    · exact h.validReferences f i hmem
  · intro hres
    have hf := h.failed hres
    refine ⟨?_, ?_⟩
    · intro hmem
      rcases List.mem_append.mp hmem with hmem | hmem
      · exact hops₂ hmem
      · exact hf.1 hmem
    · show registeredResources (ops ++ outcome.trace) = []
      rw [registeredResources_append, hops₃, hf.2]
      rfl

/-- The loop over the exit options keeps the compilation in progress and performs nothing but
compilations of inputs and writes of valid indices. -/
theorem SimulatedRagdollToolsNode.compileExitOptions_ok (before : List NodeDefinition) (p : Nat)
    (pins : List (Option FlowToolsNode)) (i : Nat) (context : GraphCompilationContext)
    (h : context.Holds before p) :
    (SimulatedRagdollToolsNode.compileExitOptions p i pins context).2.1.Holds before p ∧
    (∀ field idx, CompileOp.writeReference field idx
        ∈ (SimulatedRagdollToolsNode.compileExitOptions p i pins context).2.2 →
      idx ≠ InvalidIndex) ∧
    CompileOp.writeSettings ∉ (SimulatedRagdollToolsNode.compileExitOptions p i pins context).2.2 ∧
    registeredResources (SimulatedRagdollToolsNode.compileExitOptions p i pins context).2.2
      = [] := by
  induction pins generalizing i context with
  | nil =>
    refine ⟨h, ?_, ?_, rfl⟩
    · intro f idx hmem
      simp [SimulatedRagdollToolsNode.compileExitOptions] at hmem
    · simp [SimulatedRagdollToolsNode.compileExitOptions]
  | cons pin pins ih =>
    cases pin with
    | none => exact ih (i + 1) context h
    | some child =>
      simp only [SimulatedRagdollToolsNode.compileExitOptions]
      by_cases hres : (child.Compile context).1 ≠ InvalidIndex
      · rw [if_pos hres]
        have hn := ih (i + 1) _ ((h.child child).writeSimulated (fun definition =>
          { definition with
            m_exitOptionNodeIndices :=
              definition.m_exitOptionNodeIndices ++ [(child.Compile context).1] })
          (fun _ => rfl))
        refine ⟨hn.1, ?_, ?_, ?_⟩
        · intro f idx hmem
          simp only [List.cons_append, List.nil_append, List.mem_cons] at hmem
          rcases hmem with hmem | hmem | hmem
          · exact absurd hmem (by simp)
          · simp only [CompileOp.writeReference.injEq] at hmem
            rw [hmem.2]
            exact hres
          · exact hn.2.1 f idx hmem
        · simp only [List.cons_append, List.nil_append, List.mem_cons]
          rintro (hmem | hmem | hmem)
          · exact absurd hmem (by simp)
          · exact absurd hmem (by simp)
          · exact hn.2.2.1 hmem
        · simp only [List.cons_append, List.nil_append, registeredResources]
          exact hn.2.2.2
      · rw [if_neg hres]
        refine ⟨h.child child, ?_, ?_, rfl⟩
        · intro f idx hmem
          simp at hmem
        · simp

theorem SimulatedRagdollToolsNode.compileSettings_sound (node : SimulatedRagdollToolsNode)
    (before : List NodeDefinition) (p : Nat) (context : GraphCompilationContext)
    (h : context.Holds before p) : (node.compileSettings p context).Sound before := by
  unfold SimulatedRagdollToolsNode.compileSettings
  split
  · refine ⟨(h.LogError _ _).frame, ?_, ?_⟩
    · intro f i hmem
      simp at hmem
    · intro _
      simp [registeredResources]
  · have hw := (h.RegisterResource
      (node.ragdollDefinitionResourceID context.m_variationID)).writeSimulated
      (fun definition =>
        { definition with
          m_dataSlotIdx := (context.RegisterResource
            (node.ragdollDefinitionResourceID context.m_variationID)).1
          m_entryProfileID := node.m_entryProfileID
          m_simulatedProfileID := node.m_simulatedProfileID
          m_exitProfileID := node.m_exitProfileID }) (fun _ => rfl)
    refine ⟨hw.frame, ?_, ?_⟩
    · intro f i hmem
      simp at hmem
    · intro hres
      simp only at hres
      rw [hw.idx] at hres
      exact absurd hres (InvalidIndex_ne_slot p)

theorem SimulatedRagdollToolsNode.compileExits_sound (node : SimulatedRagdollToolsNode)
    (before : List NodeDefinition) (p : Nat) (context : GraphCompilationContext)
    (h : context.Holds before p) : (node.compileExits p context).Sound before := by
  have hloop := SimulatedRagdollToolsNode.compileExitOptions_ok before p (node.m_inputs.drop 1) 1
    context h
  unfold SimulatedRagdollToolsNode.compileExits
  simp only
  split
  · exact ⟨hloop.1.frame, hloop.2.1, fun _ => ⟨hloop.2.2.1, hloop.2.2.2⟩⟩
  · exact (node.compileSettings_sound before p _ hloop.1).afterOps _ hloop.2.1 hloop.2.2.1
      hloop.2.2.2

theorem SimulatedRagdollToolsNode.compileEntry_sound (node : SimulatedRagdollToolsNode)
    (before : List NodeDefinition) (p : Nat) (context : GraphCompilationContext)
    (h : context.Holds before p) : (node.compileEntry p context).Sound before := by
  unfold SimulatedRagdollToolsNode.compileEntry
  cases hpin : node.GetConnectedInputNode 0 with
  | none =>
    refine ⟨(h.LogError _ _).frame, ?_, ?_⟩
    · intro f i hmem
      simp at hmem
    · intro _
      simp [registeredResources]
  | some child =>
    simp only
    by_cases hres : (child.Compile context).1 ≠ InvalidIndex
    · rw [if_pos hres]
      exact (node.compileExits_sound before p _ ((h.child child).writeSimulated
        (fun definition => { definition with m_entryNodeIdx := (child.Compile context).1 })
        (fun _ => rfl))).after_write _ _ _ hres
    · rw [if_neg hres]
      refine ⟨(h.child child).frame, ?_, ?_⟩
      · intro f i hmem
        simp at hmem
      · intro _
        simp [registeredResources]

theorem SimulatedRagdollToolsNode.compileProfiles_sound (node : SimulatedRagdollToolsNode)
    (before : List NodeDefinition) (p : Nat) (context : GraphCompilationContext)
    (h : context.Holds before p) : (node.compileProfiles p context).Sound before := by
  unfold SimulatedRagdollToolsNode.compileProfiles
  split
  · refine ⟨(h.LogError _ _).frame, ?_, ?_⟩
    · intro f i hmem
      simp at hmem
    · intro _
      simp [registeredResources]
  · split
    · refine ⟨(h.LogError _ _).frame, ?_, ?_⟩
      · intro f i hmem
        simp at hmem
      · intro _
        simp [registeredResources]
    · exact node.compileEntry_sound before p context h

/-- Every outcome of `SimulatedRagdollToolsNode::Compile` is sound. -/
theorem SimulatedRagdollToolsNode.simulated_Compile_sound (node : SimulatedRagdollToolsNode)
    (context : GraphCompilationContext) :
    (node.Compile context).Sound context.m_nodeDefinitions := by
  unfold SimulatedRagdollToolsNode.Compile
  simp only
  by_cases hneed : (node.GetDefinition context).state = NodeCompilationState.NeedCompilation
  · rw [if_pos hneed]
    have hg := context.GetDefinition_need node.nodeID
      (fun m_nodeIdx =>
        NodeDefinition.simulatedRagdoll (SimulatedRagdollNode.Definition.create m_nodeIdx))
      (fun _ => rfl) hneed
    exact node.compileProfiles_sound _ _ _ hg.2
  · rw [if_neg hneed]
    have hc := context.GetDefinition_compiled node.nodeID
      (fun m_nodeIdx =>
        NodeDefinition.simulatedRagdoll (SimulatedRagdollNode.Definition.create m_nodeIdx)) hneed
    refine ⟨?_, ?_, ?_⟩
    · show (node.GetDefinition context).context.m_nodeDefinitions.take _ = _
      unfold SimulatedRagdollToolsNode.GetDefinition
      rw [hc]
      exact List.take_length _
    · intro f i hmem
      simp at hmem
    · intro _
      simp [registeredResources]

theorem PoweredRagdollToolsNode.powered_GetDefinition_need (node : PoweredRagdollToolsNode)
    (context : GraphCompilationContext)
    (hneed : (node.GetDefinition context).state = NodeCompilationState.NeedCompilation) :
    (node.GetDefinition context).pDefinition = context.m_nodeDefinitions.length ∧
    (node.GetDefinition context).context.Holds context.m_nodeDefinitions
      (node.GetDefinition context).pDefinition :=
  context.GetDefinition_need node.nodeID
    (fun m_nodeIdx =>
      NodeDefinition.poweredRagdoll (PoweredRagdollNode.Definition.create m_nodeIdx))
    (fun _ => rfl) hneed

theorem PoweredRagdollToolsNode.Compile_need (node : PoweredRagdollToolsNode)
    (context : GraphCompilationContext)
    (hneed : (node.GetDefinition context).state = NodeCompilationState.NeedCompilation) :
    node.Compile context
      = node.compileInput (node.GetDefinition context).pDefinition
          (node.GetDefinition context).context := by
  unfold PoweredRagdollToolsNode.Compile
  simp only
  rw [if_pos hneed]

theorem PoweredRagdollToolsNode.impulseIncomplete_iff (node : PoweredRagdollToolsNode) :
    node.impulseIncomplete = true
      ↔ (node.GetConnectedInputNode 2).isSome ≠ (node.GetConnectedInputNode 3).isSome := by
  unfold PoweredRagdollToolsNode.impulseIncomplete
  cases node.GetConnectedInputNode 2 <;> cases node.GetConnectedInputNode 3 <;> simp

/-! ### The claims -/

/-- C17, the code at a failing input: a simulated ragdoll node that needs compilation, with
valid profile identifiers, an entry node that compiles (to slot 2) and an exit option node on
pin 1 whose compilation returns `InvalidIndex`, in a context that holds one definition already.
`Compile` returns 0, the value of `return false`, which is the slot of that other definition,
and not `InvalidIndex`. -/
theorem C17_exit_option_failure_returns_zero :
    ((exampleSimulatedRagdoll { m_ID := 3, valid := true }
        [some (exampleClipToolsNode 1), some exampleBrokenToolsNode]).GetDefinition
      exampleContextAfterClip).state = NodeCompilationState.NeedCompilation ∧
    compiledInputs ((exampleSimulatedRagdoll { m_ID := 3, valid := true }
        [some (exampleClipToolsNode 1), some exampleBrokenToolsNode]).Compile
      exampleContextAfterClip).trace = [(0, 2), (1, InvalidIndex)] ∧
    ((exampleSimulatedRagdoll { m_ID := 3, valid := true }
        [some (exampleClipToolsNode 1), some exampleBrokenToolsNode]).Compile
      exampleContextAfterClip).result = 0 ∧
    ((exampleSimulatedRagdoll { m_ID := 3, valid := true }
        [some (exampleClipToolsNode 1), some exampleBrokenToolsNode]).Compile
      exampleContextAfterClip).result ≠ InvalidIndex := by
  refine ⟨rfl, rfl, rfl, ?_⟩
  decide

/-- C18: fail-fast propagation in `PoweredRagdollToolsNode::Compile`. For a node that needs
compilation, when the pose input pin (pin 0) is not connected, or the compilation of the node
on one of its input pins returned `InvalidIndex`, `Compile` returns `InvalidIndex` and
registers no resource; with pin 0 not connected no input is compiled at all, and an input whose
compilation returned `InvalidIndex` is the last input compiled. -/
theorem C18_powered_compile_fails_fast (node : PoweredRagdollToolsNode)
    (context : GraphCompilationContext)
    (hneed : (node.GetDefinition context).state = NodeCompilationState.NeedCompilation)
    (hfail : node.GetConnectedInputNode 0 = none ∨
      ∃ pinIdx, (pinIdx, InvalidIndex) ∈ compiledInputs (node.Compile context).trace) :
    (node.Compile context).result = InvalidIndex ∧
    registeredResources (node.Compile context).trace = [] ∧
    (node.GetConnectedInputNode 0 = none → compiledInputs (node.Compile context).trace = []) ∧
    (∀ pinIdx, (pinIdx, InvalidIndex) ∈ compiledInputs (node.Compile context).trace →
      ∃ earlier, compiledInputs (node.Compile context).trace
        = earlier ++ [(pinIdx, InvalidIndex)]) := by
  have hg := node.powered_GetDefinition_need context hneed
  have hsound := node.Compile_sound context
  rw [node.Compile_need context hneed] at hfail hsound ⊢
  cases hpin : node.GetConnectedInputNode 0 with
  | none =>
    obtain ⟨_, hres, htrace⟩ := node.compileInput_disconnected _ _ _ hg.2 hpin
    rw [htrace]
    exact ⟨hres, rfl, fun _ => rfl, fun pinIdx hmem => absurd hmem (by simp [compiledInputs])⟩
  | some child =>
    have hst := (node.compileInput_ok _ _ _ hg.2 child hpin).2
    have hres : (node.compileInput (node.GetDefinition context).pDefinition
        (node.GetDefinition context).context).result = InvalidIndex := by
      rcases hfail with h | ⟨pinIdx, hmem⟩
      · rw [hpin] at h
        exact absurd h (by simp)
      · exact (hst.failFast pinIdx hmem).1
    exact ⟨hres, (hsound.failed hres).2, fun h => absurd h (by simp),
      fun pinIdx hmem => (hst.failFast pinIdx hmem).2⟩

/-- C18 on the example node with a node that compiles on pin 0, a node that does not on pin 1
and a node that would on pin 2: `Compile` returns `InvalidIndex`. -/
theorem C18_witness :
    ((examplePoweredRagdoll (some (exampleClipToolsNode 1)) (some exampleBrokenToolsNode)
      (some (exampleClipToolsNode 3)) none).Compile exampleCompilationContext).result
      = InvalidIndex :=
  (C18_powered_compile_fails_fast
    (examplePoweredRagdoll (some (exampleClipToolsNode 1)) (some exampleBrokenToolsNode)
      (some (exampleClipToolsNode 3)) none) exampleCompilationContext rfl
    (Or.inr ⟨1, by decide⟩)).1

/-- C19 as stated fails: a powered ragdoll node with pin 0 and the impulse origin pin (pin 2)
connected to nodes that compile, and the impulse force pin (pin 3) not connected, is compiled a
second time in the context its first compilation left. The first call returns `InvalidIndex`;
the second finds the definition the first call created, compiles no input, and returns its
slot, 0, although exactly one of the two impulse pins is connected. -/
theorem C19_counterexample :
    ((examplePoweredRagdoll (some (exampleClipToolsNode 1)) none (some (exampleClipToolsNode 3))
      none).GetConnectedInputNode 0).isSome = true ∧
    ((examplePoweredRagdoll (some (exampleClipToolsNode 1)) none (some (exampleClipToolsNode 3))
      none).GetConnectedInputNode 2).isSome = true ∧
    ((examplePoweredRagdoll (some (exampleClipToolsNode 1)) none (some (exampleClipToolsNode 3))
      none).GetConnectedInputNode 3).isSome = false ∧
    ((examplePoweredRagdoll (some (exampleClipToolsNode 1)) none (some (exampleClipToolsNode 3))
      none).Compile exampleCompilationContext).result = InvalidIndex ∧
    compiledInputs ((examplePoweredRagdoll (some (exampleClipToolsNode 1)) none
      (some (exampleClipToolsNode 3)) none).Compile
        ((examplePoweredRagdoll (some (exampleClipToolsNode 1)) none
          (some (exampleClipToolsNode 3)) none).Compile exampleCompilationContext).context).trace
      = [] ∧
    ((examplePoweredRagdoll (some (exampleClipToolsNode 1)) none (some (exampleClipToolsNode 3))
      none).Compile
        ((examplePoweredRagdoll (some (exampleClipToolsNode 1)) none
          (some (exampleClipToolsNode 3)) none).Compile exampleCompilationContext).context).result
      = 0 ∧
    ((examplePoweredRagdoll (some (exampleClipToolsNode 1)) none (some (exampleClipToolsNode 3))
      none).Compile
        ((examplePoweredRagdoll (some (exampleClipToolsNode 1)) none
          (some (exampleClipToolsNode 3)) none).Compile exampleCompilationContext).context).result
      ≠ InvalidIndex := by
  refine ⟨rfl, rfl, rfl, rfl, rfl, rfl, ?_⟩
  decide

/-- C19, amended: joint presence of the impulse pins in `PoweredRagdollToolsNode::Compile`. For
a node that needs compilation, with pin 0 connected and every input that is compiled compiling
to a valid index, `Compile` returns `InvalidIndex` if and only if exactly one of the impulse
origin (pin 2) and impulse force (pin 3) pins is connected; with both or neither connected it
returns the slot of the node's definition, which is the definition's `m_nodeIdx`. -/
theorem C19_impulse_pins_both_or_neither (node : PoweredRagdollToolsNode)
    (context : GraphCompilationContext) (child : FlowToolsNode)
    (hneed : (node.GetDefinition context).state = NodeCompilationState.NeedCompilation)
    (hpin : node.GetConnectedInputNode 0 = some child)
    (hall : ∀ x ∈ compiledInputs (node.Compile context).trace, x.2 ≠ InvalidIndex) :
    ((node.Compile context).result = InvalidIndex
      ↔ (node.GetConnectedInputNode 2).isSome ≠ (node.GetConnectedInputNode 3).isSome) ∧
    ((node.GetConnectedInputNode 2).isSome = (node.GetConnectedInputNode 3).isSome →
      (node.Compile context).result = (context.m_nodeDefinitions.length : Int) ∧
      (node.Compile context).result
        = (node.Compile context).context.nodeIdxAt (node.GetDefinition context).pDefinition) := by
  have hg := node.powered_GetDefinition_need context hneed
  have hp : (node.GetDefinition context).pDefinition = context.m_nodeDefinitions.length := hg.1
  rw [node.Compile_need context hneed] at hall ⊢
  have hst := (node.compileInput_ok _ _ _ hg.2 child hpin).2
  have hres := hst.succeeded hall
  have hidx := hst.idx
  constructor
  · rw [← node.impulseIncomplete_iff]
    constructor
    · intro h
      by_contra hinc
      rw [hres, if_neg hinc] at h
      exact InvalidIndex_ne_slot _ h
    · intro hinc
      rw [hres, if_pos hinc]
  · intro hsame
    have hinc : ¬ node.impulseIncomplete = true := by
      rw [node.impulseIncomplete_iff]
      exact fun h => h hsame
    rw [hres, if_neg hinc, hidx, hp]
    exact ⟨rfl, rfl⟩

/-- C19 amended, on the example node with nodes that compile on pins 0, 2 and 3: `Compile`
returns the slot of the node's definition, 0. -/
theorem C19_witness :
    ((examplePoweredRagdoll (some (exampleClipToolsNode 1)) none (some (exampleClipToolsNode 3))
      (some (exampleClipToolsNode 4))).Compile exampleCompilationContext).result
      = (exampleCompilationContext.m_nodeDefinitions.length : Int) :=
  ((C19_impulse_pins_both_or_neither
    (examplePoweredRagdoll (some (exampleClipToolsNode 1)) none (some (exampleClipToolsNode 3))
      (some (exampleClipToolsNode 4))) exampleCompilationContext (exampleClipToolsNode 1) rfl rfl
    (by decide)).2 rfl).1

/-- C20 as stated fails: a powered ragdoll node whose pose input compiles (to slot 1) and whose
physics blend weight input does not is compiled in an empty context. `Compile` returns
`InvalidIndex`, yet the definition array, empty before the call, now holds the node's
definition, with its `m_childNodeIdx` written, and the definition of the pose input. -/
theorem C20_counterexample :
    ((examplePoweredRagdoll (some (exampleClipToolsNode 1)) (some exampleBrokenToolsNode) none
      none).Compile exampleCompilationContext).result = InvalidIndex ∧
    exampleCompilationContext.m_nodeDefinitions = [] ∧
    ((examplePoweredRagdoll (some (exampleClipToolsNode 1)) (some exampleBrokenToolsNode) none
      none).Compile exampleCompilationContext).context.m_nodeDefinitions
      = [NodeDefinition.poweredRagdoll
          { PoweredRagdollNode.Definition.create 0 with m_childNodeIdx := 1 },
         NodeDefinition.other 1] ∧
    CompileOp.writeReference ReferenceField.m_childNodeIdx 1
      ∈ ((examplePoweredRagdoll (some (exampleClipToolsNode 1)) (some exampleBrokenToolsNode)
          none none).Compile exampleCompilationContext).trace ∧
    ((examplePoweredRagdoll (some (exampleClipToolsNode 1)) (some exampleBrokenToolsNode) none
      none).Compile exampleCompilationContext).context.m_nodeDefinitions
      ≠ exampleCompilationContext.m_nodeDefinitions := by
  have hdefs : ((examplePoweredRagdoll (some (exampleClipToolsNode 1))
      (some exampleBrokenToolsNode) none none).Compile
        exampleCompilationContext).context.m_nodeDefinitions
      = [NodeDefinition.poweredRagdoll
          { PoweredRagdollNode.Definition.create 0 with m_childNodeIdx := 1 },
         NodeDefinition.other 1] := rfl
  refine ⟨rfl, rfl, hdefs, ?_, ?_⟩
  · have htrace : ((examplePoweredRagdoll (some (exampleClipToolsNode 1))
        (some exampleBrokenToolsNode) none none).Compile exampleCompilationContext).trace
        = [CompileOp.compileInput 0 1,
           CompileOp.writeReference ReferenceField.m_childNodeIdx 1,
           CompileOp.compileInput 1 InvalidIndex,
           CompileOp.logError CompileError.failedPhysicsBlendWeightInput] := rfl
    rw [htrace]
    simp
  · rw [hdefs]
    intro h
    exact absurd (congrArg List.length h) (by simp [exampleCompilationContext])

/-- C20, amended: when `PoweredRagdollToolsNode::Compile` or
`SimulatedRagdollToolsNode::Compile` fails (returns `InvalidIndex`), the definitions that were
in the definition array before the call are still its first entries, unchanged; every index
the call wrote to a reference member of the node's definition is that of an input that
compiled (never `InvalidIndex`); the literal members of the definition have not been written
and no resource has been registered. -/
theorem C20_failed_compile_leaves_no_broken_reference (powered : PoweredRagdollToolsNode)
    (simulated : SimulatedRagdollToolsNode) (context₁ context₂ : GraphCompilationContext)
    (hpowered : (powered.Compile context₁).result = InvalidIndex)
    (hsimulated : (simulated.Compile context₂).result = InvalidIndex) :
    ((powered.Compile context₁).context.m_nodeDefinitions.take context₁.m_nodeDefinitions.length
        = context₁.m_nodeDefinitions ∧
      (∀ field compiledNodeIdx,
        CompileOp.writeReference field compiledNodeIdx ∈ (powered.Compile context₁).trace →
          compiledNodeIdx ≠ InvalidIndex) ∧
      CompileOp.writeSettings ∉ (powered.Compile context₁).trace ∧
      registeredResources (powered.Compile context₁).trace = []) ∧
    ((simulated.Compile context₂).context.m_nodeDefinitions.take
          context₂.m_nodeDefinitions.length
        = context₂.m_nodeDefinitions ∧
      (∀ field compiledNodeIdx,
        CompileOp.writeReference field compiledNodeIdx ∈ (simulated.Compile context₂).trace →
          compiledNodeIdx ≠ InvalidIndex) ∧
      CompileOp.writeSettings ∉ (simulated.Compile context₂).trace ∧
      registeredResources (simulated.Compile context₂).trace = []) := by
  have h₁ := powered.Compile_sound context₁
  have h₂ := simulated.simulated_Compile_sound context₂
  exact ⟨⟨h₁.frame, h₁.validReferences, (h₁.failed hpowered).1, (h₁.failed hpowered).2⟩,
    ⟨h₂.frame, h₂.validReferences, (h₂.failed hsimulated).1, (h₂.failed hsimulated).2⟩⟩

/-- C20 amended, on a powered ragdoll node whose physics blend weight input does not compile
and a simulated ragdoll node whose exit profile is not valid while an exit option is connected:
neither registers a resource. -/
theorem C20_witness :
    registeredResources ((examplePoweredRagdoll (some (exampleClipToolsNode 1))
      (some exampleBrokenToolsNode) none none).Compile exampleCompilationContext).trace = [] ∧
    registeredResources ((exampleSimulatedRagdoll { m_ID := 3, valid := false }
      [some (exampleClipToolsNode 1), some (exampleClipToolsNode 2)]).Compile
        exampleContextAfterClip).trace = [] := by
  have h := C20_failed_compile_leaves_no_broken_reference
    (examplePoweredRagdoll (some (exampleClipToolsNode 1)) (some exampleBrokenToolsNode) none
      none)
    (exampleSimulatedRagdoll { m_ID := 3, valid := false }
      [some (exampleClipToolsNode 1), some (exampleClipToolsNode 2)])
    exampleCompilationContext exampleContextAfterClip rfl rfl
  exact ⟨h.1.2.2.2, h.2.2.2.2⟩

/-! ### Registrations and the second compilation of a node -/

theorem GraphCompilationContext.RegisteredIn.same (context : GraphCompilationContext) :
    context.RegisteredIn context :=
  fun _ _ h => h

theorem GraphCompilationContext.RegisteredIn.then {c₁ c₂ c₃ : GraphCompilationContext}
    (h₁ : c₁.RegisteredIn c₂) (h₂ : c₂.RegisteredIn c₃) : c₁.RegisteredIn c₃ :=
  fun nodeID slot h => h₂ nodeID slot (h₁ nodeID slot h)

theorem GraphCompilationContext.RegisteredIn.compiled (context : GraphCompilationContext)
    (child : FlowToolsNode) : context.RegisteredIn (child.Compile context).2 :=
  fun nodeID slot h => child.keepsRegistered context nodeID slot h

theorem GraphCompilationContext.RegisterResource_map (context : GraphCompilationContext)
    (resourceID : Nat) :
    (context.RegisterResource resourceID).2.m_nodeIDToIndexMap = context.m_nodeIDToIndexMap := by
  unfold GraphCompilationContext.RegisterResource
  split <;> rfl

theorem GraphCompilationContext.RegisteredIn.registered (context : GraphCompilationContext)
    (resourceID : Nat) : context.RegisteredIn (context.RegisterResource resourceID).2 := by
  intro nodeID slot h
  rw [context.RegisterResource_map resourceID]
  exact h

/-- After `GetDefinition` the node is registered to the slot handed back. -/
theorem GraphCompilationContext.GetDefinition_registered (context : GraphCompilationContext)
    (nodeID : Nat) (create : Int → NodeDefinition) :
    (context.GetDefinition nodeID create).context.m_nodeIDToIndexMap nodeID
      = some (context.GetDefinition nodeID create).pDefinition := by
  unfold GraphCompilationContext.GetDefinition
  cases hmap : context.m_nodeIDToIndexMap nodeID with
  | some slot => simpa using hmap
  | none => simp

theorem GraphCompilationContext.GetDefinition_keeps (context : GraphCompilationContext)
    (nodeID : Nat) (create : Int → NodeDefinition) :
    context.RegisteredIn (context.GetDefinition nodeID create).context := by
  intro k slot h
  unfold GraphCompilationContext.GetDefinition
  cases hmap : context.m_nodeIDToIndexMap nodeID with
  | some existing => simpa using h
  | none =>
    have hk : k ≠ nodeID := by
      intro hk
      rw [hk, hmap] at h
      exact absurd h (by simp)
    simpa [hk] using h

/-- When the node has a definition already, the slot `GetDefinition` hands back is the one the
node is registered to. -/
theorem GraphCompilationContext.GetDefinition_slot (context : GraphCompilationContext)
    (nodeID : Nat) (create : Int → NodeDefinition)
    (hstate : (context.GetDefinition nodeID create).state ≠ NodeCompilationState.NeedCompilation) :
    context.m_nodeIDToIndexMap nodeID = some (context.GetDefinition nodeID create).pDefinition := by
  have h := context.GetDefinition_registered nodeID create
  rw [context.GetDefinition_compiled nodeID create hstate] at h
  exact h

/-- A node that is registered does not need compilation, and the slot handed back is the one
it is registered to. -/
theorem GraphCompilationContext.GetDefinition_of_registered (context : GraphCompilationContext)
    (nodeID : Nat) (create : Int → NodeDefinition) (slot : Nat)
    (h : context.m_nodeIDToIndexMap nodeID = some slot) :
    (context.GetDefinition nodeID create).state ≠ NodeCompilationState.NeedCompilation ∧
    (context.GetDefinition nodeID create).pDefinition = slot := by
  unfold GraphCompilationContext.GetDefinition
  rw [h]
  exact ⟨by simp, rfl⟩

/-- The outcome of `PoweredRagdollToolsNode::Compile` for a node that has a definition. -/
theorem PoweredRagdollToolsNode.Compile_compiled (node : PoweredRagdollToolsNode)
    (context : GraphCompilationContext)
    (hstate : (node.GetDefinition context).state ≠ NodeCompilationState.NeedCompilation) :
    (node.Compile context).result = context.nodeIdxAt (node.GetDefinition context).pDefinition ∧
    context.m_nodeIDToIndexMap node.nodeID = some (node.GetDefinition context).pDefinition ∧
    (node.Compile context).trace = [] ∧
    (node.Compile context).context = context := by
  have hc : (node.GetDefinition context).context = context :=
    context.GetDefinition_compiled node.nodeID _ hstate
  have hslot : context.m_nodeIDToIndexMap node.nodeID
      = some (node.GetDefinition context).pDefinition :=
    context.GetDefinition_slot node.nodeID _ hstate
  unfold PoweredRagdollToolsNode.Compile
  simp only
  rw [if_neg hstate]
  simp only
  rw [hc]
  exact ⟨rfl, hslot, trivial, rfl⟩

/-- The outcome of `SimulatedRagdollToolsNode::Compile` for a node that has a definition. -/
theorem SimulatedRagdollToolsNode.simulated_Compile_compiled (node : SimulatedRagdollToolsNode)
    (context : GraphCompilationContext)
    (hstate : (node.GetDefinition context).state ≠ NodeCompilationState.NeedCompilation) :
    (node.Compile context).result = context.nodeIdxAt (node.GetDefinition context).pDefinition ∧
    context.m_nodeIDToIndexMap node.nodeID = some (node.GetDefinition context).pDefinition ∧
    (node.Compile context).trace = [] ∧
    (node.Compile context).context = context := by
  have hc : (node.GetDefinition context).context = context :=
    context.GetDefinition_compiled node.nodeID _ hstate
  have hslot : context.m_nodeIDToIndexMap node.nodeID
      = some (node.GetDefinition context).pDefinition :=
    context.GetDefinition_slot node.nodeID _ hstate
  unfold SimulatedRagdollToolsNode.Compile
  simp only
  rw [if_neg hstate]
  simp only
  rw [hc]
  exact ⟨rfl, hslot, trivial, rfl⟩

theorem PoweredRagdollToolsNode.compileSettings_registered (node : PoweredRagdollToolsNode)
    (p : Nat) (context : GraphCompilationContext) :
    context.RegisteredIn (node.compileSettings p context).context := by
  unfold PoweredRagdollToolsNode.compileSettings
  simp only
  split
  · exact fun _ _ h => h
  · exact GraphCompilationContext.RegisteredIn.registered context _

/-- The block the source repeats for each input pin keeps the registered nodes registered. -/
theorem PoweredRagdollToolsNode.stage_registered (p : Nat) (context : GraphCompilationContext)
    (child : FlowToolsNode) (pinIdx : Nat) (field : ReferenceField)
    (f : Int → PoweredRagdollNode.Definition → PoweredRagdollNode.Definition)
    (next : GraphCompilationContext → CompileOutcome)
    (hnext : ∀ c : GraphCompilationContext, c.RegisteredIn (next c).context)
    (failure : GraphCompilationContext → GraphCompilationContext)
    (hfailure : ∀ c : GraphCompilationContext, c.RegisteredIn (failure c))
    (failureOps : List CompileOp) :
    context.RegisteredIn
      (if (child.Compile context).1 ≠ InvalidIndex then
        (next ((child.Compile context).2.writePowered p (f (child.Compile context).1))).after
          [CompileOp.compileInput pinIdx (child.Compile context).1,
           CompileOp.writeReference field (child.Compile context).1]
      else
        { result := InvalidIndex
          context := failure (child.Compile context).2
          trace := CompileOp.compileInput pinIdx (child.Compile context).1 :: failureOps
            }).context := by
  by_cases hres : (child.Compile context).1 ≠ InvalidIndex
  · rw [if_pos hres]
    have hwrite : (child.Compile context).2.RegisteredIn
        ((child.Compile context).2.writePowered p (f (child.Compile context).1)) :=
      fun _ _ h => h
    exact (GraphCompilationContext.RegisteredIn.compiled context child).then
      (hwrite.then (hnext _))
  · rw [if_neg hres]
    exact (GraphCompilationContext.RegisteredIn.compiled context child).then (hfailure _)

theorem PoweredRagdollToolsNode.compileImpulseForce_registered (node : PoweredRagdollToolsNode)
    (p : Nat) (context : GraphCompilationContext) :
    context.RegisteredIn (node.compileImpulseForce p context).context := by
  unfold PoweredRagdollToolsNode.compileImpulseForce
  cases hpin : node.GetConnectedInputNode 3 with
  | none => exact node.compileSettings_registered p context
  | some child =>
    exact PoweredRagdollToolsNode.stage_registered p context child 3
      ReferenceField.m_inpulseForceVectorNodeIdx
      (fun i definition => { definition with m_inpulseForceVectorNodeIdx := i })
      (node.compileSettings p) (fun c => node.compileSettings_registered p c)
      (fun c => c.LogError node.nodeID CompileError.failedImpulseForceInput)
      (fun _ _ _ h => h)
      [CompileOp.logError CompileError.failedImpulseForceInput]

theorem PoweredRagdollToolsNode.compileImpulseOrigin_registered (node : PoweredRagdollToolsNode)
    (p : Nat) (context : GraphCompilationContext) :
    context.RegisteredIn (node.compileImpulseOrigin p context).context := by
  unfold PoweredRagdollToolsNode.compileImpulseOrigin
  cases hpin : node.GetConnectedInputNode 2 with
  | none => exact node.compileImpulseForce_registered p context
  | some child =>
    exact PoweredRagdollToolsNode.stage_registered p context child 2
      ReferenceField.m_inpulseOriginVectorNodeIdx
      (fun i definition => { definition with m_inpulseOriginVectorNodeIdx := i })
      (node.compileImpulseForce p) (fun c => node.compileImpulseForce_registered p c)
      (fun c => c.LogError node.nodeID CompileError.failedImpulseOriginInput)
      (fun _ _ _ h => h)
      [CompileOp.logError CompileError.failedImpulseOriginInput]

theorem PoweredRagdollToolsNode.compilePhysicsBlendWeight_registered
    (node : PoweredRagdollToolsNode) (p : Nat) (context : GraphCompilationContext) :
    context.RegisteredIn (node.compilePhysicsBlendWeight p context).context := by
  unfold PoweredRagdollToolsNode.compilePhysicsBlendWeight
  cases hpin : node.GetConnectedInputNode 1 with
  | none => exact node.compileImpulseOrigin_registered p context
  | some child =>
    exact PoweredRagdollToolsNode.stage_registered p context child 1
      ReferenceField.m_physicsBlendWeightNodeIdx
      (fun i definition => { definition with m_physicsBlendWeightNodeIdx := i })
      (node.compileImpulseOrigin p) (fun c => node.compileImpulseOrigin_registered p c)
      (fun c => c.LogError node.nodeID CompileError.failedPhysicsBlendWeightInput)
      (fun _ _ _ h => h)
      [CompileOp.logError CompileError.failedPhysicsBlendWeightInput]

theorem PoweredRagdollToolsNode.compileInput_registered (node : PoweredRagdollToolsNode)
    (p : Nat) (context : GraphCompilationContext) :
    context.RegisteredIn (node.compileInput p context).context := by
  unfold PoweredRagdollToolsNode.compileInput
  cases hpin : node.GetConnectedInputNode 0 with
  | none => exact fun _ _ h => h
  | some child =>
    exact PoweredRagdollToolsNode.stage_registered p context child 0
      ReferenceField.m_childNodeIdx
      (fun i definition => { definition with m_childNodeIdx := i })
      (node.compilePhysicsBlendWeight p) (fun c => node.compilePhysicsBlendWeight_registered p c)
      (fun c => c) (fun _ _ _ h => h) []

/-- After `PoweredRagdollToolsNode::Compile` the nodes that were registered are registered
still, and the node is registered to the slot `GetDefinition` handed back. -/
theorem PoweredRagdollToolsNode.Compile_registered (node : PoweredRagdollToolsNode)
    (context : GraphCompilationContext) :
    context.RegisteredIn (node.Compile context).context ∧
    (node.Compile context).context.m_nodeIDToIndexMap node.nodeID
      = some (node.GetDefinition context).pDefinition := by
  have hkeep : context.RegisteredIn (node.GetDefinition context).context :=
    context.GetDefinition_keeps node.nodeID _
  have hreg : (node.GetDefinition context).context.m_nodeIDToIndexMap node.nodeID
      = some (node.GetDefinition context).pDefinition :=
    context.GetDefinition_registered node.nodeID _
  unfold PoweredRagdollToolsNode.Compile
  simp only
  by_cases hneed : (node.GetDefinition context).state = NodeCompilationState.NeedCompilation
  · rw [if_pos hneed]
    have hstage := node.compileInput_registered (node.GetDefinition context).pDefinition
      (node.GetDefinition context).context
    exact ⟨hkeep.then hstage, hstage _ _ hreg⟩
  · rw [if_neg hneed]
    exact ⟨hkeep, hreg⟩

/-- The read of `m_nodeIdx` through a slot gives `InvalidIndex` outside the array, and is the
same in an array that has the definitions of another as its first entries. -/
theorem GraphCompilationContext.nodeIdxAt_kept (context later : GraphCompilationContext)
    (p : Nat)
    (hdefs : later.m_nodeDefinitions.take context.m_nodeDefinitions.length
      = context.m_nodeDefinitions)
    (hidx : context.nodeIdxAt p ≠ InvalidIndex) :
    later.nodeIdxAt p = context.nodeIdxAt p := by
  have hlt : p < context.m_nodeDefinitions.length := by
    by_contra hge
    apply hidx
    unfold GraphCompilationContext.nodeIdxAt
    rw [List.getD_eq_getElem?_getD, List.getElem?_eq_none (not_lt.mp hge)]
    rfl
  unfold GraphCompilationContext.nodeIdxAt
  rw [List.getD_eq_getElem?_getD, List.getD_eq_getElem?_getD]
  have h2 : (later.m_nodeDefinitions.take context.m_nodeDefinitions.length)[p]?
      = later.m_nodeDefinitions[p]? :=
    List.getElem?_take_of_lt hlt
  rw [hdefs] at h2
  rw [h2]

/-- When `PoweredRagdollToolsNode::Compile` returns an index, it is the `m_nodeIdx` of the
definition in the node's slot. -/
theorem PoweredRagdollToolsNode.Compile_index (node : PoweredRagdollToolsNode)
    (context : GraphCompilationContext)
    (hres : (node.Compile context).result ≠ InvalidIndex) :
    (node.Compile context).result
      = (node.Compile context).context.nodeIdxAt (node.GetDefinition context).pDefinition := by
  by_cases hneed : (node.GetDefinition context).state = NodeCompilationState.NeedCompilation
  · have hg := node.powered_GetDefinition_need context hneed
    rw [node.Compile_need context hneed] at hres ⊢
    cases hpin : node.GetConnectedInputNode 0 with
    | none => exact absurd (node.compileInput_disconnected _ _ _ hg.2 hpin).2.1 hres
    | some child =>
      have hst := (node.compileInput_ok _ _ _ hg.2 child hpin).2
      have hall : ∀ x ∈ compiledInputs (node.compileInput (node.GetDefinition context).pDefinition
          (node.GetDefinition context).context).trace, x.2 ≠ InvalidIndex := by
        intro x hx hinv
        have hx2 : (x.1, InvalidIndex) ∈ compiledInputs (node.compileInput
            (node.GetDefinition context).pDefinition (node.GetDefinition context).context).trace := by
          rw [← hinv]
          exact hx
        exact hres (hst.failFast x.1 hx2).1
      have hsucc := hst.succeeded hall
      cases hinc : node.impulseIncomplete
      · rw [hinc] at hsucc
        simp only [Bool.false_eq_true, if_false] at hsucc
        rw [hsucc, hst.idx]
      · rw [hinc] at hsucc
        simp only [if_true] at hsucc
        exact absurd hsucc hres
  · have h := node.Compile_compiled context hneed
    rw [h.2.2.2]
    exact h.1

/-! ### The exit options of a simulated ragdoll node -/

theorem modifyAt_getElem? {α : Type} (f : α → α) (p : Nat) (xs : List α) :
    (modifyAt f p xs)[p]? = (xs[p]?).map f := by
  induction xs generalizing p with
  | nil => cases p <;> rfl
  | cons x xs ih =>
    cases p with
    | zero => simp [modifyAt]
    | succ q => simpa [modifyAt] using ih q

theorem compiledInputs_append (xs ys : List CompileOp) :
    compiledInputs (xs ++ ys) = compiledInputs xs ++ compiledInputs ys := by
  induction xs with
  | nil => rfl
  | cons x xs ih => cases x <;> simp [compiledInputs, ih]

theorem GraphCompilationContext.SimulatedAt.idx {context : GraphCompilationContext} {p : Nat}
    {exits : List Int} (h : context.SimulatedAt p exits) : context.nodeIdxAt p = (p : Int) := by
  obtain ⟨definition, hget, hidx, _⟩ := h
  unfold GraphCompilationContext.nodeIdxAt
  rw [List.getD_eq_getElem?_getD, hget]
  exact hidx

theorem GraphCompilationContext.SimulatedAt.exitsAt {context : GraphCompilationContext}
    {p : Nat} {exits : List Int} (h : context.SimulatedAt p exits) :
    context.exitOptionNodeIndicesAt p = exits := by
  obtain ⟨definition, hget, _, hexits⟩ := h
  unfold GraphCompilationContext.exitOptionNodeIndicesAt
  rw [List.getD_eq_getElem?_getD, hget]
  exact hexits

theorem GraphCompilationContext.SimulatedAt.afterInput {context : GraphCompilationContext}
    {p : Nat} {exits : List Int} (h : context.SimulatedAt p exits) (child : FlowToolsNode) :
    (child.Compile context).2.SimulatedAt p exits := by
  obtain ⟨definition, hget, hidx, hexits⟩ := h
  have hlt : p < context.m_nodeDefinitions.length := by
    by_contra hge
    rw [List.getElem?_eq_none (not_lt.mp hge)] at hget
    exact absurd hget (by simp)
  have h2 : ((child.Compile context).2.m_nodeDefinitions.take
      context.m_nodeDefinitions.length)[p]?
      = (child.Compile context).2.m_nodeDefinitions[p]? :=
    List.getElem?_take_of_lt hlt
  rw [child.keepsDefinitions context] at h2
  exact ⟨definition, by rw [← h2]; exact hget, hidx, hexits⟩

theorem GraphCompilationContext.SimulatedAt.logged {context : GraphCompilationContext}
    {p : Nat} {exits : List Int} (h : context.SimulatedAt p exits) (nodeID : Nat)
    (error : CompileError) : (context.LogError nodeID error).SimulatedAt p exits :=
  h

theorem GraphCompilationContext.SimulatedAt.resource {context : GraphCompilationContext}
    {p : Nat} {exits : List Int} (h : context.SimulatedAt p exits) (resourceID : Nat) :
    (context.RegisterResource resourceID).2.SimulatedAt p exits := by
  unfold GraphCompilationContext.SimulatedAt
  rw [context.RegisterResource_definitions resourceID]
  exact h

/-- A write through `pDefinition` that keeps `m_nodeIdx` and makes `written` of the exit
options. -/
theorem GraphCompilationContext.SimulatedAt.written {context : GraphCompilationContext}
    {p : Nat} {exits : List Int} (h : context.SimulatedAt p exits)
    (f : SimulatedRagdollNode.Definition → SimulatedRagdollNode.Definition)
    (hf : ∀ definition, (f definition).m_nodeIdx = definition.m_nodeIdx)
    (written : List Int)
    (hexits : ∀ definition, definition.m_exitOptionNodeIndices = exits →
      (f definition).m_exitOptionNodeIndices = written) :
    (context.writeSimulated p f).SimulatedAt p written := by
  obtain ⟨definition, hget, hidx, hex⟩ := h
  refine ⟨f definition, ?_, by rw [hf]; exact hidx, hexits definition hex⟩
  unfold GraphCompilationContext.writeSimulated
  simp only
  rw [modifyAt_getElem?, hget]
  rfl

/-- After `GetDefinition` has created the definition of a simulated ragdoll node, the
definition is in the slot handed back and has no exit options. -/
theorem SimulatedRagdollToolsNode.GetDefinition_created (node : SimulatedRagdollToolsNode)
    (context : GraphCompilationContext)
    (hneed : (node.GetDefinition context).state = NodeCompilationState.NeedCompilation) :
    (node.GetDefinition context).context.SimulatedAt (node.GetDefinition context).pDefinition
      [] := by
  unfold SimulatedRagdollToolsNode.GetDefinition GraphCompilationContext.GetDefinition
    at hneed ⊢
  cases hmap : context.m_nodeIDToIndexMap node.nodeID with
  | some slot =>
    rw [hmap] at hneed
    exact absurd hneed (by simp)
  | none =>
    simp only
    exact ⟨SimulatedRagdollNode.Definition.create (context.m_nodeDefinitions.length : Int),
      by simp, rfl, rfl⟩

/-- The loop over the exit options, for a definition that has the exit options `exits` when
the loop is entered: without an early return the exit options are `exits` followed by the
indices the compiled inputs returned, none of which is `InvalidIndex`; an early return follows
an input that compiled to `InvalidIndex`; the pins compiled are pins from `i` on, and none is
when no pin is connected; and the registered nodes stay registered. -/
theorem SimulatedRagdollToolsNode.compileExitOptions_exits (p : Nat)
    (pins : List (Option FlowToolsNode)) (i : Nat) (context : GraphCompilationContext)
    (exits : List Int) (h : context.SimulatedAt p exits) :
    (∃ written, (SimulatedRagdollToolsNode.compileExitOptions p i pins context).2.1.SimulatedAt p
        written ∧
      ((SimulatedRagdollToolsNode.compileExitOptions p i pins context).1 = none →
        written = exits ++ (compiledInputs
          (SimulatedRagdollToolsNode.compileExitOptions p i pins context).2.2).map Prod.snd)) ∧
    ((SimulatedRagdollToolsNode.compileExitOptions p i pins context).1 = none →
      ∀ x ∈ compiledInputs (SimulatedRagdollToolsNode.compileExitOptions p i pins context).2.2,
        x.2 ≠ InvalidIndex) ∧
    (∀ returned, (SimulatedRagdollToolsNode.compileExitOptions p i pins context).1 = some returned →
      ∃ pinIdx, (pinIdx, InvalidIndex)
        ∈ compiledInputs (SimulatedRagdollToolsNode.compileExitOptions p i pins context).2.2) ∧
    (∀ x ∈ compiledInputs (SimulatedRagdollToolsNode.compileExitOptions p i pins context).2.2,
      i ≤ x.1) ∧
    ((∀ pin ∈ pins, pin = none) →
      compiledInputs (SimulatedRagdollToolsNode.compileExitOptions p i pins context).2.2 = []) ∧
    context.RegisteredIn (SimulatedRagdollToolsNode.compileExitOptions p i pins context).2.1 := by
  induction pins generalizing i context exits with
  | nil =>
    simp only [SimulatedRagdollToolsNode.compileExitOptions, compiledInputs]
    exact ⟨⟨exits, h, fun _ => by simp⟩, fun _ x hx => absurd hx (by simp),
      fun _ hr => absurd hr (by simp), fun x hx => absurd hx (by simp), fun _ => trivial,
      fun _ _ hreg => hreg⟩
  | cons pin pins ih =>
    cases pin with
    | none =>
      simp only [SimulatedRagdollToolsNode.compileExitOptions]
      obtain ⟨h1, h2, h3, h4, h5, h6⟩ := ih (i + 1) context exits h
      exact ⟨h1, h2, h3, fun x hx => Nat.le_of_succ_le (h4 x hx),
        fun hall => h5 (fun pin hpin => hall pin (List.mem_cons_of_mem _ hpin)), h6⟩
    | some child =>
      simp only [SimulatedRagdollToolsNode.compileExitOptions]
      by_cases hres : (child.Compile context).1 ≠ InvalidIndex
      · rw [if_pos hres]
        have hw := (h.afterInput child).written (fun definition =>
          { definition with
            m_exitOptionNodeIndices :=
              definition.m_exitOptionNodeIndices ++ [(child.Compile context).1] })
          (fun _ => rfl) (exits ++ [(child.Compile context).1])
          (fun definition hd => by simp only; rw [hd])
        obtain ⟨⟨written, hat, hwritten⟩, h2, h3, h4, h5, h6⟩ := ih (i + 1) _ _ hw
        have htrace : ∀ rest : List CompileOp,
            compiledInputs ([CompileOp.compileInput i (child.Compile context).1,
              CompileOp.writeReference ReferenceField.m_exitOptionNodeIndices
                (child.Compile context).1] ++ rest)
            = (i, (child.Compile context).1) :: compiledInputs rest := fun _ => rfl
        simp only [htrace]
        refine ⟨⟨written, hat, ?_⟩, ?_, ?_, ?_, ?_, ?_⟩
        · intro hnone
          rw [hwritten hnone]
          simp
        · intro hnone x hx
          rcases List.mem_cons.mp hx with heq | hx
          · rw [heq]
            exact hres
          · exact h2 hnone x hx
        · intro returned hr
          obtain ⟨pinIdx, hmem⟩ := h3 returned hr
          exact ⟨pinIdx, List.mem_cons_of_mem _ hmem⟩
        · intro x hx
          rcases List.mem_cons.mp hx with heq | hx
          · rw [heq]
          · exact Nat.le_of_succ_le (h4 x hx)
        · intro hall
          exact absurd (hall (some child) (List.mem_cons_self _ _)) (by simp)
        · have hwrite : (child.Compile context).2.RegisteredIn
              ((child.Compile context).2.writeSimulated p (fun definition =>
                { definition with
                  m_exitOptionNodeIndices :=
                    definition.m_exitOptionNodeIndices ++ [(child.Compile context).1] })) :=
            fun _ _ hreg => hreg
          exact (GraphCompilationContext.RegisteredIn.compiled context child).then
            (hwrite.then h6)
      · rw [if_neg hres]
        have hinv : (child.Compile context).1 = InvalidIndex := not_not.mp hres
        simp only [compiledInputs]
        refine ⟨⟨exits, h.afterInput child, fun hnone => absurd hnone (by simp)⟩,
          fun hnone => absurd hnone (by simp), ?_, ?_, ?_,
          GraphCompilationContext.RegisteredIn.compiled context child⟩
        · intro _ _
          exact ⟨i, by rw [hinv]; exact List.mem_singleton.mpr rfl⟩
        · intro x hx
          rw [List.mem_singleton.mp hx]
        · intro hall
          exact absurd (hall (some child) (List.mem_cons_self _ _)) (by simp)

/-- The exit profile check and the literal members, for a definition with the exit options
`exits`: `InvalidIndex` when there are exit options and the exit profile is not valid, the slot
otherwise. -/
theorem SimulatedRagdollToolsNode.compileSettings_exits (node : SimulatedRagdollToolsNode)
    (p : Nat) (context : GraphCompilationContext) (exits : List Int)
    (h : context.SimulatedAt p exits) :
    (node.compileSettings p context).context.nodeIdxAt p = (p : Int) ∧
    context.RegisteredIn (node.compileSettings p context).context ∧
    compiledInputs (node.compileSettings p context).trace = [] ∧
    (node.compileSettings p context).result
      = if (!exits.isEmpty && !node.m_exitProfileID.IsValid) = true then InvalidIndex
        else (p : Int) := by
  unfold SimulatedRagdollToolsNode.compileSettings
  rw [h.exitsAt]
  by_cases hcond : (!exits.isEmpty && !node.m_exitProfileID.IsValid) = true
  · rw [if_pos hcond, if_pos hcond]
    exact ⟨(h.logged _ _).idx, fun _ _ hreg => hreg, rfl, rfl⟩
  · rw [if_neg hcond, if_neg hcond]
    have hw := (h.resource (node.ragdollDefinitionResourceID context.m_variationID)).written
      (fun definition =>
        { definition with
          m_dataSlotIdx := (context.RegisterResource
            (node.ragdollDefinitionResourceID context.m_variationID)).1
          m_entryProfileID := node.m_entryProfileID
          m_simulatedProfileID := node.m_simulatedProfileID
          m_exitProfileID := node.m_exitProfileID }) (fun _ => rfl) exits (fun _ hd => hd)
    exact ⟨hw.idx, GraphCompilationContext.RegisteredIn.registered context _, rfl, hw.idx⟩

/-- The exits and what follows, for a definition that has no exit options yet. -/
theorem SimulatedRagdollToolsNode.compileExits_staged (node : SimulatedRagdollToolsNode)
    (p : Nat) (context : GraphCompilationContext) (h : context.SimulatedAt p []) :
    (node.compileExits p context).context.nodeIdxAt p = (p : Int) ∧
    context.RegisteredIn (node.compileExits p context).context ∧
    (∀ x ∈ compiledInputs (node.compileExits p context).trace, 1 ≤ x.1) ∧
    ((∀ pin ∈ node.m_inputs.drop 1, pin = none) →
      compiledInputs (node.compileExits p context).trace = []) ∧
    ((∀ x ∈ compiledInputs (node.compileExits p context).trace, x.2 ≠ InvalidIndex) →
      (node.compileExits p context).result
        = if (!(compiledInputs (node.compileExits p context).trace).isEmpty
              && !node.m_exitProfileID.IsValid) = true then InvalidIndex
          else (p : Int)) := by
  obtain ⟨⟨written, hat, hwritten⟩, _, h3, h4, h5, h6⟩ :=
    SimulatedRagdollToolsNode.compileExitOptions_exits p (node.m_inputs.drop 1) 1 context [] h
  rcases Option.eq_none_or_eq_some (SimulatedRagdollToolsNode.compileExitOptions p 1
      (node.m_inputs.drop 1) context).1 with hexit | ⟨returned, hexit⟩
  · have heq : node.compileExits p context
        = (node.compileSettings p (SimulatedRagdollToolsNode.compileExitOptions p 1
            (node.m_inputs.drop 1) context).2.1).after
          (SimulatedRagdollToolsNode.compileExitOptions p 1 (node.m_inputs.drop 1)
            context).2.2 := by
      unfold SimulatedRagdollToolsNode.compileExits
      simp only
      rw [hexit]
    rw [heq]
    obtain ⟨s1, s2, s3, s4⟩ := node.compileSettings_exits p _ written hat
    have htrace : compiledInputs ((node.compileSettings p
        (SimulatedRagdollToolsNode.compileExitOptions p 1 (node.m_inputs.drop 1)
          context).2.1).after
        (SimulatedRagdollToolsNode.compileExitOptions p 1 (node.m_inputs.drop 1)
          context).2.2).trace
        = compiledInputs (SimulatedRagdollToolsNode.compileExitOptions p 1
            (node.m_inputs.drop 1) context).2.2 := by
      show compiledInputs (_ ++ _) = _
      rw [compiledInputs_append, s3, List.append_nil]
    rw [htrace]
    refine ⟨s1, h6.then s2, h4, h5, ?_⟩
    intro _
    show (node.compileSettings p _).result = _
    rw [s4, hwritten hexit]
    simp
  · have heq : node.compileExits p context
        = { result := returned
            context := (SimulatedRagdollToolsNode.compileExitOptions p 1
              (node.m_inputs.drop 1) context).2.1
            trace := (SimulatedRagdollToolsNode.compileExitOptions p 1
              (node.m_inputs.drop 1) context).2.2 } := by
      unfold SimulatedRagdollToolsNode.compileExits
      simp only
      rw [hexit]
    rw [heq]
    refine ⟨hat.idx, h6, h4, h5, ?_⟩
    intro hall
    obtain ⟨pinIdx, hmem⟩ := h3 returned hexit
    exact absurd rfl (hall _ hmem)

/-- The entry input and what follows, for a definition that has no exit options yet. -/
theorem SimulatedRagdollToolsNode.compileEntry_staged (node : SimulatedRagdollToolsNode)
    (p : Nat) (context : GraphCompilationContext) (h : context.SimulatedAt p []) :
    (node.compileEntry p context).context.nodeIdxAt p = (p : Int) ∧
    context.RegisteredIn (node.compileEntry p context).context ∧
    (node.GetConnectedInputNode 0 = none →
      (node.compileEntry p context).result = InvalidIndex ∧
      compiledInputs (node.compileEntry p context).trace = []) ∧
    ((∀ pin ∈ node.m_inputs.drop 1, pin = none) →
      ∀ x ∈ compiledInputs (node.compileEntry p context).trace, x.1 = 0) ∧
    (node.GetConnectedInputNode 0 ≠ none →
      (∀ x ∈ compiledInputs (node.compileEntry p context).trace, x.2 ≠ InvalidIndex) →
      ((node.compileEntry p context).result = InvalidIndex ∨
        (node.compileEntry p context).result = (p : Int)) ∧
      ((node.compileEntry p context).result = InvalidIndex ↔
        node.m_exitProfileID.IsValid = false ∧
          ∃ x ∈ compiledInputs (node.compileEntry p context).trace, 1 ≤ x.1)) := by
  unfold SimulatedRagdollToolsNode.compileEntry
  cases hpin : node.GetConnectedInputNode 0 with
  | none =>
    simp only
    exact ⟨(h.logged _ _).idx, fun _ _ hreg => hreg,
      fun _ => ⟨trivial, rfl⟩,
      fun _ x hx => absurd hx (by simp [compiledInputs]), fun hne => absurd rfl hne⟩
  | some child =>
    simp only
    by_cases hres : (child.Compile context).1 ≠ InvalidIndex
    · rw [if_pos hres]
      have hw := (h.afterInput child).written
        (fun definition => { definition with m_entryNodeIdx := (child.Compile context).1 })
        (fun _ => rfl) [] (fun _ hd => hd)
      obtain ⟨e1, e2, e3, e4, e5⟩ := node.compileExits_staged p _ hw
      have hwrite : (child.Compile context).2.RegisteredIn
          ((child.Compile context).2.writeSimulated p
            (fun definition => { definition with m_entryNodeIdx := (child.Compile context).1 })) :=
        fun _ _ hreg => hreg
      have htrace : ∀ outcome : CompileOutcome,
          compiledInputs (outcome.after [CompileOp.compileInput 0 (child.Compile context).1,
            CompileOp.writeReference ReferenceField.m_entryNodeIdx
              (child.Compile context).1]).trace
          = (0, (child.Compile context).1) :: compiledInputs outcome.trace := fun _ => rfl
      rw [htrace]
      refine ⟨e1, (GraphCompilationContext.RegisteredIn.compiled context child).then
        (hwrite.then e2), fun hnone => absurd hnone (by simp), ?_, ?_⟩
      · intro hall x hx
        rw [e4 hall] at hx
        rw [List.mem_singleton.mp hx]
      · intro _ hall
        have hexits := e5 (fun x hx => hall x (List.mem_cons_of_mem _ hx))
        have hres2 : ∀ outcome : CompileOutcome,
            (outcome.after [CompileOp.compileInput 0 (child.Compile context).1,
              CompileOp.writeReference ReferenceField.m_entryNodeIdx
                (child.Compile context).1]).result = outcome.result := fun _ => rfl
        rw [hres2, hexits]
        by_cases hcond : (!(compiledInputs (node.compileExits p
            ((child.Compile context).2.writeSimulated p (fun definition =>
              { definition with m_entryNodeIdx := (child.Compile context).1 }))).trace).isEmpty
              && !node.m_exitProfileID.IsValid) = true
        · rw [if_pos hcond]
          refine ⟨Or.inl rfl, fun _ => ?_, fun _ => rfl⟩
          simp only [Bool.and_eq_true, Bool.not_eq_true', List.isEmpty_eq_false] at hcond
          obtain ⟨x, hx⟩ := List.exists_mem_of_ne_nil _ hcond.1
          exact ⟨hcond.2, x, List.mem_cons_of_mem _ hx, e3 x hx⟩
        · rw [if_neg hcond]
          refine ⟨Or.inr rfl, fun hinv => absurd hinv (InvalidIndex_ne_slot p), ?_⟩
          rintro ⟨hexit, x, hx, hle⟩
          exfalso
          apply hcond
          rcases List.mem_cons.mp hx with heq | hx
          · rw [heq] at hle
            simp at hle
          · simp only [Bool.and_eq_true, Bool.not_eq_true', List.isEmpty_eq_false]
            exact ⟨List.ne_nil_of_mem hx, hexit⟩
    · rw [if_neg hres]
      have hinv : (child.Compile context).1 = InvalidIndex := not_not.mp hres
      simp only [compiledInputs]
      refine ⟨(h.afterInput child).idx, GraphCompilationContext.RegisteredIn.compiled context child,
        fun hnone => absurd hnone (by simp), ?_, ?_⟩
      · intro _ x hx
        rw [List.mem_singleton.mp hx]
      · intro _ hall
        exact absurd hinv (hall _ (List.mem_singleton.mpr rfl))

theorem SimulatedRagdollToolsNode.compileProfiles_valid (node : SimulatedRagdollToolsNode)
    (p : Nat) (context : GraphCompilationContext)
    (hentry : node.m_entryProfileID.IsValid = true)
    (hsimulated : node.m_simulatedProfileID.IsValid = true) :
    node.compileProfiles p context = node.compileEntry p context := by
  unfold SimulatedRagdollToolsNode.compileProfiles
  rw [hentry, hsimulated]
  rfl

theorem SimulatedRagdollToolsNode.compileProfiles_invalid (node : SimulatedRagdollToolsNode)
    (p : Nat) (context : GraphCompilationContext)
    (hinvalid : node.m_entryProfileID.IsValid = false ∨
      node.m_simulatedProfileID.IsValid = false) :
    (node.compileProfiles p context).result = InvalidIndex ∧
    compiledInputs (node.compileProfiles p context).trace = [] ∧
    (node.compileProfiles p context).context.m_nodeDefinitions = context.m_nodeDefinitions ∧
    (node.compileProfiles p context).context.m_nodeIDToIndexMap
      = context.m_nodeIDToIndexMap := by
  unfold SimulatedRagdollToolsNode.compileProfiles
  cases hentry : node.m_entryProfileID.IsValid
  · exact ⟨rfl, rfl, rfl, rfl⟩
  · cases hsimulated : node.m_simulatedProfileID.IsValid
    · exact ⟨rfl, rfl, rfl, rfl⟩
    · rw [hentry, hsimulated] at hinvalid
      simp at hinvalid

theorem SimulatedRagdollToolsNode.simulated_Compile_need (node : SimulatedRagdollToolsNode)
    (context : GraphCompilationContext)
    (hneed : (node.GetDefinition context).state = NodeCompilationState.NeedCompilation) :
    node.Compile context
      = node.compileProfiles (node.GetDefinition context).pDefinition
          (node.GetDefinition context).context := by
  unfold SimulatedRagdollToolsNode.Compile
  simp only
  rw [if_pos hneed]

/-- The profile identifiers, the inputs and what follows, for a definition that has no exit
options yet: the slot keeps its `m_nodeIdx`, the registered nodes stay registered, and when no
input compiled to `InvalidIndex` the result is `InvalidIndex` or the slot. -/
theorem SimulatedRagdollToolsNode.compileProfiles_staged (node : SimulatedRagdollToolsNode)
    (p : Nat) (context : GraphCompilationContext) (h : context.SimulatedAt p []) :
    (node.compileProfiles p context).context.nodeIdxAt p = (p : Int) ∧
    context.RegisteredIn (node.compileProfiles p context).context ∧
    ((∀ x ∈ compiledInputs (node.compileProfiles p context).trace, x.2 ≠ InvalidIndex) →
      (node.compileProfiles p context).result = InvalidIndex ∨
        (node.compileProfiles p context).result = (p : Int)) := by
  by_cases hvalid : node.m_entryProfileID.IsValid = true ∧
      node.m_simulatedProfileID.IsValid = true
  · rw [node.compileProfiles_valid p context hvalid.1 hvalid.2]
    obtain ⟨e1, e2, e3, _, e5⟩ := node.compileEntry_staged p context h
    refine ⟨e1, e2, fun hall => ?_⟩
    cases hpin : node.GetConnectedInputNode 0 with
    | none => exact Or.inl (e3 hpin).1
    | some child => exact (e5 (by rw [hpin]; simp) hall).1
  · have hinvalid : node.m_entryProfileID.IsValid = false ∨
        node.m_simulatedProfileID.IsValid = false := by
      cases hentry : node.m_entryProfileID.IsValid
      · exact Or.inl rfl
      · cases hsimulated : node.m_simulatedProfileID.IsValid
        · exact Or.inr rfl
        · exact absurd ⟨hentry, hsimulated⟩ hvalid
    obtain ⟨i1, _, i3, i4⟩ := node.compileProfiles_invalid p context hinvalid
    refine ⟨?_, ?_, fun _ => Or.inl i1⟩
    · have hidx := h.idx
      unfold GraphCompilationContext.nodeIdxAt at hidx ⊢
      rw [i3]
      exact hidx
    · intro nodeID slot hreg
      rw [i4]
      exact hreg

/-- After `SimulatedRagdollToolsNode::Compile` the nodes that were registered are registered
still, and the node is registered to the slot `GetDefinition` handed back. -/
theorem SimulatedRagdollToolsNode.simulated_Compile_registered
    (node : SimulatedRagdollToolsNode) (context : GraphCompilationContext) :
    context.RegisteredIn (node.Compile context).context ∧
    (node.Compile context).context.m_nodeIDToIndexMap node.nodeID
      = some (node.GetDefinition context).pDefinition := by
  have hkeep : context.RegisteredIn (node.GetDefinition context).context :=
    context.GetDefinition_keeps node.nodeID _
  have hreg : (node.GetDefinition context).context.m_nodeIDToIndexMap node.nodeID
      = some (node.GetDefinition context).pDefinition :=
    context.GetDefinition_registered node.nodeID _
  by_cases hneed : (node.GetDefinition context).state = NodeCompilationState.NeedCompilation
  · rw [node.simulated_Compile_need context hneed]
    have hstage := (node.compileProfiles_staged _ _ (node.GetDefinition_created context hneed)).2.1
    exact ⟨hkeep.then hstage, hstage _ _ hreg⟩
  · have h := node.simulated_Compile_compiled context hneed
    rw [h.2.2.2]
    exact ⟨fun _ _ hr => hr, h.2.1⟩

/-- When `SimulatedRagdollToolsNode::Compile` returns an index and no input compiled to
`InvalidIndex`, the index is the `m_nodeIdx` of the definition in the node's slot. -/
theorem SimulatedRagdollToolsNode.simulated_Compile_index (node : SimulatedRagdollToolsNode)
    (context : GraphCompilationContext)
    (hres : (node.Compile context).result ≠ InvalidIndex)
    (hall : ∀ x ∈ compiledInputs (node.Compile context).trace, x.2 ≠ InvalidIndex) :
    (node.Compile context).result
      = (node.Compile context).context.nodeIdxAt (node.GetDefinition context).pDefinition := by
  by_cases hneed : (node.GetDefinition context).state = NodeCompilationState.NeedCompilation
  · rw [node.simulated_Compile_need context hneed] at hres hall ⊢
    obtain ⟨s1, _, s3⟩ :=
      node.compileProfiles_staged _ _ (node.GetDefinition_created context hneed)
    rcases s3 hall with hinv | hslot
    · exact absurd hinv hres
    · rw [hslot, s1]
  · have h := node.simulated_Compile_compiled context hneed
    rw [h.2.2.2]
    exact h.1

/-! ### The claims on compiling a node again -/

/-- C22: at-most-once compilation. When `GetDefinition` reports that the node has a definition
already (the state is not `NeedCompilation`), `PoweredRagdollToolsNode::Compile` and
`SimulatedRagdollToolsNode::Compile` return the `m_nodeIdx` of the definition in the slot the
node is registered to, and do nothing else: the trace of their operations is empty, so that no
input is compiled, no member of the definition is written, no error is logged and no resource
is registered, and the context is left as it was. -/
theorem C22_compiled_node_is_not_compiled_again (powered : PoweredRagdollToolsNode)
    (simulated : SimulatedRagdollToolsNode) (context : GraphCompilationContext) :
    ((powered.GetDefinition context).state ≠ NodeCompilationState.NeedCompilation →
      (powered.Compile context).result
        = context.nodeIdxAt (powered.GetDefinition context).pDefinition ∧
      context.m_nodeIDToIndexMap powered.nodeID
        = some (powered.GetDefinition context).pDefinition ∧
      (powered.Compile context).trace = [] ∧
      (powered.Compile context).context = context) ∧
    ((simulated.GetDefinition context).state ≠ NodeCompilationState.NeedCompilation →
      (simulated.Compile context).result
        = context.nodeIdxAt (simulated.GetDefinition context).pDefinition ∧
      context.m_nodeIDToIndexMap simulated.nodeID
        = some (simulated.GetDefinition context).pDefinition ∧
      (simulated.Compile context).trace = [] ∧
      (simulated.Compile context).context = context) :=
  ⟨powered.Compile_compiled context, simulated.simulated_Compile_compiled context⟩

/-- C22 in the context in which the example powered node (slot 0) and the example simulated
node (slot 2) have been compiled: compiled again, each returns its slot and performs no
operation. -/
theorem C22_witness :
    ((examplePoweredRagdoll (some (exampleClipToolsNode 1)) none none none).GetDefinition
      exampleContextAfterRagdolls).state = NodeCompilationState.AlreadyCompiled ∧
    ((exampleSimulatedRagdoll { m_ID := 3, valid := true }
      [some (exampleClipToolsNode 1), some (exampleClipToolsNode 2)]).GetDefinition
      exampleContextAfterRagdolls).state = NodeCompilationState.AlreadyCompiled ∧
    exampleContextAfterRagdolls.nodeIdxAt 0 = 0 ∧
    exampleContextAfterRagdolls.nodeIdxAt 2 = 2 ∧
    (((examplePoweredRagdoll (some (exampleClipToolsNode 1)) none none none).Compile
        exampleContextAfterRagdolls).result
      = exampleContextAfterRagdolls.nodeIdxAt
          ((examplePoweredRagdoll (some (exampleClipToolsNode 1)) none none none).GetDefinition
            exampleContextAfterRagdolls).pDefinition ∧
      exampleContextAfterRagdolls.m_nodeIDToIndexMap
          (examplePoweredRagdoll (some (exampleClipToolsNode 1)) none none none).nodeID
        = some ((examplePoweredRagdoll (some (exampleClipToolsNode 1)) none none
            none).GetDefinition exampleContextAfterRagdolls).pDefinition ∧
      ((examplePoweredRagdoll (some (exampleClipToolsNode 1)) none none none).Compile
        exampleContextAfterRagdolls).trace = [] ∧
      ((examplePoweredRagdoll (some (exampleClipToolsNode 1)) none none none).Compile
        exampleContextAfterRagdolls).context = exampleContextAfterRagdolls) ∧
    (((exampleSimulatedRagdoll { m_ID := 3, valid := true }
        [some (exampleClipToolsNode 1), some (exampleClipToolsNode 2)]).Compile
        exampleContextAfterRagdolls).result
      = exampleContextAfterRagdolls.nodeIdxAt
          ((exampleSimulatedRagdoll { m_ID := 3, valid := true }
            [some (exampleClipToolsNode 1), some (exampleClipToolsNode 2)]).GetDefinition
            exampleContextAfterRagdolls).pDefinition ∧
      exampleContextAfterRagdolls.m_nodeIDToIndexMap
          (exampleSimulatedRagdoll { m_ID := 3, valid := true }
            [some (exampleClipToolsNode 1), some (exampleClipToolsNode 2)]).nodeID
        = some ((exampleSimulatedRagdoll { m_ID := 3, valid := true }
            [some (exampleClipToolsNode 1), some (exampleClipToolsNode 2)]).GetDefinition
            exampleContextAfterRagdolls).pDefinition ∧
      ((exampleSimulatedRagdoll { m_ID := 3, valid := true }
        [some (exampleClipToolsNode 1), some (exampleClipToolsNode 2)]).Compile
        exampleContextAfterRagdolls).trace = [] ∧
      ((exampleSimulatedRagdoll { m_ID := 3, valid := true }
        [some (exampleClipToolsNode 1), some (exampleClipToolsNode 2)]).Compile
        exampleContextAfterRagdolls).context = exampleContextAfterRagdolls) :=
  ⟨rfl, rfl, rfl, rfl,
    (C22_compiled_node_is_not_compiled_again
      (examplePoweredRagdoll (some (exampleClipToolsNode 1)) none none none)
      (exampleSimulatedRagdoll { m_ID := 3, valid := true }
        [some (exampleClipToolsNode 1), some (exampleClipToolsNode 2)])
      exampleContextAfterRagdolls).1 (by decide),
    (C22_compiled_node_is_not_compiled_again
      (examplePoweredRagdoll (some (exampleClipToolsNode 1)) none none none)
      (exampleSimulatedRagdoll { m_ID := 3, valid := true }
        [some (exampleClipToolsNode 1), some (exampleClipToolsNode 2)])
      exampleContextAfterRagdolls).2 (by decide)⟩

/-- C21 as stated fails, at two inputs. A powered ragdoll node with no input connected is
compiled in the empty context: `Compile` creates its definition (slot 0), logs the disconnected
pin and returns `InvalidIndex`; compiled again in the context the first call left, it finds the
definition and returns its slot, 0. And a simulated ragdoll node whose entry compiles and whose
exit option on pin 1 does not, compiled in a context that holds one definition: the first call
creates its definition in slot 1 and returns 0, the value of `return false`; the second call
returns the slot, 1. In both the two calls leave one definition for the node. -/
theorem C21_counterexample :
    ((examplePoweredRagdoll none none none none).Compile exampleCompilationContext).result
      = InvalidIndex ∧
    ((examplePoweredRagdoll none none none none).Compile
      ((examplePoweredRagdoll none none none none).Compile
        exampleCompilationContext).context).result = 0 ∧
    ((examplePoweredRagdoll none none none none).Compile
      ((examplePoweredRagdoll none none none none).Compile
        exampleCompilationContext).context).context.m_nodeDefinitions.length = 1 ∧
    ((exampleSimulatedRagdoll { m_ID := 3, valid := true }
        [some (exampleClipToolsNode 1), some exampleBrokenToolsNode]).Compile
      exampleContextAfterClip).result = 0 ∧
    ((exampleSimulatedRagdoll { m_ID := 3, valid := true }
        [some (exampleClipToolsNode 1), some exampleBrokenToolsNode]).Compile
      ((exampleSimulatedRagdoll { m_ID := 3, valid := true }
        [some (exampleClipToolsNode 1), some exampleBrokenToolsNode]).Compile
      exampleContextAfterClip).context).result = 1 := by
  refine ⟨rfl, rfl, rfl, rfl, rfl⟩

/-- C21, amended: compiling a ragdoll node again gives the same index when the first `Compile`
gave an index. Let the first `Compile` of the node, in any context, return an index other than
`InvalidIndex`, for a simulated ragdoll node with none of its inputs having compiled to
`InvalidIndex`; and let `later` be any context of the same pass reached from the one the first
call left, through the same parent or another: the definitions of the array are still in place
and the registered nodes still registered. Then `Compile` in `later` returns the identical
index, performs no operation and leaves `later` as it is, so that no definition is added, and
the node is registered to the one slot its definition was created in or found in. -/
theorem C21_compiled_again_returns_same_index (powered : PoweredRagdollToolsNode)
    (simulated : SimulatedRagdollToolsNode) (context later : GraphCompilationContext) :
    ((powered.Compile context).result ≠ InvalidIndex →
      later.m_nodeDefinitions.take (powered.Compile context).context.m_nodeDefinitions.length
        = (powered.Compile context).context.m_nodeDefinitions →
      (powered.Compile context).context.RegisteredIn later →
        (powered.Compile later).result = (powered.Compile context).result ∧
        (powered.Compile later).trace = [] ∧
        (powered.Compile later).context = later ∧
        later.m_nodeIDToIndexMap powered.nodeID
          = some (powered.GetDefinition context).pDefinition) ∧
    ((simulated.Compile context).result ≠ InvalidIndex →
      (∀ x ∈ compiledInputs (simulated.Compile context).trace, x.2 ≠ InvalidIndex) →
      later.m_nodeDefinitions.take (simulated.Compile context).context.m_nodeDefinitions.length
        = (simulated.Compile context).context.m_nodeDefinitions →
      (simulated.Compile context).context.RegisteredIn later →
        (simulated.Compile later).result = (simulated.Compile context).result ∧
        (simulated.Compile later).trace = [] ∧
        (simulated.Compile later).context = later ∧
        later.m_nodeIDToIndexMap simulated.nodeID
          = some (simulated.GetDefinition context).pDefinition) := by
  constructor
  · intro hres hdefs hreg
    have hlater : later.m_nodeIDToIndexMap powered.nodeID
        = some (powered.GetDefinition context).pDefinition :=
      hreg _ _ (powered.Compile_registered context).2
    have hg : (powered.GetDefinition later).state ≠ NodeCompilationState.NeedCompilation ∧
        (powered.GetDefinition later).pDefinition = (powered.GetDefinition context).pDefinition :=
      later.GetDefinition_of_registered powered.nodeID _ _ hlater
    have hc := powered.Compile_compiled later hg.1
    have hidx := powered.Compile_index context hres
    have hkept := GraphCompilationContext.nodeIdxAt_kept (powered.Compile context).context later
      (powered.GetDefinition context).pDefinition hdefs (by rw [← hidx]; exact hres)
    refine ⟨?_, hc.2.2.1, hc.2.2.2, hlater⟩
    rw [hc.1, hg.2, hkept, ← hidx]
  · intro hres hall hdefs hreg
    have hlater : later.m_nodeIDToIndexMap simulated.nodeID
        = some (simulated.GetDefinition context).pDefinition :=
      hreg _ _ (simulated.simulated_Compile_registered context).2
    have hg : (simulated.GetDefinition later).state ≠ NodeCompilationState.NeedCompilation ∧
        (simulated.GetDefinition later).pDefinition
          = (simulated.GetDefinition context).pDefinition :=
      later.GetDefinition_of_registered simulated.nodeID _ _ hlater
    have hc := simulated.simulated_Compile_compiled later hg.1
    have hidx := simulated.simulated_Compile_index context hres hall
    have hkept := GraphCompilationContext.nodeIdxAt_kept (simulated.Compile context).context
      later (simulated.GetDefinition context).pDefinition hdefs (by rw [← hidx]; exact hres)
    refine ⟨?_, hc.2.2.1, hc.2.2.2, hlater⟩
    rw [hc.1, hg.2, hkept, ← hidx]

/-- C21, amended, on the example nodes, each compiled, then a node of another parent compiled
(identity 7), then the ragdoll node compiled again: the powered node gives slot 0 both times
and the simulated node slot 1 both times, and the second call leaves the context as it is. -/
theorem C21_witness :
    ((examplePoweredRagdoll (some (exampleClipToolsNode 1)) none none none).Compile
      exampleCompilationContext).result = 0 ∧
    (((examplePoweredRagdoll (some (exampleClipToolsNode 1)) none none none).Compile
        ((exampleClipToolsNode 7).Compile
          ((examplePoweredRagdoll (some (exampleClipToolsNode 1)) none none none).Compile
            exampleCompilationContext).context).2).result = 0 ∧
      ((examplePoweredRagdoll (some (exampleClipToolsNode 1)) none none none).Compile
        ((exampleClipToolsNode 7).Compile
          ((examplePoweredRagdoll (some (exampleClipToolsNode 1)) none none none).Compile
            exampleCompilationContext).context).2).context
        = ((exampleClipToolsNode 7).Compile
          ((examplePoweredRagdoll (some (exampleClipToolsNode 1)) none none none).Compile
            exampleCompilationContext).context).2) ∧
    ((exampleSimulatedRagdoll { m_ID := 3, valid := true }
        [some (exampleClipToolsNode 1), some (exampleClipToolsNode 2)]).Compile
      exampleContextAfterClip).result = 1 ∧
    (((exampleSimulatedRagdoll { m_ID := 3, valid := true }
        [some (exampleClipToolsNode 1), some (exampleClipToolsNode 2)]).Compile
        ((exampleClipToolsNode 7).Compile
          ((exampleSimulatedRagdoll { m_ID := 3, valid := true }
            [some (exampleClipToolsNode 1), some (exampleClipToolsNode 2)]).Compile
            exampleContextAfterClip).context).2).result = 1 ∧
      ((exampleSimulatedRagdoll { m_ID := 3, valid := true }
        [some (exampleClipToolsNode 1), some (exampleClipToolsNode 2)]).Compile
        ((exampleClipToolsNode 7).Compile
          ((exampleSimulatedRagdoll { m_ID := 3, valid := true }
            [some (exampleClipToolsNode 1), some (exampleClipToolsNode 2)]).Compile
            exampleContextAfterClip).context).2).context
        = ((exampleClipToolsNode 7).Compile
          ((exampleSimulatedRagdoll { m_ID := 3, valid := true }
            [some (exampleClipToolsNode 1), some (exampleClipToolsNode 2)]).Compile
            exampleContextAfterClip).context).2) :=
  ⟨rfl,
    ⟨(((C21_compiled_again_returns_same_index
        (examplePoweredRagdoll (some (exampleClipToolsNode 1)) none none none)
        (exampleSimulatedRagdoll { m_ID := 3, valid := true }
          [some (exampleClipToolsNode 1), some (exampleClipToolsNode 2)])
        exampleCompilationContext
        ((exampleClipToolsNode 7).Compile
          ((examplePoweredRagdoll (some (exampleClipToolsNode 1)) none none none).Compile
            exampleCompilationContext).context).2).1 (by decide)
        ((exampleClipToolsNode 7).keepsDefinitions _)
        (GraphCompilationContext.RegisteredIn.compiled _ (exampleClipToolsNode 7))).1).trans rfl,
      ((C21_compiled_again_returns_same_index
        (examplePoweredRagdoll (some (exampleClipToolsNode 1)) none none none)
        (exampleSimulatedRagdoll { m_ID := 3, valid := true }
          [some (exampleClipToolsNode 1), some (exampleClipToolsNode 2)])
        exampleCompilationContext
        ((exampleClipToolsNode 7).Compile
          ((examplePoweredRagdoll (some (exampleClipToolsNode 1)) none none none).Compile
            exampleCompilationContext).context).2).1 (by decide)
        ((exampleClipToolsNode 7).keepsDefinitions _)
        (GraphCompilationContext.RegisteredIn.compiled _ (exampleClipToolsNode 7))).2.2.1⟩,
    rfl,
    ⟨(((C21_compiled_again_returns_same_index
        (examplePoweredRagdoll (some (exampleClipToolsNode 1)) none none none)
        (exampleSimulatedRagdoll { m_ID := 3, valid := true }
          [some (exampleClipToolsNode 1), some (exampleClipToolsNode 2)])
        exampleContextAfterClip
        ((exampleClipToolsNode 7).Compile
          ((exampleSimulatedRagdoll { m_ID := 3, valid := true }
            [some (exampleClipToolsNode 1), some (exampleClipToolsNode 2)]).Compile
            exampleContextAfterClip).context).2).2 (by decide) (by decide)
        ((exampleClipToolsNode 7).keepsDefinitions _)
        (GraphCompilationContext.RegisteredIn.compiled _ (exampleClipToolsNode 7))).1).trans rfl,
      ((C21_compiled_again_returns_same_index
        (examplePoweredRagdoll (some (exampleClipToolsNode 1)) none none none)
        (exampleSimulatedRagdoll { m_ID := 3, valid := true }
          [some (exampleClipToolsNode 1), some (exampleClipToolsNode 2)])
        exampleContextAfterClip
        ((exampleClipToolsNode 7).Compile
          ((exampleSimulatedRagdoll { m_ID := 3, valid := true }
            [some (exampleClipToolsNode 1), some (exampleClipToolsNode 2)]).Compile
            exampleContextAfterClip).context).2).2 (by decide) (by decide)
        ((exampleClipToolsNode 7).keepsDefinitions _)
        (GraphCompilationContext.RegisteredIn.compiled _ (exampleClipToolsNode 7))).2.2.1⟩⟩

/-! ### The claim on the profile identifiers -/

/-- C23 as stated fails, at two inputs, both a simulated ragdoll node that needs compilation,
with valid entry and simulated profiles and an exit profile that is not valid. With the entry
pin not connected and no exit option, `Compile` returns `InvalidIndex` although no exit option
was compiled. With an entry that compiles (to slot 2), an exit option on pin 1 that compiles
(to slot 3) and an exit option on pin 2 whose compilation returns `InvalidIndex`, in a context
that holds one definition, `Compile` returns 0, the value of `return false`, and not
`InvalidIndex`, although an exit option compiled successfully. -/
theorem C23_counterexample :
    ((exampleSimulatedRagdoll { m_ID := 0, valid := false } [none]).GetDefinition
      exampleCompilationContext).state = NodeCompilationState.NeedCompilation ∧
    ((exampleSimulatedRagdoll { m_ID := 0, valid := false } [none]).Compile
      exampleCompilationContext).result = InvalidIndex ∧
    compiledInputs ((exampleSimulatedRagdoll { m_ID := 0, valid := false } [none]).Compile
      exampleCompilationContext).trace = [] ∧
    ((exampleSimulatedRagdoll { m_ID := 0, valid := false }
        [some (exampleClipToolsNode 1), some (exampleClipToolsNode 2),
          some exampleBrokenToolsNode]).GetDefinition
      exampleContextAfterClip).state = NodeCompilationState.NeedCompilation ∧
    compiledInputs ((exampleSimulatedRagdoll { m_ID := 0, valid := false }
        [some (exampleClipToolsNode 1), some (exampleClipToolsNode 2),
          some exampleBrokenToolsNode]).Compile
      exampleContextAfterClip).trace = [(0, 2), (1, 3), (2, InvalidIndex)] ∧
    ((exampleSimulatedRagdoll { m_ID := 0, valid := false }
        [some (exampleClipToolsNode 1), some (exampleClipToolsNode 2),
          some exampleBrokenToolsNode]).Compile
      exampleContextAfterClip).result = 0 ∧
    ((exampleSimulatedRagdoll { m_ID := 0, valid := false }
        [some (exampleClipToolsNode 1), some (exampleClipToolsNode 2),
          some exampleBrokenToolsNode]).Compile
      exampleContextAfterClip).result ≠ InvalidIndex := by
  refine ⟨rfl, rfl, rfl, rfl, rfl, rfl, ?_⟩
  decide

/-- C23, amended: identifier validation in `SimulatedRagdollToolsNode::Compile`, for a node
that needs compilation. An entry profile or a simulated profile that is not valid makes
`Compile` return `InvalidIndex` with no input compiled. With both valid and the exit profile
not valid, when the entry pin is connected and no input that is compiled returns
`InvalidIndex`: `Compile` returns `InvalidIndex` or the slot of the definition, and it returns
`InvalidIndex` if and only if the node on one of the exit option pins (pins 1 and up) was
compiled, successfully; with no exit option connected it returns the slot. -/
theorem C23_profile_identifiers_validated (node : SimulatedRagdollToolsNode)
    (context : GraphCompilationContext)
    (hneed : (node.GetDefinition context).state = NodeCompilationState.NeedCompilation) :
    ((node.m_entryProfileID.IsValid = false ∨ node.m_simulatedProfileID.IsValid = false) →
      (node.Compile context).result = InvalidIndex ∧
      compiledInputs (node.Compile context).trace = []) ∧
    (node.m_entryProfileID.IsValid = true → node.m_simulatedProfileID.IsValid = true →
      node.m_exitProfileID.IsValid = false →
      node.GetConnectedInputNode 0 ≠ none →
      (∀ x ∈ compiledInputs (node.Compile context).trace, x.2 ≠ InvalidIndex) →
        ((node.Compile context).result = InvalidIndex ∨
          (node.Compile context).result = ((node.GetDefinition context).pDefinition : Int)) ∧
        ((node.Compile context).result = InvalidIndex ↔
          ∃ x ∈ compiledInputs (node.Compile context).trace, 1 ≤ x.1 ∧ x.2 ≠ InvalidIndex) ∧
        ((∀ pin ∈ node.m_inputs.drop 1, pin = none) →
          (node.Compile context).result
            = ((node.GetDefinition context).pDefinition : Int))) := by
  rw [node.simulated_Compile_need context hneed]
  constructor
  · intro hinvalid
    have h := node.compileProfiles_invalid (node.GetDefinition context).pDefinition
      (node.GetDefinition context).context hinvalid
    exact ⟨h.1, h.2.1⟩
  · intro hentry hsimulated hexit hpin hall
    rw [node.compileProfiles_valid _ _ hentry hsimulated] at hall ⊢
    obtain ⟨_, _, _, e4, e5⟩ := node.compileEntry_staged _ _
      (node.GetDefinition_created context hneed)
    obtain ⟨hcases, hiff⟩ := e5 hpin hall
    refine ⟨hcases, ?_, ?_⟩
    · rw [hiff]
      constructor
      · rintro ⟨_, x, hx, hle⟩
        exact ⟨x, hx, hle, hall x hx⟩
      · rintro ⟨x, hx, hle, _⟩
        exact ⟨hexit, x, hx, hle⟩
    · intro hnone
      rcases hcases with hinv | hslot
      · obtain ⟨_, x, hx, hle⟩ := hiff.mp hinv
        have hzero := e4 hnone x hx
        omega
      · exact hslot

/-- C23, amended, on the example node with an exit profile that is not valid, in a context
that holds one definition: with an entry and one exit option that compile, `Compile` returns
`InvalidIndex`; with the entry only, it returns the slot of the definition, 1. -/
theorem C23_witness :
    ((exampleSimulatedRagdoll { m_ID := 0, valid := false }
        [some (exampleClipToolsNode 1), some (exampleClipToolsNode 2)]).Compile
      exampleContextAfterClip).result = InvalidIndex ∧
    ((exampleSimulatedRagdoll { m_ID := 0, valid := false }
        [some (exampleClipToolsNode 1)]).Compile exampleContextAfterClip).result = 1 :=
  ⟨((C23_profile_identifiers_validated
      (exampleSimulatedRagdoll { m_ID := 0, valid := false }
        [some (exampleClipToolsNode 1), some (exampleClipToolsNode 2)])
      exampleContextAfterClip rfl).2 rfl rfl rfl
      (by simp [SimulatedRagdollToolsNode.GetConnectedInputNode, exampleSimulatedRagdoll])
      (by decide)).2.1.mpr ⟨(1, 3), by decide, by decide, by decide⟩,
    ((C23_profile_identifiers_validated
      (exampleSimulatedRagdoll { m_ID := 0, valid := false } [some (exampleClipToolsNode 1)])
      exampleContextAfterClip rfl).2 rfl rfl rfl
      (by simp [SimulatedRagdollToolsNode.GetConnectedInputNode, exampleSimulatedRagdoll])
      (by decide)).2.2
      (fun pin hpin => absurd hpin (by simp [exampleSimulatedRagdoll]))⟩

end Animation
end EE
